import Mathlib

/-!
# utest-adas: frame aggregator and window render thread

A shallow embedding of the render-queue helpers of `utest-sv.c`
(`sview_pop_buffers`, `sview_release_buffers`, `sview_purge_buffers`,
`sview_input_process`) and of the window flag machinery of
`utest-display-wayland.c` (`window_schedule_redraw`, `window_reinit_bv`,
`window_destroy`, `window_thread`), followed by theorems about them.

Conventions of the embedding
* a `GstBuffer *` is an address (`Nat`); a `GQueue` is the list of the
  addresses it holds, head first;
* every function body that runs between `pthread_mutex_lock` and
  `pthread_mutex_unlock` is one atomic state transformer;
* `BUG(cond, ...)` aborts (`UTEST_DEBUG` is 1 in `utest.h`): the function
  returns `Except.error Fault.abort`;
* calls that leave the process (`gst_buffer_ref`, `gst_buffer_unref`,
  `pthread_cond_signal`, the window hooks) are appended to a log kept in the
  state, in call order;
* 32-bit words are naturals, with the complement taken inside `2 ^ 32`.
-/

namespace Utest

/-! ## Data model -/

/-- Address of a `GstBuffer`. -/
abbrev GstBuffer := Nat

/-- Ways a call can fail to return. -/
inductive Fault where
  /-- `BUG(...)` fired: `abort()`. -/
  | abort
  /-- The C code indexes outside an array or shifts by a negative count. -/
  | undefined
  /-- A loop that never ends. -/
  | hang
  deriving DecidableEq, Repr

/-- Reference-count calls on buffers, as they leave the module. -/
inductive gst_call where
  /-- `gst_buffer_ref(b)`. -/
  | ref (b : GstBuffer)
  /-- `gst_buffer_unref(b)`. -/
  | unref (b : GstBuffer)
  deriving DecidableEq, Repr

/-- What the render thread of a window does outside the window mutex. -/
inductive window_call where
  /-- `eglMakeCurrent(dpy, window->egl, window->egl, window->user_egl_ctx)`. -/
  | make_current
  /-- `window->info->redraw(display, window->cdata)`. -/
  | redraw
  /-- `window->info->init_bv(display, window->cdata)`. -/
  | init_bv
  /-- `eglMakeCurrent(dpy, EGL_NO_SURFACE, EGL_NO_SURFACE, EGL_NO_CONTEXT)`. -/
  | release_context
  deriving DecidableEq, Repr

/-- The part of `struct window_data` the flag machinery uses: the `u32 flags`
word, the number of `pthread_cond_signal(&window->wait)` calls made so far,
and the calls made by the render thread so far. -/
structure window_data_t where
  flags : Nat
  signals : Nat
  calls : List window_call
  deriving DecidableEq, Repr

/-- The part of `app_data_t` the render-queue helpers use: `flags`, the
`frames` bitmask, the render queues `render[i]`, the window `app->window`,
and the reference-count calls made so far. -/
structure app_data_t where
  flags : Nat
  frames : Nat
  render : Nat → List GstBuffer
  window : window_data_t
  refs : List gst_call

/-- What the code reads through a buffer pointer: `GST_BUFFER_DTS(buffer)`
(a `guint64`), `gst_buffer_get_vsink_meta(buffer)->priv` (the address of the
`texture_data_t`), and of a texture its `tex` and `data[0]`. -/
structure Memory where
  dts : GstBuffer → Nat
  priv : GstBuffer → Nat
  tex : Nat → Nat
  data0 : Nat → Nat

/-- The output arguments of `sview_pop_buffers`: `buf[]`, `tex[]`, `t[]`,
`planes[]` and `*ts`. -/
structure sview_out where
  buf : Nat → GstBuffer
  tex : Nat → Nat
  t : Nat → Nat
  planes : Nat → Nat
  ts : Int

/-! ## Constants -/

/-- Modelled from the spec: `CAMERAS_NUMBER` is defined in a header that is
not among the sources (`utest-app.h`); the spec's scenario has 4 cameras, and
`utest-sv.h` maps the cameras to the indices 0..3. -/
def CAMERAS_NUMBER : Nat := 4

/-- `WINDOW_FLAG_REDRAW`, `(1 << 0)`. -/
def WINDOW_FLAG_REDRAW : Nat := 1 <<< 0

/-- `WINDOW_FLAG_TERMINATE`, `(1 << 1)`. -/
def WINDOW_FLAG_TERMINATE : Nat := 1 <<< 1

/-- `WINDOW_BV_REINIT`, `(1 << 2)`. -/
def WINDOW_BV_REINIT : Nat := 1 <<< 2

/-- Complement of a 32-bit word, `~x`. -/
def not32 (x : Nat) : Nat := 2 ^ 32 - 1 - x % 2 ^ 32

/-- Conversion of a 64-bit result to `s64` (two's complement). -/
def to_s64 (x : Int) : Int := (x + 2 ^ 63) % 2 ^ 64 - 2 ^ 63

/-! ## Window flags (`utest-display-wayland.c`) -/

/-- `window_schedule_redraw`: under the window lock, set the redraw flag and
signal the condition variable unless the flag is already set. -/
def window_schedule_redraw (window : window_data_t) : window_data_t :=
  if window.flags &&& WINDOW_FLAG_REDRAW = 0 then
    { window with flags := window.flags ||| WINDOW_FLAG_REDRAW, signals := window.signals + 1 }
  else window

/-- `window_reinit_bv`: the same for the reinit flag. -/
def window_reinit_bv (window : window_data_t) : window_data_t :=
  if window.flags &&& WINDOW_BV_REINIT = 0 then
    { window with flags := window.flags ||| WINDOW_BV_REINIT, signals := window.signals + 1 }
  else window

/-- The first critical section of `window_destroy`: set `TERMINATE` and signal. -/
def window_destroy (window : window_data_t) : window_data_t :=
  { window with flags := window.flags ||| WINDOW_FLAG_TERMINATE, signals := window.signals + 1 }

/-- Where one pass of the `while (1)` loop of `window_thread` leaves the thread. -/
inductive thread_status where
  /-- Blocked in `pthread_cond_wait`: no flag is set. -/
  | waiting
  /-- A hook has run; the loop goes round again. -/
  | running
  /-- The loop was left through `break`; the thread returns. -/
  | stopped
  deriving DecidableEq, Repr

/-- One pass of the `while (1)` loop of `window_thread`: the flag test and
clear under the window lock, then the context binding and the hook. -/
def window_thread_step (window : window_data_t) : thread_status × window_data_t :=
  if window.flags &&& (WINDOW_FLAG_REDRAW ||| WINDOW_FLAG_TERMINATE ||| WINDOW_BV_REINIT) = 0 then
    (.waiting, window)
  else if window.flags &&& WINDOW_FLAG_TERMINATE ≠ 0 then
    (.stopped, { window with calls := window.calls ++ [.release_context] })
  else if window.flags &&& WINDOW_FLAG_REDRAW ≠ 0 then
    (.running, { window with
      flags := window.flags &&& not32 WINDOW_FLAG_REDRAW,
      calls := window.calls ++ [.make_current, .redraw] })
  else
    (.running, { window with
      flags := window.flags &&& not32 WINDOW_BV_REINIT,
      calls := window.calls ++ [.make_current, .init_bv] })

/-- The loop of `window_thread`, run for at most `fuel` passes with no other
thread touching the window: `none` when the fuel runs out first, else the
status (`waiting` or `stopped`) and the window it ends in. -/
def window_thread : Nat → window_data_t → Option (thread_status × window_data_t)
  | 0, _ => none
  | fuel + 1, window =>
    match window_thread_step window with
    | (.running, window') => window_thread fuel window'
    | r => some r

/-! ## Render queues (`utest-sv.c`)

`APP_FLAG_EOS` is defined in a header that is not among the sources; the
functions take its value as their first argument. -/

/-- The loop `while (!g_queue_is_empty(q)) gst_buffer_unref(g_queue_pop_head(q));`
on the queue `q`: the queue ends empty, the result is the log. -/
def drop_all : List GstBuffer → List gst_call → List gst_call
  | [], log => log
  | b :: q, log => drop_all q (log ++ [.unref b])

/-- The loop `for (i = 0; i < CAMERAS_NUMBER; i++)` that empties the queues,
with `n` passes left and the counter at `i`. -/
def purge_loop : Nat → Nat → app_data_t → app_data_t
  | 0, _, app => app
  | n + 1, i, app =>
    purge_loop n (i + 1)
      { app with render := Function.update app.render i [],
                 refs := drop_all (app.render i) app.refs }

/-- The loop `while (g_queue_peek_head(queue) != buffer) gst_buffer_unref(g_queue_pop_head(queue));`:
the queue and the log it ends with. On an empty queue `g_queue_peek_head`
and `g_queue_pop_head` return `NULL` and the loop would spin. -/
def drop_previous (buffer : GstBuffer) : List GstBuffer → List gst_call →
    Except Fault (List GstBuffer × List gst_call)
  | [], _ => .error .hang
  | b :: q, log =>
    if b = buffer then .ok (b :: q, log) else drop_previous buffer q (log ++ [.unref b])

/-- The loop of the ready branch of `sview_pop_buffers`, with `n` passes left
and the counter at `i`; `ts_acc` is the third component of the state. -/
def collect_loop (mem : Memory) : Nat → Nat → app_data_t × sview_out × Int →
    Except Fault (app_data_t × sview_out × Int)
  | 0, _, st => .ok st
  | n + 1, i, (app, out, ts_acc) =>
    let queue := app.render i
    match queue.getLast? with
    | none => .error .abort
    | some buffer =>
      let texture := mem.priv buffer
      let out' : sview_out :=
        { out with buf := Function.update out.buf i buffer,
                   tex := Function.update out.tex i texture,
                   t := Function.update out.t i (mem.tex texture),
                   planes := Function.update out.planes i (mem.data0 texture) }
      let ts_acc' := to_s64 (ts_acc + mem.dts buffer)
      match drop_previous buffer queue app.refs with
      | .error e => .error e
      | .ok (queue', refs') =>
        collect_loop mem n (i + 1)
          ({ app with render := Function.update app.render i queue', refs := refs' }, out', ts_acc')

/-- `sview_pop_buffers`: the returned `ready`, the state and the output
arguments. -/
def sview_pop_buffers (APP_FLAG_EOS : Nat) (mem : Memory) (app : app_data_t) (out : sview_out) :
    Except Fault (Int × app_data_t × sview_out) :=
  if app.flags &&& APP_FLAG_EOS ≠ 0 then
    .ok (0, purge_loop CAMERAS_NUMBER 0 app, out)
  else if app.frames &&& ((1 <<< CAMERAS_NUMBER) - 1) = 0 then
    match collect_loop mem CAMERAS_NUMBER 0 (app, out, 0) with
    | .error e => .error e
    | .ok (app', out', ts_acc) =>
      .ok (1, app', { out' with ts := Int.tdiv ts_acc CAMERAS_NUMBER })
  else
    .ok (0, app, out)

/-- The loop of `sview_release_buffers`, with `n` passes left and the counter
at `i`. -/
def release_loop (buffers : Nat → GstBuffer) : Nat → Nat → app_data_t → Except Fault app_data_t
  | 0, _, app => .ok app
  | n + 1, i, app =>
    match app.render i with
    | [] => .error .abort
    | buffer :: queue =>
      if buffers i ≠ buffer then .error .abort
      else
        let app' : app_data_t :=
          { app with render := Function.update app.render i queue,
                     refs := app.refs ++ [.unref buffer] }
        release_loop buffers n (i + 1)
          (if queue = [] then { app' with frames := app'.frames ^^^ (1 <<< i) } else app')

/-- `sview_release_buffers`. -/
def sview_release_buffers (app : app_data_t) (buffers : Nat → GstBuffer) : Except Fault app_data_t :=
  release_loop buffers CAMERAS_NUMBER 0 app

/-- `sview_purge_buffers`. -/
def sview_purge_buffers (app : app_data_t) : app_data_t :=
  purge_loop CAMERAS_NUMBER 0 app

/-- `sview_input_process`: the returned status and the state. The index is a
C `int`; a negative one passes the `BUG` test and indexes `app->render`
out of bounds. -/
def sview_input_process (APP_FLAG_EOS : Nat) (app : app_data_t) (i : Int) (buffer : GstBuffer) :
    Except Fault (Int × app_data_t) :=
  if i ≥ CAMERAS_NUMBER then .error .abort
  else if app.flags &&& APP_FLAG_EOS = 0 then
    if i < 0 then .error .undefined
    else
      let k := i.toNat
      let frames := app.frames &&& not32 (1 <<< k)
      let app' : app_data_t :=
        { app with render := Function.update app.render k (app.render k ++ [buffer]),
                   refs := app.refs ++ [.ref buffer],
                   frames := frames }
      if frames &&& ((1 <<< CAMERAS_NUMBER) - 1) = 0 then
        .ok (0, { app' with window := window_schedule_redraw app'.window })
      else .ok (0, app')
  else .ok (0, app)

/-- The statement `app->frames = (1 << CAMERAS_NUMBER) - 1;` of
`__app_sview_track` ("mark all queues are empty"). -/
def __app_sview_track (app : app_data_t) : app_data_t :=
  { app with frames := (1 <<< CAMERAS_NUMBER) - 1 }

/-- The statement `app->flags |= APP_FLAG_EOS;` of `app_thread`. -/
def app_set_eos (APP_FLAG_EOS : Nat) (app : app_data_t) : app_data_t :=
  { app with flags := app.flags ||| APP_FLAG_EOS }

/-- The statement `app->flags &= ~APP_FLAG_EOS;` of `app_thread`. -/
def app_clear_eos (APP_FLAG_EOS : Nat) (app : app_data_t) : app_data_t :=
  { app with flags := app.flags &&& not32 APP_FLAG_EOS }

/-! ## Sequences of render-queue calls -/

/-- The operations that touch the render queues, the bitmask or the
end-of-stream flag. -/
inductive sview_call where
  /-- `sview_input_process(app, i, buffer)`. -/
  | input_process (i : Int) (buffer : GstBuffer)
  /-- `sview_pop_buffers(app, buf, tex, t, planes, &ts)`. -/
  | pop_buffers
  /-- `sview_release_buffers(app, buffers)`. -/
  | release_buffers (buffers : Nat → GstBuffer)
  /-- `sview_purge_buffers(app)`. -/
  | purge_buffers
  /-- `app->flags |= APP_FLAG_EOS`. -/
  | set_eos
  /-- `app->flags &= ~APP_FLAG_EOS`. -/
  | clear_eos

/-- Whether the call is `sview_purge_buffers` or sets the end-of-stream flag. -/
def sview_call.stops : sview_call → Bool
  | .purge_buffers => true
  | .set_eos => true
  | _ => false

/-- One call on the state and the output arguments. -/
def sview_call.apply (APP_FLAG_EOS : Nat) (mem : Memory) :
    sview_call → app_data_t × sview_out → Except Fault (app_data_t × sview_out)
  | .input_process i buffer, (app, out) =>
    match sview_input_process APP_FLAG_EOS app i buffer with
    | .error e => .error e
    | .ok (_, app') => .ok (app', out)
  | .pop_buffers, (app, out) =>
    match sview_pop_buffers APP_FLAG_EOS mem app out with
    | .error e => .error e
    | .ok (_, app', out') => .ok (app', out')
  | .release_buffers buffers, (app, out) =>
    match sview_release_buffers app buffers with
    | .error e => .error e
    | .ok app' => .ok (app', out)
  | .purge_buffers, (app, out) => .ok (sview_purge_buffers app, out)
  | .set_eos, (app, out) => .ok (app_set_eos APP_FLAG_EOS app, out)
  | .clear_eos, (app, out) => .ok (app_clear_eos APP_FLAG_EOS app, out)

/-- A sequence of calls, one after the other; it stops at the first that does
not return. -/
def run_calls (APP_FLAG_EOS : Nat) (mem : Memory) :
    List sview_call → app_data_t × sview_out → Except Fault (app_data_t × sview_out)
  | [], st => .ok st
  | c :: cs, st =>
    match c.apply APP_FLAG_EOS mem st with
    | .error e => .error e
    | .ok st' => run_calls APP_FLAG_EOS mem cs st'

/-! ## The bitmask/queue invariant and closed forms used in the proofs -/

/-- `g_queue_peek_tail(q)`, with `NULL` (0) on an empty queue. -/
def queue_tail (q : List GstBuffer) : GstBuffer := q.getLastD 0

/-- What the ready branch leaves of a queue: everything from the first
occurrence of the tail address on. -/
def queue_kept (q : List GstBuffer) : List GstBuffer :=
  q.dropWhile (fun b => decide (b ≠ queue_tail q))

/-- What the ready branch pops off a queue: everything before the first
occurrence of the tail address. -/
def queue_dropped (q : List GstBuffer) : List GstBuffer :=
  q.takeWhile (fun b => decide (b ≠ queue_tail q))

/-- The state `collect_loop` ends in when every queue it visits is non-empty. -/
def collect_result (mem : Memory) (n i : Nat) (st : app_data_t × sview_out × Int) :
    app_data_t × sview_out × Int :=
  ({ st.1 with
      render := fun j => if i ≤ j ∧ j < i + n then queue_kept (st.1.render j) else st.1.render j,
      refs := st.1.refs ++
        (List.range' i n).flatMap (fun j => (queue_dropped (st.1.render j)).map gst_call.unref) },
   { st.2.1 with
      buf := fun j => if i ≤ j ∧ j < i + n then queue_tail (st.1.render j) else st.2.1.buf j,
      tex := fun j => if i ≤ j ∧ j < i + n then mem.priv (queue_tail (st.1.render j)) else st.2.1.tex j,
      t := fun j =>
        if i ≤ j ∧ j < i + n then mem.tex (mem.priv (queue_tail (st.1.render j))) else st.2.1.t j,
      planes := fun j =>
        if i ≤ j ∧ j < i + n then mem.data0 (mem.priv (queue_tail (st.1.render j)))
        else st.2.1.planes j },
   to_s64 (st.2.2 +
     ((List.range' i n).map (fun j => (mem.dts (queue_tail (st.1.render j)) : Int))).sum))

/-- The state `purge_loop` ends in. -/
def purge_result (n i : Nat) (app : app_data_t) : app_data_t :=
  { app with
      render := fun j => if i ≤ j ∧ j < i + n then [] else app.render j,
      refs := app.refs ++
        (List.range' i n).flatMap (fun j => (app.render j).map gst_call.unref) }

/-- The bitmask/queue invariant: for every camera, bit `i` of `frames` is clear
exactly when `render[i]` is non-empty. -/
def frames_invariant (app : app_data_t) : Prop :=
  ∀ i, i < CAMERAS_NUMBER → (app.frames.testBit i = false ↔ app.render i ≠ [])

/-! ## Scene rendering (`sview_redraw`, `utest-sv.c`) -/

/-- One pass of the body of the `while` loop of `sview_redraw`, as the scene
renderer sees it: the buffers popped, the texture handles and plane pointers
handed to `sview_engine_process` with the timestamp `ts`, and the value
`app->frames` has when the pass starts. The pass also updates the frame rate,
clears the surface, draws the GUI and submits the window; these calls are not
listed one by one. -/
structure scene_call where
  frames : Nat
  buf : List GstBuffer
  t : List Nat
  planes : List Nat
  ts : Int
  deriving DecidableEq, Repr

/-- The scene recorded for the output arguments `out` in state `app`. -/
def scene_of (app : app_data_t) (out : sview_out) : scene_call :=
  { frames := app.frames,
    buf := (List.range CAMERAS_NUMBER).map out.buf,
    t := (List.range CAMERAS_NUMBER).map out.t,
    planes := (List.range CAMERAS_NUMBER).map out.planes,
    ts := out.ts }

/-- `sview_redraw`, with no buffer pushed while it runs: `while (sview_pop_buffers(...))`
render the scene, then `sview_release_buffers(app, buffers)`. At most `fuel`
evaluations of the loop condition are made; `none` when that is not enough. -/
def sview_redraw (APP_FLAG_EOS : Nat) (mem : Memory) :
    Nat → app_data_t × sview_out × List scene_call →
      Option (Except Fault (app_data_t × sview_out × List scene_call))
  | 0, _ => none
  | fuel + 1, (app, out, scenes) =>
    match sview_pop_buffers APP_FLAG_EOS mem app out with
    | .error e => some (.error e)
    | .ok (ready, app', out') =>
      if ready ≠ 0 then
        match sview_release_buffers app' out'.buf with
        | .error e => some (.error e)
        | .ok app'' =>
          sview_redraw APP_FLAG_EOS mem fuel (app'', out', scenes ++ [scene_of app' out'])
      else some (.ok (app', out', scenes))

/-- What happens to the aggregator while a track plays: a camera delivers a
buffer, or the window thread invokes the redraw hook `sview_redraw`. -/
inductive track_call where
  /-- `sview_input_process(app, i, buffer)`. -/
  | input_process (i : Nat) (buffer : GstBuffer)
  /-- `sview_redraw(display, app)`. -/
  | redraw

/-- The call comes from a camera, in range, other than camera `j`, or is a
redraw. -/
def track_call.avoids (j : Nat) : track_call → Prop
  | .input_process i _ => i < CAMERAS_NUMBER ∧ i ≠ j
  | .redraw => True

/-- The buffers a sequence of calls delivers for camera `i`, in arrival order. -/
def delivered (i : Nat) : List track_call → List GstBuffer
  | [] => []
  | .input_process k buffer :: cs => if k = i then buffer :: delivered i cs else delivered i cs
  | .redraw :: cs => delivered i cs

/-- All the buffers a sequence of calls delivers, in arrival order. -/
def delivered_all : List track_call → List GstBuffer
  | [] => []
  | .input_process _ buffer :: cs => buffer :: delivered_all cs
  | .redraw :: cs => delivered_all cs

/-- A sequence of deliveries and redraws, one after the other, each redraw
run with `fuel`. -/
def run_track (APP_FLAG_EOS : Nat) (mem : Memory) (fuel : Nat) :
    List track_call → app_data_t × sview_out × List scene_call →
      Option (Except Fault (app_data_t × sview_out × List scene_call))
  | [], st => some (.ok st)
  | .input_process i buffer :: cs, (app, out, scenes) =>
    match sview_input_process APP_FLAG_EOS app (i : Int) buffer with
    | .error e => some (.error e)
    | .ok (_, app') => run_track APP_FLAG_EOS mem fuel cs (app', out, scenes)
  | .redraw :: cs, st =>
    match sview_redraw APP_FLAG_EOS mem fuel st with
    | none => none
    | some (.error e) => some (.error e)
    | some (.ok st') => run_track APP_FLAG_EOS mem fuel cs st'

/-! ## The window thread with the surround-view hooks -/

/-- The loop of `window_thread` for the main window, whose `redraw` hook is
`sview_redraw` and whose `init_bv` hook is `sview_init_bv` (it reinitialises
the engine and touches neither the queues nor the window). At most `fuel`
passes are made, each redraw with `redraw_fuel`; no other thread runs
meanwhile. -/
def render_thread (APP_FLAG_EOS : Nat) (mem : Memory) (redraw_fuel : Nat) :
    Nat → app_data_t × sview_out × List scene_call →
      Option (Except Fault (thread_status × (app_data_t × sview_out × List scene_call)))
  | 0, _ => none
  | fuel + 1, (app, out, scenes) =>
    match window_thread_step app.window with
    | (.waiting, window) => some (.ok (.waiting, ({ app with window := window }, out, scenes)))
    | (.stopped, window) => some (.ok (.stopped, ({ app with window := window }, out, scenes)))
    | (.running, window) =>
      if app.window.flags &&& WINDOW_FLAG_REDRAW ≠ 0 then
        match sview_redraw APP_FLAG_EOS mem redraw_fuel ({ app with window := window }, out, scenes) with
        | none => none
        | some (.error e) => some (.error e)
        | some (.ok st) => render_thread APP_FLAG_EOS mem redraw_fuel fuel st
      else
        render_thread APP_FLAG_EOS mem redraw_fuel fuel ({ app with window := window }, out, scenes)

/-- The deliveries of one tick, in the order given: `sview_input_process(app, i, buffer)`
for every pair `(i, buffer)`. -/
def push_all (APP_FLAG_EOS : Nat) : List (Nat × GstBuffer) → app_data_t → Except Fault app_data_t
  | [], app => .ok app
  | (i, buffer) :: ps, app =>
    match sview_input_process APP_FLAG_EOS app (i : Int) buffer with
    | .error e => .error e
    | .ok (_, app') => push_all APP_FLAG_EOS ps app'

/-- A sequence of ticks: in each the cameras deliver, then the window thread
runs until it blocks or stops. -/
def run_ticks (APP_FLAG_EOS : Nat) (mem : Memory) (redraw_fuel thread_fuel : Nat) :
    List (List (Nat × GstBuffer)) → app_data_t × sview_out × List scene_call →
      Option (Except Fault (app_data_t × sview_out × List scene_call))
  | [], st => some (.ok st)
  | tick :: ticks, (app, out, scenes) =>
    match push_all APP_FLAG_EOS tick app with
    | .error e => some (.error e)
    | .ok app' =>
      match render_thread APP_FLAG_EOS mem redraw_fuel thread_fuel (app', out, scenes) with
      | none => none
      | some (.error e) => some (.error e)
      | some (.ok (_, st)) => run_ticks APP_FLAG_EOS mem redraw_fuel thread_fuel ticks st

/-- The buffer camera `i` delivers in a tick (0 when it delivers none). -/
def tick_buffer (i : Nat) : List (Nat × GstBuffer) → GstBuffer
  | [] => 0
  | (k, buffer) :: ps => if k = i then buffer else tick_buffer i ps

/-- The scene made of the buffers of one tick: bitmask 0, for every camera the
buffer it delivered with its texture handle and first plane, and the
truncated mean of the four decode timestamps. -/
def tick_scene (mem : Memory) (tick : List (Nat × GstBuffer)) : scene_call :=
  { frames := 0,
    buf := (List.range CAMERAS_NUMBER).map (fun i => tick_buffer i tick),
    t := (List.range CAMERAS_NUMBER).map (fun i => mem.tex (mem.priv (tick_buffer i tick))),
    planes := (List.range CAMERAS_NUMBER).map (fun i => mem.data0 (mem.priv (tick_buffer i tick))),
    ts := Int.tdiv (to_s64 (((List.range CAMERAS_NUMBER).map
      (fun i => (mem.dts (tick_buffer i tick) : Int))).sum)) CAMERAS_NUMBER }

/-! ## Coordinates (`utest-display.c`) -/

/-- Conversion of a 32-bit result to `int` (two's complement). -/
def to_s32 (x : Int) : Int := (x + 2 ^ 31) % 2 ^ 32 - 2 ^ 31

/-- `window_translate_coordinates`: the pair `(*X, *Y)` for a window of width
`w` and height `h` whose `info->transform` is `transform`. -/
def window_translate_coordinates (transform : Nat) (w h x y : Int) : Int × Int :=
  if transform = 0 then (x, y)
  else if transform = 90 then (y, to_s32 (w - x))
  else if transform = 180 then (to_s32 (w - x), to_s32 (h - y))
  else (to_s32 (w - y), x)

/-! ## GPU context broker (`utest-display-wayland.c`)

Threads are numbered; `self` is the calling thread. The display lock
`display->lock` is free or owned by a thread; a call that has to wait for it
is `blocked` and changes nothing. -/

/-- What `eglGetCurrentContext()` returns on a thread. -/
inductive egl_context where
  /-- `EGL_NO_CONTEXT`. -/
  | none
  /-- The shared surfaceless context `display->egl.ctx`. -/
  | shared
  /-- The context `window->user_egl_ctx` of a window. -/
  | user (window : Nat)
  deriving DecidableEq, Repr

/-- The GL and EGL calls of the body of a texture or VBO function, as one
entry. -/
inductive gl_work where
  /-- `glGenTextures` ... `glBindTexture(GL_TEXTURE_EXTERNAL_OES, 0)` of `texture_create`. -/
  | texture_create (texture : Nat)
  /-- `glDeleteTextures`, `eglDestroyImageKHR` of `texture_destroy`. -/
  | texture_destroy (texture : Nat)
  /-- The buffer generation and allocation of `vbo_create`; `failed` is the
  step whose `glGetError()` reported an error (0 when none did). -/
  | vbo_create (vbo : Nat) (failed : Nat)
  /-- The mappings of `vbo_map`. -/
  | vbo_map (vbo : Nat) (buffer index : Int)
  /-- The unmappings of `vbo_unmap`. -/
  | vbo_unmap (vbo : Nat)
  /-- The two `glDeleteBuffers` of `vbo_destroy`. -/
  | vbo_destroy (vbo : Nat)
  deriving DecidableEq, Repr

/-- Calls on the display lock, the context binding and the GPU, in call
order, with the calling thread. -/
inductive egl_call where
  /-- `pthread_mutex_lock(&display->lock)` returned. -/
  | mutex_lock (thread : Nat)
  /-- `pthread_mutex_unlock(&display->lock)`. -/
  | mutex_unlock (thread : Nat)
  /-- `eglMakeCurrent(dpy, EGL_NO_SURFACE, EGL_NO_SURFACE, ctx)`. -/
  | make_current (thread : Nat) (ctx : egl_context)
  /-- GL work done while `ctx` is current on the thread. -/
  | gl (thread : Nat) (ctx : egl_context) (work : gl_work)
  deriving DecidableEq, Repr

/-- The part of `display_data_t` and of the EGL state the broker uses: the
context current on every thread, the owner of `display->lock`, and the calls
made so far. -/
structure display_data_t where
  current : Nat → egl_context
  lock : Option Nat
  calls : List egl_call

/-- How a call that may take the display lock ends: it returns, it waits for
the lock, or `BUG` aborts the process with the display in the given state. -/
inductive outcome (α : Type) where
  /-- The call returned. -/
  | done (a : α)
  /-- The call waits in `pthread_mutex_lock`. -/
  | blocked
  /-- `BUG(...)` fired. -/
  | abort (display : display_data_t)

/-- `errno` value `EINVAL` (Linux). -/
def EINVAL : Int := 22

/-- `errno` value `ENOMEM` (Linux). -/
def ENOMEM : Int := 12

/-- `display_egl_ctx_get`: bug-check that no context is current on the
thread, take the display lock, make the shared context current. -/
def display_egl_ctx_get (self : Nat) (display : display_data_t) : outcome display_data_t :=
  if display.current self ≠ .none then .abort display
  else
    match display.lock with
    | some _ => .blocked
    | none =>
      .done { current := Function.update display.current self .shared,
              lock := some self,
              calls := display.calls ++ [.mutex_lock self, .make_current self .shared] }

/-- `display_egl_ctx_put`: make no context current, release the display lock. -/
def display_egl_ctx_put (self : Nat) (display : display_data_t) : display_data_t :=
  { current := Function.update display.current self .none,
    lock := none,
    calls := display.calls ++ [.make_current self .none, .mutex_unlock self] }

/-- The constants `__pixfmt_gst_to_egl` maps between; they come from the
GStreamer and EGL headers. -/
structure pixel_formats where
  GST_VIDEO_FORMAT_NV12 : Int
  GST_VIDEO_FORMAT_UYVY : Int
  GST_VIDEO_FORMAT_NV16 : Int
  EGL_NATIVE_PIXFORMAT_NV12_REL : Int
  EGL_NATIVE_PIXFORMAT_UYVY_REL : Int
  EGL_NATIVE_PIXFORMAT_NV16_REL : Int

/-- `__pixfmt_gst_to_egl`. -/
def __pixfmt_gst_to_egl (K : pixel_formats) (format : Int) : Int :=
  if format = K.GST_VIDEO_FORMAT_NV12 then K.EGL_NATIVE_PIXFORMAT_NV12_REL
  else if format = K.GST_VIDEO_FORMAT_UYVY then K.EGL_NATIVE_PIXFORMAT_UYVY_REL
  else if format = K.GST_VIDEO_FORMAT_NV16 then K.EGL_NATIVE_PIXFORMAT_NV16_REL
  else -1

/-- `texture_create`, with `errno` before the call and `malloc_result` the
address `malloc` returns (0 for `NULL`): the texture returned, `errno` and the
display afterwards. The size and the plane pointers only reach the GL calls. -/
def texture_create (K : pixel_formats) (self : Nat) (format : Int) (malloc_result : Nat)
    (errno : Int) (display : display_data_t) : outcome (Nat × Int × display_data_t) :=
  if __pixfmt_gst_to_egl K format = 0 then .done (0, EINVAL, display)
  else if malloc_result = 0 then .done (0, ENOMEM, display)
  else
    match display_egl_ctx_get self display with
    | .abort d => .abort d
    | .blocked => .blocked
    | .done d =>
      .done (malloc_result, errno,
        display_egl_ctx_put self
          { d with calls := d.calls ++ [.gl self (d.current self) (.texture_create malloc_result)] })

/-- `texture_destroy`. -/
def texture_destroy (self : Nat) (texture : Nat) (display : display_data_t) :
    outcome display_data_t :=
  let ctx := display.current self
  if ctx = .none then
    match display_egl_ctx_get self display with
    | .abort d => .abort d
    | .blocked => .blocked
    | .done d =>
      .done (display_egl_ctx_put self
        { d with calls := d.calls ++ [.gl self (d.current self) (.texture_destroy texture)] })
  else
    .done { display with calls := display.calls ++ [.gl self ctx (.texture_destroy texture)] }

/-- `vbo_create`, with `malloc_result` the address `malloc` returns and
`failed` the step whose `glGetError()` reports an error (0 when none does):
the handle returned, `errno` and the display afterwards. -/
def vbo_create (self : Nat) (malloc_result : Nat) (failed : Nat) (errno : Int)
    (display : display_data_t) : outcome (Nat × Int × display_data_t) :=
  if malloc_result = 0 then .done (0, ENOMEM, display)
  else
    match display_egl_ctx_get self display with
    | .abort d => .abort d
    | .blocked => .blocked
    | .done d =>
      let d' := display_egl_ctx_put self
        { d with calls := d.calls ++ [.gl self (d.current self) (.vbo_create malloc_result failed)] }
      if failed ≠ 0 then .done (0, ENOMEM, d') else .done (malloc_result, errno, d')

/-- `vbo_map`; `gl_error` says whether a `glGetError()` of the body reports an
error. Returns 0. -/
def vbo_map (self : Nat) (vbo : Nat) (buffer index : Int) (gl_error : Bool)
    (display : display_data_t) : outcome (Int × display_data_t) :=
  let ctx := display.current self
  if ctx = .none then
    match display_egl_ctx_get self display with
    | .abort d => .abort d
    | .blocked => .blocked
    | .done d =>
      if (buffer ≠ 0 ∨ index ≠ 0) ∧ gl_error = true then .abort d
      else
        .done (0, display_egl_ctx_put self
          { d with calls := d.calls ++ [.gl self (d.current self) (.vbo_map vbo buffer index)] })
  else if (buffer ≠ 0 ∨ index ≠ 0) ∧ gl_error = true then .abort display
  else
    .done (0, { display with
      calls := display.calls ++ [.gl self ctx (.vbo_map vbo buffer index)] })

/-- `vbo_unmap`. -/
def vbo_unmap (self : Nat) (vbo : Nat) (display : display_data_t) : outcome display_data_t :=
  let ctx := display.current self
  if ctx = .none then
    match display_egl_ctx_get self display with
    | .abort d => .abort d
    | .blocked => .blocked
    | .done d =>
      .done (display_egl_ctx_put self
        { d with calls := d.calls ++ [.gl self (d.current self) (.vbo_unmap vbo)] })
  else
    .done { display with calls := display.calls ++ [.gl self ctx (.vbo_unmap vbo)] }

/-- `vbo_destroy`. -/
def vbo_destroy (self : Nat) (vbo : Nat) (display : display_data_t) : outcome display_data_t :=
  match display_egl_ctx_get self display with
  | .abort d => .abort d
  | .blocked => .blocked
  | .done d =>
    .done (display_egl_ctx_put self
      { d with calls := d.calls ++ [.gl self (d.current self) (.vbo_destroy vbo)] })

/-! ## Camera buffer allocation (`utest-sv.c`) -/

/-- The fields of `vsink_meta_t` that `sview_input_alloc` and
`__destroy_sv_texture` use; `priv` is the texture (0 for `NULL`). -/
structure vsink_meta_t where
  width : Int
  height : Int
  format : Int
  plane : Nat
  priv : Nat

/-- What buffer allocation touches: the metadata of every buffer
(`gst_buffer_get_vsink_meta`), the buffers on which `__destroy_sv_texture` is
registered by `gst_mini_object_weak_ref`, one entry per registration in call
order, and the display. -/
structure camera_buffers where
  vsink_meta : GstBuffer → vsink_meta_t
  weak_refs : List GstBuffer
  display : display_data_t

/-- `__destroy_sv_texture`: destroy the texture the buffer's metadata holds. -/
def __destroy_sv_texture (self : Nat) (s : camera_buffers) (buffer : GstBuffer) :
    outcome camera_buffers :=
  match texture_destroy self (s.vsink_meta buffer).priv s.display with
  | .abort d => .abort d
  | .blocked => .blocked
  | .done d => .done { s with display := d }

/-- `sview_input_alloc`, with `malloc_result` and `errno` as for
`texture_create`: the status returned, `errno` and the state afterwards. The
`TRACE` of a failed check is taken not to touch `errno`. -/
def sview_input_alloc (K : pixel_formats) (self : Nat) (malloc_result : Nat) (errno : Int)
    (s : camera_buffers) (buffer : GstBuffer) : outcome (Int × Int × camera_buffers) :=
  let vmeta := s.vsink_meta buffer
  let w := vmeta.width
  let h := vmeta.height
  if ¬(w = 1280 ∧ h = 800) then .done (-EINVAL, errno, s)
  else
    match texture_create K self vmeta.format malloc_result errno s.display with
    | .abort d => .abort d
    | .blocked => .blocked
    | .done (texture, errno', d) =>
      let s1 : camera_buffers :=
        { s with
          vsink_meta := Function.update s.vsink_meta buffer { vmeta with priv := texture },
          display := d }
      if texture = 0 then .done (-errno', errno', s1)
      else .done (0, errno', { s1 with weak_refs := s1.weak_refs ++ [buffer] })

/-- The notify calls of one buffer destruction, one per registration. -/
def weak_notify (self : Nat) : List GstBuffer → camera_buffers → outcome camera_buffers
  | [], s => .done s
  | buffer :: rest, s =>
    match __destroy_sv_texture self s buffer with
    | .abort d => .abort d
    | .blocked => .blocked
    | .done s' => weak_notify self rest s'

/-- Modelled from the spec: the buffer runtime (GStreamer, outside the
sources) fires every cleanup closure registered on a buffer exactly once when
the buffer is destroyed on thread `self`, and forgets the registrations. -/
def buffer_destroyed (self : Nat) (buffer : GstBuffer) (s : camera_buffers) :
    outcome camera_buffers :=
  weak_notify self (s.weak_refs.filter (fun b => b = buffer))
    { s with weak_refs := s.weak_refs.filter (fun b => b ≠ buffer) }

/-! ## Input dispatch (`utest-display-wayland.c`)

Widgets and windows are addresses, 0 for `NULL`; the root widget of a window
is its first member and has the address of the window. A widget hook can read
and change anything: it takes and returns a state `σ` of the rest of the
program. -/

/-- The event record the handlers fill in, with the fields each handler sets
(`widget_event_t`). -/
inductive widget_event_t where
  /-- `WIDGET_EVENT_MOUSE_MOVE`. -/
  | mouse_move (x y : Int)
  /-- `WIDGET_EVENT_MOUSE_BUTTON`. -/
  | mouse_button (x y : Int) (button : Nat) (state : Int)
  /-- `WIDGET_EVENT_MOUSE_AXIS`. -/
  | mouse_axis (x y : Int) (axis : Nat) (value : Int)
  /-- `WIDGET_EVENT_TOUCH_DOWN`. -/
  | touch_down (x y : Int) (id : Int)
  /-- `WIDGET_EVENT_TOUCH_UP`. -/
  | touch_up (id : Int)
  /-- `WIDGET_EVENT_TOUCH_MOVE`. -/
  | touch_move (x y : Int) (id : Int)
  /-- `WIDGET_EVENT_KEY_PRESS`. -/
  | key_press (code : Nat) (state : Int)
  /-- `WIDGET_EVENT_KEY_MODS`. -/
  | key_mods (mods_on mods_off mods_locked : Nat)
  deriving DecidableEq, Repr

/-- The hooks of `widget_info_t` (`none` for a `NULL` hook). `event` is called
with the widget, its client data and the event and returns the new focus;
`init` is called with the widget and its client data and returns a status;
`draw` is called with the widget, its client data and the cairo context;
`destroy` is called with the widget and its client data. -/
structure widget_info_t (σ : Type) where
  event : Option (Nat → Nat → widget_event_t → σ → Nat × σ)
  init : Option (Nat → Nat → σ → Int × σ) := none
  draw : Option (Nat → Nat → Nat → σ → σ) := none
  destroy : Option (Nat → Nat → σ → σ) := none

/-- The members `info` (`none` for `NULL`), `cdata` and `window` (the owning
window) of `widget_data_t`. -/
structure widget_data_t (σ : Type) where
  info : Option (widget_info_t σ)
  cdata : Nat
  window : Nat := 0

/-- The focus and pointer members of `input_data_t`. -/
structure input_data_t where
  pointer_focus : Nat
  pointer_x : Int
  pointer_y : Int
  touch_focus : Nat
  keyboard_focus : Nat
  deriving DecidableEq, Repr

/-- State of input dispatch: the input device record, the rest of the
program, and every hook invocation so far as (widget, client data, event). -/
structure input_state (σ : Type) where
  input : input_data_t
  world : σ
  events : List (Nat × Nat × widget_event_t)

/-- `wl_fixed_to_int` of the Wayland client library: `f / 256` in C. -/
def wl_fixed_to_int (f : Int) : Int := Int.tdiv f 256

/-- `WL_POINTER_BUTTON_STATE_PRESSED` of the Wayland protocol. -/
def WL_POINTER_BUTTON_STATE_PRESSED : Nat := 1

/-- `WL_KEYBOARD_KEY_STATE_PRESSED` of the Wayland protocol. -/
def WL_KEYBOARD_KEY_STATE_PRESSED : Nat := 1

/-- The lines `if (!(info = focus->info) || !info->event) return;` and
`info->event(focus, focus->cdata, &event)` every handler ends with: `none` when
the event is dropped, else the hook's return value and the state after it. -/
def widget_pass_event {σ : Type} (widgets : Nat → widget_data_t σ) (focus : Nat)
    (event : widget_event_t) (st : input_state σ) : Option (Nat × input_state σ) :=
  match (widgets focus).info with
  | none => none
  | some info =>
    match info.event with
    | none => none
    | some hook =>
      let r := hook focus (widgets focus).cdata event st.world
      some (r.1, { st with world := r.2,
                           events := st.events ++ [(focus, (widgets focus).cdata, event)] })

/-- `pointer_handle_motion`. -/
def pointer_handle_motion {σ : Type} (widgets : Nat → widget_data_t σ) (st : input_state σ)
    (sx_w sy_w : Int) : input_state σ :=
  let sx := wl_fixed_to_int sx_w
  let sy := wl_fixed_to_int sy_w
  let focus := st.input.pointer_focus
  if focus = 0 then st
  else
    let st1 := { st with input := { st.input with pointer_x := sx, pointer_y := sy } }
    match widget_pass_event widgets focus (.mouse_move sx sy) st1 with
    | none => st1
    | some (r, st2) => { st2 with input := { st2.input with pointer_focus := r } }

/-- `pointer_handle_button`. -/
def pointer_handle_button {σ : Type} (widgets : Nat → widget_data_t σ) (st : input_state σ)
    (button state : Nat) : input_state σ :=
  let focus := st.input.pointer_focus
  if focus = 0 then st
  else
    match widget_pass_event widgets focus
        (.mouse_button st.input.pointer_x st.input.pointer_y button
          (if state = WL_POINTER_BUTTON_STATE_PRESSED then 1 else 0)) st with
    | none => st
    | some (r, st2) => { st2 with input := { st2.input with pointer_focus := r } }

/-- `pointer_handle_axis`. -/
def pointer_handle_axis {σ : Type} (widgets : Nat → widget_data_t σ) (st : input_state σ)
    (axis : Nat) (value : Int) : input_state σ :=
  let v := wl_fixed_to_int value
  let focus := st.input.pointer_focus
  if focus = 0 then st
  else
    match widget_pass_event widgets focus
        (.mouse_axis st.input.pointer_x st.input.pointer_y axis v) st with
    | none => st
    | some (r, st2) => { st2 with input := { st2.input with pointer_focus := r } }

/-- `__window_lookup`: the window a surface belongs to, 0 when there is none;
`user_data` is `wl_surface_get_user_data` and `window_surface` the member
`surface` of a window. -/
def __window_lookup (user_data window_surface : Nat → Nat) (surface : Nat) : Nat :=
  if surface = 0 ∨ user_data surface = 0 then 0
  else if window_surface (user_data surface) ≠ surface then 0
  else user_data surface

/-- `touch_handle_down`. -/
def touch_handle_down {σ : Type} (user_data window_surface : Nat → Nat)
    (widgets : Nat → widget_data_t σ) (st : input_state σ) (surface : Nat) (id x_w y_w : Int) :
    input_state σ :=
  let sx := wl_fixed_to_int x_w
  let sy := wl_fixed_to_int y_w
  let window := __window_lookup user_data window_surface surface
  if window = 0 then st
  else
    let focus := if st.input.touch_focus ≠ 0 then st.input.touch_focus else window
    match widget_pass_event widgets focus (.touch_down sx sy id) st with
    | none => st
    | some (r, st2) => { st2 with input := { st2.input with touch_focus := r } }

/-- `touch_handle_up`. -/
def touch_handle_up {σ : Type} (widgets : Nat → widget_data_t σ) (st : input_state σ)
    (id : Int) : input_state σ :=
  let focus := st.input.touch_focus
  if focus = 0 then st
  else
    let st1 := { st with input := { st.input with touch_focus := 0 } }
    match widget_pass_event widgets focus (.touch_up id) st1 with
    | none => st1
    | some (r, st2) => { st2 with input := { st2.input with touch_focus := r } }

/-- `touch_handle_motion`. -/
def touch_handle_motion {σ : Type} (widgets : Nat → widget_data_t σ) (st : input_state σ)
    (id x_w y_w : Int) : input_state σ :=
  let sx := wl_fixed_to_int x_w
  let sy := wl_fixed_to_int y_w
  let focus := st.input.touch_focus
  if focus = 0 then st
  else
    match widget_pass_event widgets focus (.touch_move sx sy id) st with
    | none => st
    | some (r, st2) => { st2 with input := { st2.input with touch_focus := r } }

/-- `keyboard_handle_key`. -/
def keyboard_handle_key {σ : Type} (widgets : Nat → widget_data_t σ) (st : input_state σ)
    (key state : Nat) : input_state σ :=
  let focus := st.input.keyboard_focus
  if focus = 0 then st
  else
    match widget_pass_event widgets focus
        (.key_press key (if state = WL_KEYBOARD_KEY_STATE_PRESSED then 1 else 0)) st with
    | none => st
    | some (r, st2) => { st2 with input := { st2.input with keyboard_focus := r } }

/-- `keyboard_handle_modifiers`. -/
def keyboard_handle_modifiers {σ : Type} (widgets : Nat → widget_data_t σ) (st : input_state σ)
    (mods_depressed mods_latched mods_locked : Nat) : input_state σ :=
  let focus := st.input.keyboard_focus
  if focus = 0 then st
  else
    match widget_pass_event widgets focus
        (.key_mods mods_latched mods_depressed mods_locked) st with
    | none => st
    | some (r, st2) => { st2 with input := { st2.input with keyboard_focus := r } }

/-! ## Frame rate (`utest-display-wayland.c`) -/

/-- The members `fps_ts` and `fps_acc` of `struct window_data`, both `u32`. -/
structure frame_rate_t where
  fps_ts : Nat
  fps_acc : Nat
  deriving DecidableEq, Repr

/-- What `window_frame_rate_update` returns: the `float` value of
`acc ? 1e+06 / ((acc + 8) >> 4) : 0`, given by its denominator. -/
inductive fps_t where
  /-- The rate 0, returned while the accumulator is 0. -/
  | zero
  /-- The rate `1e+06 / interval`, for the averaged interval in microseconds
  (infinite when `interval` is 0). -/
  | per (interval : Nat)
  deriving DecidableEq, Repr

/-- `window_frame_rate_reset`. -/
def window_frame_rate_reset (_window : frame_rate_t) : frame_rate_t :=
  { fps_acc := 0, fps_ts := 0 }

/-- `window_frame_rate_update`, with `now` the value `__get_time_usec()`
returns (a `u32`): the rate returned and the window afterwards. -/
def window_frame_rate_update (now : Nat) (window : frame_rate_t) : fps_t × frame_rate_t :=
  let ts_1 := now % 2 ^ 32
  let ts_0 := window.fps_ts
  let delta := (ts_1 + 2 ^ 32 - ts_0 % 2 ^ 32) % 2 ^ 32
  let acc0 := window.fps_acc
  let acc :=
    if acc0 = 0 then
      if ts_0 ≠ 0 then (delta <<< 4) % 2 ^ 32 else acc0
    else (acc0 + (delta + 2 ^ 32 - (((acc0 + 8) % 2 ^ 32) >>> 4)) % 2 ^ 32) % 2 ^ 32
  let fps := if acc ≠ 0 then fps_t.per (((acc + 8) % 2 ^ 32) >>> 4) else fps_t.zero
  (fps, { fps_acc := acc, fps_ts := ts_1 })

/-- Calls of `window_frame_rate_update` at the times `times`, in order: the
rates returned and the window afterwards. -/
def window_frame_rate_updates : List Nat → frame_rate_t → List fps_t × frame_rate_t
  | [], window => ([], window)
  | now :: times, window =>
    let r := window_frame_rate_update now window
    let rs := window_frame_rate_updates times r.2
    (r.1 :: rs.1, rs.2)

/-! ## Drawing transform (`utest-display.c`) -/

/-- The members of `cairo_matrix_t`. The code stores 0.0, 1.0, -1.0 and the
`int` values `w` and `h`, all of which a `double` holds exactly. -/
structure cairo_matrix_t where
  xx : Int
  yx : Int
  xy : Int
  yy : Int
  x0 : Int
  y0 : Int
  deriving DecidableEq, Repr

/-- `cairo_matrix_init_identity` of the cairo library. -/
def cairo_matrix_init_identity : cairo_matrix_t :=
  { xx := 1, yx := 0, xy := 0, yy := 1, x0 := 0, y0 := 0 }

/-- `cairo_matrix_transform_point` of the cairo library: the image of a
point under the matrix. -/
def cairo_matrix_transform_point (m : cairo_matrix_t) (x y : Int) : Int × Int :=
  (m.xx * x + m.xy * y + m.x0, m.yx * x + m.yy * y + m.y0)

/-- `window_set_transform_matrix`: the matrix installed for a window of width
`w` and height `h`; any transform other than 90, 180, 270 of a fullscreen
window runs into `BUG(1, ...)`. -/
def window_set_transform_matrix (w h : Int) (fullscreen : Int) (transform : Nat) :
    Except Fault cairo_matrix_t :=
  if fullscreen ≠ 0 ∧ transform ≠ 0 then
    if transform = 90 then
      .ok { xx := 0, xy := -1, x0 := w, yx := 1, yy := 0, y0 := 0 }
    else if transform = 180 then
      .ok { xx := -1, xy := 0, x0 := w, yx := 0, yy := -1, y0 := h }
    else if transform = 270 then
      .ok { xx := 0, xy := 1, x0 := 0, yx := -1, yy := 0, y0 := h }
    else .error .abort
  else .ok cairo_matrix_init_identity

/-! ## Threads in the GPU context broker

`display_egl_ctx_get` and `display_egl_ctx_put` statement by statement, for
several threads taking turns. -/

/-- Where a thread is between `display_egl_ctx_get` and `display_egl_ctx_put`. -/
inductive ctx_pc where
  /-- Outside: before `display_egl_ctx_get` or after `display_egl_ctx_put`. -/
  | idle
  /-- Inside `display_egl_ctx_get`, after `pthread_mutex_lock` returned. -/
  | locked
  /-- `display_egl_ctx_get` has returned, `display_egl_ctx_put` has not begun. -/
  | bound
  /-- Inside `display_egl_ctx_put`, after its `eglMakeCurrent`. -/
  | unbound
  deriving DecidableEq, Repr

/-- The display together with the position of every thread. -/
structure ctx_system where
  display : display_data_t
  pc : Nat → ctx_pc

/-- The next statement of thread `t`: the bug-check and `pthread_mutex_lock`
of `display_egl_ctx_get` (the thread waits while the lock is held), its
`eglMakeCurrent`, the `eglMakeCurrent` of `display_egl_ctx_put`, its
`pthread_mutex_unlock`. -/
def ctx_step (t : Nat) (s : ctx_system) : outcome ctx_system :=
  match s.pc t with
  | .idle =>
    if s.display.current t ≠ .none then .abort s.display
    else
      match s.display.lock with
      | some _ => .blocked
      | none =>
        .done { display := { s.display with lock := some t,
                                            calls := s.display.calls ++ [.mutex_lock t] },
                pc := Function.update s.pc t .locked }
  | .locked =>
    .done { display := { s.display with
                          current := Function.update s.display.current t .shared,
                          calls := s.display.calls ++ [.make_current t .shared] },
            pc := Function.update s.pc t .bound }
  | .bound =>
    .done { display := { s.display with
                          current := Function.update s.display.current t .none,
                          calls := s.display.calls ++ [.make_current t .none] },
            pc := Function.update s.pc t .unbound }
  | .unbound =>
    .done { display := { s.display with lock := none,
                                        calls := s.display.calls ++ [.mutex_unlock t] },
            pc := Function.update s.pc t .idle }

/-- The threads take steps in the order `schedule`: a thread that finds the
lock held stays in `pthread_mutex_lock` and the turn passes on; an abort ends
the run. -/
def ctx_run : List Nat → ctx_system → ctx_system
  | [], s => s
  | t :: schedule, s =>
    match ctx_step t s with
    | .done s' => ctx_run schedule s'
    | .blocked => ctx_run schedule s
    | .abort _ => s

/-- The lock is held exactly by the thread that is between its lock and its
unlock, and the shared context is current exactly on the thread that is
between `display_egl_ctx_get` and `display_egl_ctx_put`. -/
def ctx_inv (s : ctx_system) : Prop :=
  (∀ t, s.display.lock = some t ↔ s.pc t ≠ .idle) ∧
  (∀ t, s.display.current t = .shared ↔ s.pc t = .bound)

/-! ## Widgets (`utest-display.c`, `__widget_init` of `utest-display-wayland.c`)

The hooks of a widget act on `widget_world`; the calls a function makes are
logged beside it, out of the reach of the hooks. Geometry and the cairo
surface of a widget are left out; the surface is named by its widget. -/

/-- What the widget functions and their hooks read and write: the member
`dirty` of every widget and every window's flag record. -/
structure widget_world where
  dirty : Nat → Int
  windows : Nat → window_data_t

/-- Calls made by the widget functions. -/
inductive widget_op where
  /-- `info->init(widget, cdata)`. -/
  | init (widget cdata : Nat)
  /-- `info->draw(widget, widget->cdata, cr)`. -/
  | draw (widget cdata cr : Nat)
  /-- `info->event(widget, widget->cdata, event)`. -/
  | event (widget cdata : Nat) (event : widget_event_t)
  /-- `info->destroy(widget, widget->cdata)`. -/
  | destroy (widget cdata : Nat)
  /-- `cairo_create(widget->cs)`, returning `cr`. -/
  | cairo_create (widget cr : Nat)
  /-- `cairo_destroy(cr)`. -/
  | cairo_destroy (cr : Nat)
  /-- `cairo_gl_surface_create...` for the widget's surface. -/
  | cairo_surface_create (widget : Nat)
  /-- `cairo_surface_destroy(widget->cs)`. -/
  | cairo_surface_destroy (widget : Nat)
  /-- `cairo_save`, `cairo_set_source_surface(cr, widget->cs, ...)`,
  `cairo_paint_with_alpha`, `cairo_restore` of `widget_render`. -/
  | paint (widget cr : Nat)
  /-- `free(widget)`. -/
  | free (widget : Nat)
  deriving DecidableEq, Repr

/-- The world and the calls made so far. -/
structure widget_state where
  world : widget_world
  calls : List widget_op

/-- `widget_update`, with `cr` the context `cairo_create` returns. The call
`widget->info->draw(...)` is made without a test of `info` or of `draw`. -/
def widget_update (widgets : Nat → widget_data_t widget_world) (widget : Nat) (_flush : Int)
    (cr : Nat) (st : widget_state) : Except Fault widget_state :=
  if st.world.dirty widget = 0 then .ok st
  else
    let world1 : widget_world :=
      { st.world with dirty := Function.update st.world.dirty widget 0 }
    match (widgets widget).info with
    | none => .error .undefined
    | some info =>
      match info.draw with
      | none => .error .undefined
      | some hook =>
        .ok { world := hook widget (widgets widget).cdata cr world1,
              calls := st.calls ++ [.cairo_create widget cr,
                .draw widget (widgets widget).cdata cr, .cairo_destroy cr] }

/-- `widget_render` into the context `target`, with `cr` the context
`cairo_create` returns inside `widget_update`; `info->left` is read without a
test of `info`. -/
def widget_render (widgets : Nat → widget_data_t widget_world) (widget : Nat) (target : Nat)
    (cr : Nat) (st : widget_state) : Except Fault widget_state :=
  match widget_update widgets widget 0 cr st with
  | .error e => .error e
  | .ok st1 =>
    match (widgets widget).info with
    | none => .error .undefined
    | some _ => .ok { st1 with calls := st1.calls ++ [.paint widget target] }

/-- `widget_schedule_redraw`. -/
def widget_schedule_redraw (widgets : Nat → widget_data_t widget_world) (widget : Nat)
    (st : widget_state) : widget_state :=
  { st with world :=
      { dirty := Function.update st.world.dirty widget 1,
        windows := Function.update st.world.windows (widgets widget).window
          (window_schedule_redraw (st.world.windows (widgets widget).window)) } }

/-- A call on a widget that may regenerate its content. -/
inductive widget_call where
  /-- `widget_update(widget, flush)`. -/
  | update (flush : Int)
  /-- `widget_render(widget, target, alpha)`. -/
  | render (target : Nat)
  deriving DecidableEq, Repr

/-- A sequence of `widget_update` and `widget_render` calls on one widget;
every `cairo_create` returns `cr`. -/
def widget_calls (widgets : Nat → widget_data_t widget_world) (widget cr : Nat) :
    List widget_call → widget_state → Except Fault widget_state
  | [], st => .ok st
  | .update flush :: cs, st =>
    match widget_update widgets widget flush cr st with
    | .error e => .error e
    | .ok st' => widget_calls widgets widget cr cs st'
  | .render target :: cs, st =>
    match widget_render widgets widget target cr st with
    | .error e => .error e
    | .ok st' => widget_calls widgets widget cr cs st'

/-- How often the draw hook of `widget` has been invoked. -/
def draw_count (widget : Nat) : List widget_op → Nat
  | [] => 0
  | .draw w _ _ :: ops => (if w = widget then 1 else 0) + draw_count widget ops
  | _ :: ops => draw_count widget ops

/-! ## Track list (`utest-main.c`)

A list node is an address (0 for `NULL`); the node of a track is taken to be
the first member of its descriptor, as the casts in `sview_track_next`
assume, so a track and its node share the address. -/

/-- The members `next` and `prev` of every `track_list_t`. -/
structure track_links where
  next : Nat → Nat
  prev : Nat → Nat

/-- The statement `__sv_tracks.next = __sv_tracks.prev = &__sv_tracks;` of
`main`, for the list head at `head`. -/
def track_list_init (links : track_links) (head : Nat) : track_links :=
  { next := Function.update links.next head head,
    prev := Function.update links.prev head head }

/-- `track_next`. -/
def track_next (links : track_links) (head track : Nat) : Except Fault Nat :=
  if links.next head = head then .error .abort
  else if track ≠ 0 then
    if links.next track = head then .ok (links.next head) else .ok (links.next track)
  else .ok (links.next head)

/-- `track_prev`. -/
def track_prev (links : track_links) (head track : Nat) : Except Fault Nat :=
  if links.prev head = head then .error .abort
  else if track ≠ 0 then
    if links.prev track = head then .ok (links.prev head) else .ok (links.prev track)
  else .ok (links.prev head)

/-- `track_create`, with `calloc_result` the address `calloc` returns (0 for
`NULL`): the track returned and the links afterwards. The assignments are
made in the order of the source. -/
def track_create (links : track_links) (head : Nat) (calloc_result : Nat) : Nat × track_links :=
  if calloc_result = 0 then (0, links)
  else
    let track := calloc_result
    if head ≠ 0 then
      let l1 : track_links := { links with next := Function.update links.next track head }
      let l2 : track_links := { l1 with prev := Function.update l1.prev track (l1.prev head) }
      let l3 : track_links := { l2 with next := Function.update l2.next (l2.prev head) track }
      let l4 : track_links := { l3 with prev := Function.update l3.prev head track }
      (track, l4)
    else
      (track, { next := Function.update links.next track track,
                prev := Function.update links.prev track track })

/-- One `track_create(head, type)` for every address of `tracks`, in order. -/
def tracks_create (head : Nat) : List Nat → track_links → track_links
  | [], links => links
  | a :: tracks, links => tracks_create head tracks (track_create links head a).2

/-- The statement `current = track_next(head, current)` repeated `k` times. -/
def track_walk (links : track_links) (head : Nat) : Nat → Nat → Except Fault Nat
  | 0, track => .ok track
  | k + 1, track =>
    match track_next links head track with
    | .error e => .error e
    | .ok u => track_walk links head k u

/-- The nodes `l` lie between `a` and `b`, in order: every `next` leads one
node on and every `prev` one node back. -/
def linked (links : track_links) : Nat → List Nat → Nat → Prop
  | a, [], b => links.next a = b ∧ links.prev b = a
  | a, x :: l, b => links.next a = x ∧ links.prev x = a ∧ linked links x l b

/-! ## Sample inputs -/

/-- A memory in which buffer `b` has decode timestamp `b`, texture `b + 100`,
and texture `x` has handle `x + 1000` and first plane `x + 2000`. -/
def sample_memory : Memory :=
  { dts := fun b => b, priv := fun b => b + 100, tex := fun x => x + 1000,
    data0 := fun x => x + 2000 }

/-- Output arguments holding zeros. -/
def sample_out : sview_out :=
  { buf := fun _ => 0, tex := fun _ => 0, t := fun _ => 0, planes := fun _ => 0, ts := 0 }

/-- A window with no flag set. -/
def sample_window : window_data_t := { flags := 0, signals := 0, calls := [] }

/-- A state with two buffers queued for every camera: `10 i + 1` then `10 i + 2`. -/
def sample_backlog : app_data_t :=
  { flags := 0, frames := 0, render := fun i => [10 * i + 1, 10 * i + 2],
    window := sample_window, refs := [] }

/-- A state with one buffer `i + 1` queued for every camera and the four low
bitmask bits clear. -/
def sample_single : app_data_t :=
  { flags := 0, frames := 0, render := fun i => [i + 1], window := sample_window, refs := [] }

/-- A state with empty queues and no flag set. -/
def sample_idle : app_data_t :=
  { flags := 0, frames := 0, render := fun _ => [], window := sample_window, refs := [] }

/-- A window whose `TERMINATE` flag is set and whose other flags are clear. -/
def sample_terminating : window_data_t := { flags := 2, signals := 0, calls := [] }

/-- A window with both `REDRAW` and `REINIT` pending. -/
def sample_pending : window_data_t := { flags := 5, signals := 0, calls := [] }

/-- A state whose four low bitmask bits are clear although queue 2 is empty. -/
def sample_gap : app_data_t :=
  { flags := 0, frames := 0, render := fun i => if i = 2 then [] else [i + 1],
    window := sample_window, refs := [] }

/-- A hundred ticks; in tick `k` the cameras deliver, in the order 2, 0, 3, 1,
the fresh buffers `4 k + 3`, `4 k + 1`, `4 k + 4`, `4 k + 2`. -/
def sample_ticks : List (List (Nat × GstBuffer)) :=
  (List.range 100).map
    (fun k => [(2, 4 * k + 3), (0, 4 * k + 1), (3, 4 * k + 4), (1, 4 * k + 2)])

/-- The call ran `work` under the shared context: it took the display lock,
bound the shared context, did the work, unbound and unlocked, so the binding
of every thread and the lock are as before. -/
def ran_shared (self : Nat) (work : gl_work) (display d : display_data_t) : Prop :=
  d.current = display.current ∧ d.lock = display.lock ∧
  d.calls = display.calls ++
    [.mutex_lock self, .make_current self .shared, .gl self .shared work,
     .make_current self .none, .mutex_unlock self]

/-- No thread has a context, the display lock is free. -/
def sample_display : display_data_t :=
  { current := fun _ => .none, lock := none, calls := [] }

/-- Thread 1 runs a redraw hook: the context of window 7 is current on it. -/
def sample_display_bound : display_data_t :=
  { current := fun t => if t = 1 then .user 7 else .none, lock := none, calls := [] }

/-- Thread 2 holds the shared context. -/
def sample_display_held : display_data_t :=
  { current := fun t => if t = 2 then .shared else .none, lock := some 2,
    calls := [.mutex_lock 2, .make_current 2 .shared] }

/-- Pixel format constants: GStreamer formats 23, 5, 51 and pixmap formats 10, 11, 12. -/
def sample_formats : pixel_formats :=
  { GST_VIDEO_FORMAT_NV12 := 23, GST_VIDEO_FORMAT_UYVY := 5, GST_VIDEO_FORMAT_NV16 := 51,
    EGL_NATIVE_PIXFORMAT_NV12_REL := 10, EGL_NATIVE_PIXFORMAT_UYVY_REL := 11,
    EGL_NATIVE_PIXFORMAT_NV16_REL := 12 }

/-- Buffer 3 is 1280x800 in format 23, buffer 4 is 640x480; nothing is
registered, no thread has a context. -/
def sample_buffers : camera_buffers :=
  { vsink_meta := fun b =>
      if b = 3 then { width := 1280, height := 800, format := 23, plane := 0, priv := 0 }
      else { width := 640, height := 480, format := 23, plane := 0, priv := 0 },
    weak_refs := [],
    display := sample_display }

/-- The hook `hook` of widget `focus` ran once on `event` between `st` and
`st'`, and `stored` is what it returned. -/
def hook_ran {σ : Type} (widgets : Nat → widget_data_t σ)
    (hook : Nat → Nat → widget_event_t → σ → Nat × σ) (focus : Nat) (event : widget_event_t)
    (st st' : input_state σ) (stored : Nat) : Prop :=
  stored = (hook focus (widgets focus).cdata event st.world).1 ∧
  st'.world = (hook focus (widgets focus).cdata event st.world).2 ∧
  st'.events = st.events ++ [(focus, (widgets focus).cdata, event)]

/-- A hook that counts its calls and keeps the focus on the widget, except
that a touch release and a key release give the focus up. -/
def sample_hook (widget _cdata : Nat) (event : widget_event_t) (count : Nat) : Nat × Nat :=
  match event with
  | .touch_up _ => (0, count + 1)
  | .key_press _ 0 => (0, count + 1)
  | _ => (widget, count + 1)

/-- Widget 5 (the root widget of window 5) has `sample_hook` and client data
9; no other widget has an info record. -/
def sample_widgets (w : Nat) : widget_data_t Nat :=
  if w = 5 then { info := some { event := some sample_hook }, cdata := 9 }
  else { info := none, cdata := 0 }

/-- Every device is focused on widget 5, the pointer is at (10, 20). -/
def sample_input : input_state Nat :=
  { input := { pointer_focus := 5, pointer_x := 10, pointer_y := 20, touch_focus := 5,
               keyboard_focus := 5 },
    world := 0,
    events := [] }

/-- Surface 77 belongs to window 5; no other surface has a window. -/
def sample_user_data (surface : Nat) : Nat := if surface = 77 then 5 else 0

/-- Window 5 draws on surface 77. -/
def sample_surface (window : Nat) : Nat := if window = 5 then 77 else 0

/-- A state in which cameras 0, 1 and 2 have one buffer queued and camera 3
has none: bit 3 alone is set. -/
def sample_last : app_data_t :=
  { flags := 0, frames := 8, render := fun i => if i = 3 then [] else [i + 1],
    window := sample_window, refs := [] }

/-- A state with the end-of-stream flag set (taken as bit 0) and one buffer
`i + 1` still queued for every camera. -/
def sample_eos : app_data_t :=
  { flags := 1, frames := 0, render := fun i => [i + 1], window := sample_window, refs := [] }

/-- The values a 32-bit microsecond clock shows at `n` instants `d`
microseconds apart, the first at `t`. -/
def frame_times (t d : Nat) : Nat → List Nat
  | 0 => []
  | n + 1 => t % 2 ^ 32 :: frame_times (t + d) d n

/-- No thread has a context, the display lock is free, every thread is
outside `display_egl_ctx_get`. -/
def sample_system : ctx_system :=
  { display := sample_display, pc := fun _ => .idle }

/-- No widget has an info record. -/
def sample_infoless (_w : Nat) : widget_data_t widget_world :=
  { info := none, cdata := 9, window := 5 }

/-- A draw hook that leaves the world as it is. -/
def sample_draw (_widget _cdata _cr : Nat) (world : widget_world) : widget_world := world

/-- Every widget has the draw hook `sample_draw`, client data 9 and the
owning window 5. -/
def sample_drawn (_w : Nat) : widget_data_t widget_world :=
  { info := some { event := none, draw := some sample_draw }, cdata := 9, window := 5 }

/-- Every widget clean, every window without flags, no call made. -/
def sample_widget_state : widget_state :=
  { world := { dirty := fun _ => 0, windows := fun _ => sample_window }, calls := [] }

/-- Links that are all `NULL`, as before `main` runs. -/
def sample_links : track_links := { next := fun _ => 0, prev := fun _ => 0 }

/-- The passes of one `sview_redraw` run, as the loop makes them: each pass is
a `sview_pop_buffers` that returns 1, leaving the state `appP` and the output
arguments `outP`, followed after the rendering by a `sview_release_buffers`
of the popped buffers that leaves `appR`; after the last pass
`sview_pop_buffers` returns 0 and leaves the state and output arguments
`final`. -/
def redraw_passes (APP_FLAG_EOS : Nat) (mem : Memory) :
    List (app_data_t × sview_out × app_data_t) → app_data_t × sview_out →
      app_data_t × sview_out → Prop
  | [], (app, out), final =>
    sview_pop_buffers APP_FLAG_EOS mem app out = .ok (0, final.1, final.2)
  | (appP, outP, appR) :: passes, (app, out), final =>
    sview_pop_buffers APP_FLAG_EOS mem app out = .ok (1, appP, outP) ∧
    sview_release_buffers appP outP.buf = .ok appR ∧
    redraw_passes APP_FLAG_EOS mem passes (appR, outP) final

/-! ## Lemmas on the queue loops -/

theorem to_s64_zero : to_s64 0 = 0 := by decide

theorem to_s64_idem (x : Int) : to_s64 (to_s64 x) = to_s64 x := by
  unfold to_s64; omega

theorem to_s64_add_left (x y : Int) : to_s64 (to_s64 x + y) = to_s64 (x + y) := by
  unfold to_s64; omega

theorem to_s64_of_range (x : Int) (h1 : -(2 ^ 63) ≤ x) (h2 : x < 2 ^ 63) : to_s64 x = x := by
  unfold to_s64; omega

theorem drop_all_eq (q : List GstBuffer) (log : List gst_call) :
    drop_all q log = log ++ q.map gst_call.unref := by
  induction q generalizing log with
  | nil => simp [drop_all]
  | cons b q ih => simp [drop_all, ih]

theorem flatMap_range_congr {β : Type} (f g : Nat → List β) (i n : Nat)
    (h : ∀ j, i ≤ j → j < i + n → f j = g j) :
    (List.range' i n).flatMap f = (List.range' i n).flatMap g := by
  induction n generalizing i with
  | zero => simp
  | succ n ih =>
    rw [List.range'_succ, List.flatMap_cons, List.flatMap_cons, h i (le_refl i) (by omega)]
    rw [ih (i + 1) (fun j h1 h2 => h j (by omega) (by omega))]

theorem map_range_congr {β : Type} (f g : Nat → β) (i n : Nat)
    (h : ∀ j, i ≤ j → j < i + n → f j = g j) :
    (List.range' i n).map f = (List.range' i n).map g := by
  induction n generalizing i with
  | zero => simp
  | succ n ih =>
    rw [List.range'_succ, List.map_cons, List.map_cons, h i (le_refl i) (by omega)]
    rw [ih (i + 1) (fun j h1 h2 => h j (by omega) (by omega))]

theorem ite_range_empty {β : Type} (i : Nat) (a f : Nat → β) :
    (fun j => if i ≤ j ∧ j < i then a j else f j) = f := by
  funext j
  have : ¬ (i ≤ j ∧ j < i) := by omega
  simp [this]

theorem purge_loop_eq (n i : Nat) (app : app_data_t) :
    purge_loop n i app = purge_result n i app := by
  induction n generalizing i app with
  | zero =>
    cases app
    simp only [purge_loop, purge_result, List.range'_zero, List.flatMap_nil, List.append_nil,
      Nat.add_zero, ite_range_empty]
  | succ n ih =>
    rw [purge_loop, ih]
    simp only [purge_result, drop_all_eq, List.range'_succ, List.flatMap_cons, List.append_assoc]
    congr 1
    · funext j
      by_cases hj : j = i
      · subst hj; simp
      · simp only [Function.update_apply, hj, if_false]
        by_cases h1 : i ≤ j ∧ j < i + (n + 1)
        · have : i + 1 ≤ j ∧ j < i + 1 + n := by omega
          simp [h1, this]
        · have : ¬ (i + 1 ≤ j ∧ j < i + 1 + n) := by omega
          simp [h1, this]
    · congr 2
      apply flatMap_range_congr
      intro j h1 h2
      have : j ≠ i := by omega
      simp [Function.update_apply, this]

theorem drop_previous_eq (b : GstBuffer) (q : List GstBuffer) (log : List gst_call) (h : b ∈ q) :
    drop_previous b q log =
      .ok (q.dropWhile (fun x => decide (x ≠ b)),
           log ++ (q.takeWhile (fun x => decide (x ≠ b))).map gst_call.unref) := by
  induction q generalizing log with
  | nil => simp at h
  | cons x q ih =>
    by_cases hx : x = b
    · simp [drop_previous, hx]
    · have hb : b ∈ q := by
        rcases List.mem_cons.mp h with h1 | h1
        · exact absurd h1.symm hx
        · exact h1
      simp [drop_previous, hx, ih _ hb]

theorem getLast?_eq_queue_tail (q : List GstBuffer) (h : q ≠ []) :
    q.getLast? = some (queue_tail q) := by
  rw [List.getLast?_eq_getLast q h, queue_tail, List.getLastD_eq_getLast?,
    List.getLast?_eq_getLast q h]
  rfl

theorem queue_tail_mem (q : List GstBuffer) (h : q ≠ []) : queue_tail q ∈ q := by
  have := getLast?_eq_queue_tail q h
  rw [List.getLast?_eq_getLast q h] at this
  have h2 : q.getLast h = queue_tail q := by simpa using this
  rw [← h2]
  exact List.getLast_mem h

theorem collect_loop_eq (mem : Memory) (n i : Nat) (st : app_data_t × sview_out × Int)
    (H : ∀ j, i ≤ j → j < i + n → st.1.render j ≠ []) (hacc : to_s64 st.2.2 = st.2.2) :
    collect_loop mem n i st = .ok (collect_result mem n i st) := by
  induction n generalizing i st with
  | zero =>
    obtain ⟨app, out, acc⟩ := st
    cases app
    cases out
    simp only [collect_loop, collect_result, List.range'_zero, List.flatMap_nil, List.append_nil,
      Nat.add_zero, ite_range_empty, List.map_nil, List.sum_nil, Int.add_zero]
    simp only at hacc
    rw [hacc]
  | succ n ih =>
    obtain ⟨app, out, acc⟩ := st
    have hi : app.render i ≠ [] := H i (le_refl i) (by omega)
    rw [collect_loop]
    simp only [getLast?_eq_queue_tail _ hi, drop_previous_eq _ _ _ (queue_tail_mem _ hi)]
    rw [ih]
    · simp only [collect_result, List.range'_succ, List.flatMap_cons, List.append_assoc,
        List.map_cons, List.sum_cons]
      have e1 : ∀ (v : List GstBuffer) j, i + 1 ≤ j → j < i + 1 + n →
          Function.update app.render i v j = app.render j := by
        intro v j h1 h2
        have : j ≠ i := by omega
        simp [Function.update_apply, this]
      refine congrArg Except.ok (Prod.ext ?_ (Prod.ext ?_ ?_))
      · simp only
        congr 1
        · funext j
          by_cases hj : j = i
          · subst hj; simp [queue_kept]
          · by_cases h1 : i ≤ j ∧ j < i + (n + 1)
            · have h2 : i + 1 ≤ j ∧ j < i + 1 + n := by omega
              simp [Function.update_apply, hj, h1, h2]
            · have h2 : ¬ (i + 1 ≤ j ∧ j < i + 1 + n) := by omega
              simp [Function.update_apply, hj, h1, h2]
        · simp only [queue_dropped]
          congr 2
          apply flatMap_range_congr
          intro j h1 h2
          simp only [e1 _ j h1 h2]
      · simp only
        congr 1 <;>
        · funext j
          by_cases hj : j = i
          · subst hj; simp
          · by_cases h1 : i ≤ j ∧ j < i + (n + 1)
            · have h2 : i + 1 ≤ j ∧ j < i + 1 + n := by omega
              simp [Function.update_apply, hj, h1, h2]
            · have h2 : ¬ (i + 1 ≤ j ∧ j < i + 1 + n) := by omega
              simp [Function.update_apply, hj, h1, h2]
      · simp only
        rw [to_s64_add_left, Int.add_assoc]
        congr 4
        apply map_range_congr
        intro j h1 h2
        simp only [e1 _ j h1 h2]
    · intro j h1 h2
      have : j ≠ i := by omega
      simp only [Function.update_apply, this, if_false]
      exact H j (by omega) (by omega)
    · exact to_s64_idem _

theorem low_bits_zero_iff (x n : Nat) :
    x &&& ((1 <<< n) - 1) = 0 ↔ ∀ i, i < n → x.testBit i = false := by
  rw [Nat.one_shiftLeft]
  constructor
  · intro h i hi
    have := congrArg (fun y => Nat.testBit y i) h
    simp only [Nat.testBit_and, Nat.testBit_two_pow_sub_one, Nat.zero_testBit] at this
    simpa [hi] using this
  · intro h
    apply Nat.eq_of_testBit_eq
    intro i
    simp only [Nat.testBit_and, Nat.testBit_two_pow_sub_one, Nat.zero_testBit]
    by_cases hi : i < n
    · simp [h i hi]
    · simp [hi]

theorem takeWhile_ne_append (pre : List GstBuffer) (b : GstBuffer) (h : b ∉ pre) :
    (pre ++ [b]).takeWhile (fun x => decide (x ≠ b)) = pre ∧
    (pre ++ [b]).dropWhile (fun x => decide (x ≠ b)) = [b] := by
  induction pre with
  | nil => simp
  | cons x pre ih =>
    have hx : x ≠ b := fun e => h (by simp [e])
    have hb : b ∉ pre := fun e => h (by simp [e])
    have := ih hb
    simp only [ne_eq, decide_not] at this
    simp [hx, this]

theorem queue_split (q : List GstBuffer) (h : q ≠ []) : q = q.dropLast ++ [queue_tail q] := by
  have h1 := getLast?_eq_queue_tail q h
  rw [List.getLast?_eq_getLast q h] at h1
  have h2 : q.getLast h = queue_tail q := by simpa using h1
  rw [← h2]
  exact (List.dropLast_append_getLast h).symm

theorem queue_nodup (q : List GstBuffer) (h : q ≠ []) (hd : q.Nodup) :
    queue_kept q = [queue_tail q] ∧ queue_dropped q = q.dropLast := by
  have hs := queue_split q h
  have hnot : queue_tail q ∉ q.dropLast := by
    rw [hs] at hd
    have := (List.nodup_append.mp hd).2.2
    intro hm
    exact this hm (by simp)
  have := takeWhile_ne_append q.dropLast (queue_tail q) hnot
  rw [← hs] at this
  exact ⟨this.2, this.1⟩

theorem sview_pop_buffers_ready (APP_FLAG_EOS : Nat) (mem : Memory) (app : app_data_t)
    (out : sview_out)
    (heos : app.flags &&& APP_FLAG_EOS = 0)
    (hz : app.frames &&& ((1 <<< CAMERAS_NUMBER) - 1) = 0)
    (hq : ∀ i, i < CAMERAS_NUMBER → app.render i ≠ []) :
    sview_pop_buffers APP_FLAG_EOS mem app out =
      .ok (1, (collect_result mem CAMERAS_NUMBER 0 (app, out, 0)).1,
        { (collect_result mem CAMERAS_NUMBER 0 (app, out, 0)).2.1 with
          ts := Int.tdiv (collect_result mem CAMERAS_NUMBER 0 (app, out, 0)).2.2 CAMERAS_NUMBER }) := by
  have hloop := collect_loop_eq mem CAMERAS_NUMBER 0 (app, out, 0)
    (fun j _ h2 => hq j (by omega)) to_s64_zero
  simp only [sview_pop_buffers, heos, hz, hloop]
  simp

theorem not32_one_shiftLeft (k : Nat) (hk : k < 32) : not32 (1 <<< k) = 2 ^ 32 - (2 ^ k + 1) := by
  have h : 2 ^ k < 2 ^ 32 := Nat.pow_lt_pow_right (by decide) hk
  rw [not32, Nat.one_shiftLeft, Nat.mod_eq_of_lt h]
  omega

theorem testBit_clear (x k j : Nat) (hk : k < 32) :
    (x &&& not32 (1 <<< k)).testBit j = (x.testBit j && decide (j < 32) && decide (j ≠ k)) := by
  have h : 2 ^ k < 2 ^ 32 := Nat.pow_lt_pow_right (by decide) hk
  rw [not32_one_shiftLeft k hk, Nat.testBit_and, Nat.testBit_two_pow_sub_succ h, Nat.testBit_two_pow]
  by_cases h1 : j < 32 <;> by_cases h2 : k = j <;> simp [h1, h2, eq_comm]

theorem testBit_set (x k j : Nat) :
    (x ||| (1 <<< k)).testBit j = (x.testBit j || decide (j = k)) := by
  rw [Nat.testBit_or, Nat.one_shiftLeft, Nat.testBit_two_pow]
  by_cases h : k = j <;> simp [h, eq_comm]

theorem testBit_toggle (x k j : Nat) :
    (x ^^^ (1 <<< k)).testBit j = (x.testBit j ^^ decide (j = k)) := by
  rw [Nat.testBit_xor, Nat.one_shiftLeft, Nat.testBit_two_pow]
  by_cases h : k = j <;> simp [h, eq_comm]

theorem and_one_shiftLeft_eq_zero (x k : Nat) : x &&& (1 <<< k) = 0 ↔ x.testBit k = false := by
  constructor
  · intro h
    have := congrArg (fun y => Nat.testBit y k) h
    simpa [Nat.testBit_and, Nat.one_shiftLeft, Nat.testBit_two_pow] using this
  · intro h
    apply Nat.eq_of_testBit_eq
    intro j
    rw [Nat.testBit_and, Nat.one_shiftLeft, Nat.testBit_two_pow]
    by_cases hj : k = j
    · subst hj; simp [h]
    · simp [hj]

theorem sview_input_process_live (APP_FLAG_EOS : Nat) (app : app_data_t) (k : Nat)
    (buffer : GstBuffer) (hk : k < CAMERAS_NUMBER) (heos : app.flags &&& APP_FLAG_EOS = 0) :
    ∃ w, sview_input_process APP_FLAG_EOS app (k : Int) buffer =
      .ok (0, { flags := app.flags, frames := app.frames &&& not32 (1 <<< k),
                render := Function.update app.render k (app.render k ++ [buffer]),
                window := w, refs := app.refs ++ [.ref buffer] }) := by
  have h1 : ¬ ((k : Int) ≥ (CAMERAS_NUMBER : Int)) := by omega
  have h2 : ¬ ((k : Int) < 0) := by omega
  by_cases h3 : (app.frames &&& not32 (1 <<< k)) &&& ((1 <<< CAMERAS_NUMBER) - 1) = 0
  · exact ⟨window_schedule_redraw app.window, by
      simp [sview_input_process, h1, h2, heos, h3]⟩
  · exact ⟨app.window, by
      simp [sview_input_process, h1, h2, heos, h3]⟩

theorem sview_input_process_eos (APP_FLAG_EOS : Nat) (app : app_data_t) (k : Nat)
    (buffer : GstBuffer) (hk : k < CAMERAS_NUMBER) (heos : app.flags &&& APP_FLAG_EOS ≠ 0) :
    sview_input_process APP_FLAG_EOS app (k : Int) buffer = .ok (0, app) := by
  have h1 : ¬ ((k : Int) ≥ (CAMERAS_NUMBER : Int)) := by omega
  simp [sview_input_process, h1, heos]

theorem release_loop_spec (buffers : Nat → GstBuffer) (n i : Nat) (app : app_data_t)
    (H : ∀ j, i ≤ j → j < i + n → (app.render j).head? = some (buffers j)) :
    ∃ app', release_loop buffers n i app = .ok app' ∧
      app'.flags = app.flags ∧ app'.window = app.window ∧
      (∀ j, app'.render j = if i ≤ j ∧ j < i + n then (app.render j).tail else app.render j) ∧
      app'.refs = app.refs ++ (List.range' i n).map (fun j => gst_call.unref (buffers j)) ∧
      (∀ k, app'.frames.testBit k =
        if i ≤ k ∧ k < i + n ∧ (app.render k).tail = [] then !app.frames.testBit k
        else app.frames.testBit k) := by
  induction n generalizing i app with
  | zero =>
    refine ⟨app, rfl, rfl, rfl, ?_, by simp, ?_⟩
    · intro j
      have : ¬ (i ≤ j ∧ j < i + 0) := by omega
      rw [if_neg this]
    · intro k
      have : ¬ (i ≤ k ∧ k < i + 0 ∧ (app.render k).tail = []) := by omega
      rw [if_neg this]
  | succ n ih =>
    have hi := H i (le_refl i) (by omega)
    obtain ⟨q, hq⟩ : ∃ q, app.render i = buffers i :: q := by
      cases h : app.render i with
      | nil => simp [h] at hi
      | cons b q => simp [h] at hi; exact ⟨q, by rw [hi]⟩
    have hstep : ∀ app1 : app_data_t, app1.render = Function.update app.render i q →
        ∀ j, i + 1 ≤ j → j < i + 1 + n → (app1.render j).head? = some (buffers j) := by
      intro app1 h1 j hj1 hj2
      have : j ≠ i := by omega
      rw [h1]
      simp only [Function.update_apply, this, if_false]
      exact H j (by omega) (by omega)
    rw [release_loop, hq]
    simp only [ne_eq, not_true_eq_false, if_false]
    by_cases hqe : q = []
    · obtain ⟨app', h1, h2, h3, h4, h5, h6⟩ := ih (i + 1)
        { flags := app.flags, frames := app.frames ^^^ (1 <<< i),
          render := Function.update app.render i q, window := app.window,
          refs := app.refs ++ [.unref (buffers i)] } (hstep _ rfl)
      refine ⟨app', by simp only [hqe, if_true]; rw [← hqe]; exact h1, h2, h3, ?_, ?_, ?_⟩
      · intro j
        rw [h4 j]
        by_cases hj : j = i
        · subst hj; simp [hq]
        · by_cases hr : i ≤ j ∧ j < i + (n + 1)
          · have hr' : i + 1 ≤ j ∧ j < i + 1 + n := by omega
            simp [Function.update_apply, hj, hr, hr']
          · have hr' : ¬ (i + 1 ≤ j ∧ j < i + 1 + n) := by omega
            simp [Function.update_apply, hj, hr, hr']
      · rw [h5]; simp [List.range'_succ]
      · intro k
        rw [h6 k]
        by_cases hk : k = i
        · subst hk; simp [hq, hqe, testBit_toggle]
        · have e : (i + 1 ≤ k ∧ k < i + 1 + n ∧ (Function.update app.render i q k).tail = []) ↔
              (i ≤ k ∧ k < i + (n + 1) ∧ (app.render k).tail = []) := by
            simp only [Function.update_apply, hk, if_false]
            constructor
            · rintro ⟨a, b, c⟩; exact ⟨by omega, by omega, c⟩
            · rintro ⟨a, b, c⟩; exact ⟨by omega, by omega, c⟩
          simp only [e, testBit_toggle, hk, decide_False, Bool.xor_false]
    · obtain ⟨app', h1, h2, h3, h4, h5, h6⟩ := ih (i + 1)
        { flags := app.flags, frames := app.frames,
          render := Function.update app.render i q, window := app.window,
          refs := app.refs ++ [.unref (buffers i)] } (hstep _ rfl)
      refine ⟨app', by simp only [hqe, if_false]; exact h1, h2, h3, ?_, ?_, ?_⟩
      · intro j
        rw [h4 j]
        by_cases hj : j = i
        · subst hj; simp [hq]
        · by_cases hr : i ≤ j ∧ j < i + (n + 1)
          · have hr' : i + 1 ≤ j ∧ j < i + 1 + n := by omega
            simp [Function.update_apply, hj, hr, hr']
          · have hr' : ¬ (i + 1 ≤ j ∧ j < i + 1 + n) := by omega
            simp [Function.update_apply, hj, hr, hr']
      · rw [h5]; simp [List.range'_succ]
      · intro k
        rw [h6 k]
        by_cases hk : k = i
        · subst hk; simp [hq, hqe]
        · have e : (i + 1 ≤ k ∧ k < i + 1 + n ∧ (Function.update app.render i q k).tail = []) ↔
              (i ≤ k ∧ k < i + (n + 1) ∧ (app.render k).tail = []) := by
            simp only [Function.update_apply, hk, if_false]
            constructor
            · rintro ⟨a, b, c⟩; exact ⟨by omega, by omega, c⟩
            · rintro ⟨a, b, c⟩; exact ⟨by omega, by omega, c⟩
          simp only [e]

theorem collect_loop_nonempty (mem : Memory) (n i : Nat) (st r : app_data_t × sview_out × Int)
    (h : collect_loop mem n i st = .ok r) :
    ∀ j, i ≤ j → j < i + n → st.1.render j ≠ [] := by
  induction n generalizing i st with
  | zero => intro j h1 h2; omega
  | succ n ih =>
    obtain ⟨app, out, acc⟩ := st
    rw [collect_loop] at h
    by_cases hi : app.render i = []
    · simp [hi] at h
    · simp only [getLast?_eq_queue_tail _ hi, drop_previous_eq _ _ _ (queue_tail_mem _ hi)] at h
      intro j h1 h2
      by_cases hj : j = i
      · subst hj; exact hi
      · have := ih (i + 1) _ h j (by omega) (by omega)
        simpa [Function.update_apply, hj] using this

theorem sview_pop_buffers_ready_inv (APP_FLAG_EOS : Nat) (mem : Memory) (app app' : app_data_t)
    (out out' : sview_out) (ready : Int)
    (h : sview_pop_buffers APP_FLAG_EOS mem app out = .ok (ready, app', out')) (hr : ready ≠ 0) :
    app.flags &&& APP_FLAG_EOS = 0 ∧ app.frames &&& ((1 <<< CAMERAS_NUMBER) - 1) = 0 ∧
    (∀ i, i < CAMERAS_NUMBER → app.render i ≠ []) := by
  by_cases heos : app.flags &&& APP_FLAG_EOS = 0
  · by_cases hz : app.frames &&& ((1 <<< CAMERAS_NUMBER) - 1) = 0
    · refine ⟨heos, hz, ?_⟩
      simp only [sview_pop_buffers, heos, hz] at h
      cases hc : collect_loop mem CAMERAS_NUMBER 0 (app, out, 0) with
      | error e => simp [hc] at h
      | ok r =>
        intro i hi
        exact collect_loop_nonempty mem CAMERAS_NUMBER 0 _ r hc i (Nat.zero_le i) (by omega)
    · simp [sview_pop_buffers, heos, hz] at h
      exact absurd h.1.symm hr
  · simp [sview_pop_buffers, heos] at h
    exact absurd h.1.symm hr

theorem sview_input_process_cases (APP_FLAG_EOS : Nat) (app app' : app_data_t) (i r : Int)
    (buffer : GstBuffer)
    (h : sview_input_process APP_FLAG_EOS app i buffer = .ok (r, app')) :
    app' = app ∨ ∃ k w, k < CAMERAS_NUMBER ∧ app.flags &&& APP_FLAG_EOS = 0 ∧
      app' = { flags := app.flags, frames := app.frames &&& not32 (1 <<< k),
               render := Function.update app.render k (app.render k ++ [buffer]),
               window := w, refs := app.refs ++ [.ref buffer] } := by
  by_cases h1 : i ≥ (CAMERAS_NUMBER : Int)
  · simp [sview_input_process, h1] at h
  · by_cases heos : app.flags &&& APP_FLAG_EOS = 0
    · by_cases h2 : i < 0
      · simp [sview_input_process, h1, heos, h2] at h
      · have hik : i = ((i.toNat : Nat) : Int) := (Int.toNat_of_nonneg (by omega)).symm
        have hk : i.toNat < CAMERAS_NUMBER := by omega
        obtain ⟨w, hw⟩ := sview_input_process_live APP_FLAG_EOS app i.toNat buffer hk heos
        rw [← hik, h] at hw
        simp only [Except.ok.injEq, Prod.mk.injEq] at hw
        exact Or.inr ⟨i.toNat, w, hk, heos, hw.2⟩
    · simp [sview_input_process, h1, heos] at h
      exact Or.inl h.2.symm

theorem queue_kept_ne_nil (q : List GstBuffer) (h : q ≠ []) : queue_kept q ≠ [] := by
  intro he
  have hm := queue_tail_mem q h
  rw [queue_kept, List.dropWhile_eq_nil_iff] at he
  have := he _ hm
  simp at this

theorem sview_pop_buffers_cases (APP_FLAG_EOS : Nat) (mem : Memory) (app app' : app_data_t)
    (out out' : sview_out) (r : Int)
    (h : sview_pop_buffers APP_FLAG_EOS mem app out = .ok (r, app', out')) :
    (app.flags &&& APP_FLAG_EOS ≠ 0 ∧ app' = purge_result CAMERAS_NUMBER 0 app) ∨
    (app.flags &&& APP_FLAG_EOS = 0 ∧ app.frames &&& ((1 <<< CAMERAS_NUMBER) - 1) = 0 ∧
      (∀ i, i < CAMERAS_NUMBER → app.render i ≠ []) ∧
      app' = (collect_result mem CAMERAS_NUMBER 0 (app, out, 0)).1) ∨
    app' = app := by
  by_cases hr : r = 0
  · by_cases heos : app.flags &&& APP_FLAG_EOS = 0
    · by_cases hz : app.frames &&& ((1 <<< CAMERAS_NUMBER) - 1) = 0
      · simp only [sview_pop_buffers, heos, hz] at h
        cases hc : collect_loop mem CAMERAS_NUMBER 0 (app, out, 0) with
        | error e => simp [hc] at h
        | ok x =>
          simp [hc] at h
          exact absurd (hr ▸ h.1) (by decide)
      · simp [sview_pop_buffers, heos, hz] at h
        exact Or.inr (Or.inr h.2.1.symm)
    · simp [sview_pop_buffers, heos] at h
      exact Or.inl ⟨heos, by rw [← purge_loop_eq]; exact h.2.1.symm⟩
  · obtain ⟨heos, hz, hq⟩ :=
      sview_pop_buffers_ready_inv APP_FLAG_EOS mem app app' out out' r h hr
    rw [sview_pop_buffers_ready APP_FLAG_EOS mem app out heos hz hq] at h
    simp only [Except.ok.injEq, Prod.mk.injEq] at h
    exact Or.inr (Or.inl ⟨heos, hz, hq, h.2.1.symm⟩)

theorem release_loop_heads (buffers : Nat → GstBuffer) (n i : Nat) (app app' : app_data_t)
    (h : release_loop buffers n i app = .ok app') :
    ∀ j, i ≤ j → j < i + n → (app.render j).head? = some (buffers j) := by
  induction n generalizing i app with
  | zero => intro j h1 h2; omega
  | succ n ih =>
    rw [release_loop] at h
    cases hq : app.render i with
    | nil => simp [hq] at h
    | cons b q =>
      simp only [hq] at h
      by_cases hb : buffers i = b
      · simp only [hb, ne_eq, not_true_eq_false, if_false] at h
        intro j h1 h2
        by_cases hj : j = i
        · subst hj; simp [hq, hb]
        · have := ih (i + 1) _ h j (by omega) (by omega)
          by_cases hqe : q = []
          · simpa [hqe, Function.update_apply, hj] using this
          · simpa [hqe, Function.update_apply, hj] using this
      · simp [hb] at h

theorem sview_release_buffers_cases (app app' : app_data_t) (buffers : Nat → GstBuffer)
    (h : sview_release_buffers app buffers = .ok app') :
    app'.flags = app.flags ∧
    (∀ i, i < CAMERAS_NUMBER → app.render i ≠ [] ∧ app'.render i = (app.render i).tail ∧
      app'.frames.testBit i =
        if (app.render i).tail = [] then !app.frames.testBit i else app.frames.testBit i) := by
  have hh := release_loop_heads buffers CAMERAS_NUMBER 0 app app' h
  obtain ⟨app'', h1, h2, _, h4, _, h6⟩ := release_loop_spec buffers CAMERAS_NUMBER 0 app hh
  have e : app'' = app' := by
    rw [sview_release_buffers, h1] at h
    simpa using h
  subst e
  refine ⟨h2, fun i hi => ⟨?_, ?_, ?_⟩⟩
  · intro he
    have := hh i (Nat.zero_le i) (by omega)
    simp [he] at this
  · rw [h4 i]; simp [hi]
  · rw [h6 i]; simp [hi]

theorem camera_lt_32 (i : Nat) (hi : i < CAMERAS_NUMBER) : i < 32 := by
  unfold CAMERAS_NUMBER at hi; omega

theorem apply_keeps_clear (APP_FLAG_EOS : Nat) (mem : Memory) (c : sview_call)
    (st st' : app_data_t × sview_out) (h : c.apply APP_FLAG_EOS mem st = .ok st')
    (hA : ∀ i, i < CAMERAS_NUMBER → st.1.render i ≠ [] → st.1.frames.testBit i = false) :
    ∀ i, i < CAMERAS_NUMBER → st'.1.render i ≠ [] → st'.1.frames.testBit i = false := by
  obtain ⟨app, out⟩ := st
  cases c with
  | input_process k buffer =>
    simp only [sview_call.apply] at h
    cases hp : sview_input_process APP_FLAG_EOS app k buffer with
    | error e => simp [hp] at h
    | ok x =>
      obtain ⟨r, app'⟩ := x
      simp only [hp, Except.ok.injEq] at h
      subst h
      rcases sview_input_process_cases APP_FLAG_EOS app app' k r buffer hp with e | ⟨j, w, hj, _, e⟩
      · subst e; exact hA
      · subst e
        intro i hi hne
        simp only [testBit_clear _ _ _ (camera_lt_32 j hj)]
        by_cases hij : i = j
        · simp [hij]
        · simp only [Function.update_apply, hij, if_false] at hne
          simp [hA i hi hne]
  | pop_buffers =>
    simp only [sview_call.apply] at h
    cases hp : sview_pop_buffers APP_FLAG_EOS mem app out with
    | error e => simp [hp] at h
    | ok x =>
      obtain ⟨r, app', out'⟩ := x
      simp only [hp, Except.ok.injEq] at h
      subst h
      rcases sview_pop_buffers_cases APP_FLAG_EOS mem app app' out out' r hp with
        ⟨_, e⟩ | ⟨_, _, hq, e⟩ | e
      · subst e
        intro i hi hne
        simp [purge_result, hi] at hne
      · subst e
        intro i hi _
        exact hA i hi (hq i hi)
      · subst e; exact hA
  | release_buffers buffers =>
    simp only [sview_call.apply] at h
    cases hp : sview_release_buffers app buffers with
    | error e => simp [hp] at h
    | ok app' =>
      simp only [hp, Except.ok.injEq] at h
      subst h
      obtain ⟨_, hr⟩ := sview_release_buffers_cases app app' buffers hp
      intro i hi hne
      obtain ⟨h1, h2, h3⟩ := hr i hi
      rw [h2] at hne
      rw [h3, if_neg hne]
      exact hA i hi h1
  | purge_buffers =>
    simp only [sview_call.apply, Except.ok.injEq] at h
    subst h
    intro i hi hne
    simp [sview_purge_buffers, purge_loop_eq, purge_result, hi] at hne
  | set_eos =>
    simp only [sview_call.apply, Except.ok.injEq] at h
    subst h
    exact hA
  | clear_eos =>
    simp only [sview_call.apply, Except.ok.injEq] at h
    subst h
    exact hA

theorem apply_keeps_invariant (APP_FLAG_EOS : Nat) (mem : Memory) (c : sview_call)
    (st st' : app_data_t × sview_out) (h : c.apply APP_FLAG_EOS mem st = .ok st')
    (hs : c.stops = false) (heos : st.1.flags &&& APP_FLAG_EOS = 0)
    (hB : frames_invariant st.1) :
    frames_invariant st'.1 ∧ st'.1.flags &&& APP_FLAG_EOS = 0 := by
  obtain ⟨app, out⟩ := st
  cases c with
  | input_process k buffer =>
    simp only [sview_call.apply] at h
    cases hp : sview_input_process APP_FLAG_EOS app k buffer with
    | error e => simp [hp] at h
    | ok x =>
      obtain ⟨r, app'⟩ := x
      simp only [hp, Except.ok.injEq] at h
      subst h
      rcases sview_input_process_cases APP_FLAG_EOS app app' k r buffer hp with e | ⟨j, w, hj, _, e⟩
      · subst e; exact ⟨hB, heos⟩
      · subst e
        refine ⟨?_, heos⟩
        intro i hi
        simp only [testBit_clear _ _ _ (camera_lt_32 j hj)]
        by_cases hij : i = j
        · subst hij; simp
        · have := hB i hi
          simp only [Function.update_apply, hij, if_false]
          simpa [camera_lt_32 i hi, hij] using this
  | pop_buffers =>
    simp only [sview_call.apply] at h
    cases hp : sview_pop_buffers APP_FLAG_EOS mem app out with
    | error e => simp [hp] at h
    | ok x =>
      obtain ⟨r, app', out'⟩ := x
      simp only [hp, Except.ok.injEq] at h
      subst h
      rcases sview_pop_buffers_cases APP_FLAG_EOS mem app app' out out' r hp with
        ⟨hne, _⟩ | ⟨_, _, hq, e⟩ | e
      · exact absurd heos hne
      · subst e
        refine ⟨?_, heos⟩
        intro i hi
        have h1 := hB i hi
        have h2 := queue_kept_ne_nil _ (hq i hi)
        simp only [collect_result, hi, Nat.zero_le, Nat.zero_add, and_self, if_true]
        exact ⟨fun _ => h2, fun _ => h1.mpr (hq i hi)⟩
      · subst e; exact ⟨hB, heos⟩
  | release_buffers buffers =>
    simp only [sview_call.apply] at h
    cases hp : sview_release_buffers app buffers with
    | error e => simp [hp] at h
    | ok app' =>
      simp only [hp, Except.ok.injEq] at h
      subst h
      obtain ⟨hf, hr⟩ := sview_release_buffers_cases app app' buffers hp
      refine ⟨?_, by rw [hf]; exact heos⟩
      intro i hi
      obtain ⟨h1, h2, h3⟩ := hr i hi
      have hc := (hB i hi).mpr h1
      rw [h2, h3, hc]
      by_cases ht : (app.render i).tail = [] <;> simp [ht]
  | purge_buffers => simp [sview_call.stops] at hs
  | set_eos => simp [sview_call.stops] at hs
  | clear_eos =>
    simp only [sview_call.apply, Except.ok.injEq] at h
    subst h
    refine ⟨hB, ?_⟩
    show (app.flags &&& not32 APP_FLAG_EOS) &&& APP_FLAG_EOS = 0
    rw [Nat.and_assoc, Nat.and_comm (not32 APP_FLAG_EOS), ← Nat.and_assoc]
    have : app.flags &&& APP_FLAG_EOS = 0 := heos
    rw [this, Nat.zero_and]

theorem run_calls_keeps_clear (APP_FLAG_EOS : Nat) (mem : Memory) (calls : List sview_call)
    (st st' : app_data_t × sview_out) (h : run_calls APP_FLAG_EOS mem calls st = .ok st')
    (hA : ∀ i, i < CAMERAS_NUMBER → st.1.render i ≠ [] → st.1.frames.testBit i = false) :
    ∀ i, i < CAMERAS_NUMBER → st'.1.render i ≠ [] → st'.1.frames.testBit i = false := by
  induction calls generalizing st with
  | nil =>
    simp only [run_calls, Except.ok.injEq] at h
    subst h; exact hA
  | cons c cs ih =>
    rw [run_calls] at h
    cases hc : c.apply APP_FLAG_EOS mem st with
    | error e => simp [hc] at h
    | ok st1 =>
      simp only [hc] at h
      exact ih st1 h (apply_keeps_clear APP_FLAG_EOS mem c st st1 hc hA)

theorem run_calls_keeps_invariant (APP_FLAG_EOS : Nat) (mem : Memory) (calls : List sview_call)
    (st st' : app_data_t × sview_out) (h : run_calls APP_FLAG_EOS mem calls st = .ok st')
    (hs : ∀ c, c ∈ calls → c.stops = false) (heos : st.1.flags &&& APP_FLAG_EOS = 0)
    (hB : frames_invariant st.1) :
    frames_invariant st'.1 := by
  induction calls generalizing st with
  | nil =>
    simp only [run_calls, Except.ok.injEq] at h
    subst h; exact hB
  | cons c cs ih =>
    rw [run_calls] at h
    cases hc : c.apply APP_FLAG_EOS mem st with
    | error e => simp [hc] at h
    | ok st1 =>
      simp only [hc] at h
      obtain ⟨h1, h2⟩ := apply_keeps_invariant APP_FLAG_EOS mem c st st1 hc
        (hs c (List.mem_cons_self _ _)) heos hB
      exact ih st1 h (fun d hd => hs d (List.mem_cons_of_mem _ hd)) h2 h1

/-! ## Lemmas on the window flags -/

theorem and_one_shiftLeft_ne_zero (x k : Nat) : x &&& (1 <<< k) ≠ 0 ↔ x.testBit k = true := by
  rw [Ne, and_one_shiftLeft_eq_zero]
  simp

theorem window_mask_eq :
    WINDOW_FLAG_REDRAW ||| WINDOW_FLAG_TERMINATE ||| WINDOW_BV_REINIT = (1 <<< 3) - 1 := by
  decide

theorem window_mask_zero_iff (x : Nat) :
    x &&& (WINDOW_FLAG_REDRAW ||| WINDOW_FLAG_TERMINATE ||| WINDOW_BV_REINIT) = 0 ↔
      x.testBit 0 = false ∧ x.testBit 1 = false ∧ x.testBit 2 = false := by
  rw [window_mask_eq, low_bits_zero_iff]
  constructor
  · intro h
    exact ⟨h 0 (by decide), h 1 (by decide), h 2 (by decide)⟩
  · rintro ⟨h0, h1, h2⟩ i hi
    interval_cases i
    · exact h0
    · exact h1
    · exact h2

theorem window_thread_step_stop (window : window_data_t) (h : window.flags.testBit 1 = true) :
    window_thread_step window =
      (.stopped, { window with calls := window.calls ++ [.release_context] }) := by
  have h1 : ¬ window.flags &&&
      (WINDOW_FLAG_REDRAW ||| WINDOW_FLAG_TERMINATE ||| WINDOW_BV_REINIT) = 0 := by
    rw [window_mask_zero_iff]; simp [h]
  have h2 : window.flags &&& WINDOW_FLAG_TERMINATE ≠ 0 :=
    (and_one_shiftLeft_ne_zero _ 1).mpr h
  simp only [window_thread_step, h1, h2, if_false, if_true, ne_eq, not_false_eq_true]

theorem window_thread_step_redraw (window : window_data_t) (hT : window.flags.testBit 1 = false)
    (hR : window.flags.testBit 0 = true) :
    window_thread_step window =
      (.running, { window with
        flags := window.flags &&& not32 WINDOW_FLAG_REDRAW,
        calls := window.calls ++ [.make_current, .redraw] }) := by
  have h1 : ¬ window.flags &&&
      (WINDOW_FLAG_REDRAW ||| WINDOW_FLAG_TERMINATE ||| WINDOW_BV_REINIT) = 0 := by
    rw [window_mask_zero_iff]; simp [hR]
  have h2 : ¬ window.flags &&& WINDOW_FLAG_TERMINATE ≠ 0 := by
    intro h
    have := (and_one_shiftLeft_ne_zero _ 1).mp h
    rw [hT] at this
    exact absurd this (by decide)
  have h3 : window.flags &&& WINDOW_FLAG_REDRAW ≠ 0 :=
    (and_one_shiftLeft_ne_zero _ 0).mpr hR
  simp only [window_thread_step, h1, h2, h3, if_false, if_true, ne_eq, not_false_eq_true]

theorem window_thread_step_reinit (window : window_data_t) (hT : window.flags.testBit 1 = false)
    (hR : window.flags.testBit 0 = false) (hI : window.flags.testBit 2 = true) :
    window_thread_step window =
      (.running, { window with
        flags := window.flags &&& not32 WINDOW_BV_REINIT,
        calls := window.calls ++ [.make_current, .init_bv] }) := by
  have h1 : ¬ window.flags &&&
      (WINDOW_FLAG_REDRAW ||| WINDOW_FLAG_TERMINATE ||| WINDOW_BV_REINIT) = 0 := by
    rw [window_mask_zero_iff]; simp [hI]
  have h2 : ¬ window.flags &&& WINDOW_FLAG_TERMINATE ≠ 0 := by
    intro h
    have := (and_one_shiftLeft_ne_zero _ 1).mp h
    rw [hT] at this
    exact absurd this (by decide)
  have h3 : ¬ window.flags &&& WINDOW_FLAG_REDRAW ≠ 0 := by
    intro h
    have := (and_one_shiftLeft_ne_zero _ 0).mp h
    rw [hR] at this
    exact absurd this (by decide)
  simp only [window_thread_step, h1, h2, h3, if_false, if_true, ne_eq, not_false_eq_true]

theorem window_thread_step_wait (window : window_data_t) (hT : window.flags.testBit 1 = false)
    (hR : window.flags.testBit 0 = false) (hI : window.flags.testBit 2 = false) :
    window_thread_step window = (.waiting, window) := by
  have h1 : window.flags &&&
      (WINDOW_FLAG_REDRAW ||| WINDOW_FLAG_TERMINATE ||| WINDOW_BV_REINIT) = 0 := by
    rw [window_mask_zero_iff]; exact ⟨hR, hT, hI⟩
  simp only [window_thread_step, h1, if_true]

theorem window_schedule_redraw_of_clear (window : window_data_t)
    (h : window.flags.testBit 0 = false) :
    window_schedule_redraw window =
      { window with flags := window.flags ||| WINDOW_FLAG_REDRAW, signals := window.signals + 1 } := by
  have h1 : window.flags &&& WINDOW_FLAG_REDRAW = 0 := (and_one_shiftLeft_eq_zero _ 0).mpr h
  simp only [window_schedule_redraw, h1, if_true]

theorem window_schedule_redraw_of_set (window : window_data_t)
    (h : window.flags.testBit 0 = true) :
    window_schedule_redraw window = window := by
  have h1 : ¬ window.flags &&& WINDOW_FLAG_REDRAW = 0 := (and_one_shiftLeft_ne_zero _ 0).mpr h
  simp only [window_schedule_redraw, h1, if_false]

theorem window_schedule_redraw_iterate (window : window_data_t) (k : Nat) (hk : 1 ≤ k) :
    window_schedule_redraw^[k] window = window_schedule_redraw window := by
  have hset : (window_schedule_redraw window).flags.testBit 0 = true := by
    by_cases h : window.flags.testBit 0 = true
    · rw [window_schedule_redraw_of_set _ h]; exact h
    · rw [window_schedule_redraw_of_clear _ (by simpa using h)]
      show (window.flags ||| (1 <<< 0)).testBit 0 = true
      rw [testBit_set]; simp
  obtain ⟨n, rfl⟩ : ∃ n, k = n + 1 := ⟨k - 1, by omega⟩
  clear hk
  induction n with
  | zero => rfl
  | succ n ih =>
    rw [Function.iterate_succ_apply', ih]
    exact window_schedule_redraw_of_set _ hset

theorem window_thread_running (fuel : Nat) (window window' : window_data_t)
    (h : window_thread_step window = (.running, window')) :
    window_thread (fuel + 1) window = window_thread fuel window' := by
  simp only [window_thread, h]

theorem window_thread_waiting (fuel : Nat) (window window' : window_data_t)
    (h : window_thread_step window = (.waiting, window')) :
    window_thread (fuel + 1) window = some (.waiting, window') := by
  simp only [window_thread, h]

theorem window_thread_stopped (fuel : Nat) (window window' : window_data_t)
    (h : window_thread_step window = (.stopped, window')) :
    window_thread (fuel + 1) window = some (.stopped, window') := by
  simp only [window_thread, h]

/-! ## Claims -/

/-- C1: with end-of-stream clear, the four low bitmask bits clear and every
camera queue holding at least one buffer, all distinct, `sview_pop_buffers`
returns 1, writes for camera `i` the tail buffer of queue `i` with its texture,
texture handle and first plane, leaves exactly that buffer in queue `i`, and
has unreferenced, camera by camera and in queue order, every buffer that was
ahead of the tail. -/
theorem sview_pop_buffers_selects_tail (APP_FLAG_EOS : Nat) (mem : Memory) (app : app_data_t)
    (out : sview_out)
    (heos : app.flags &&& APP_FLAG_EOS = 0)
    (hbits : ∀ i, i < CAMERAS_NUMBER → app.frames.testBit i = false)
    (hq : ∀ i, i < CAMERAS_NUMBER → app.render i ≠ [] ∧ (app.render i).Nodup) :
    ∃ app' out', sview_pop_buffers APP_FLAG_EOS mem app out = .ok (1, app', out') ∧
      (∀ i, i < CAMERAS_NUMBER → ∃ older b, app.render i = older ++ [b] ∧
        out'.buf i = b ∧ out'.tex i = mem.priv b ∧ out'.t i = mem.tex (mem.priv b) ∧
        out'.planes i = mem.data0 (mem.priv b) ∧ app'.render i = [b]) ∧
      app'.refs = app.refs ++
        (List.range CAMERAS_NUMBER).flatMap (fun i => (app.render i).dropLast.map gst_call.unref) := by
  have hz := (low_bits_zero_iff app.frames CAMERAS_NUMBER).mpr hbits
  refine ⟨_, _, sview_pop_buffers_ready APP_FLAG_EOS mem app out heos hz (fun i hi => (hq i hi).1),
    ?_, ?_⟩
  · intro i hi
    have hne := (hq i hi).1
    have hnd := queue_nodup _ hne (hq i hi).2
    refine ⟨(app.render i).dropLast, queue_tail (app.render i), queue_split _ hne, ?_⟩
    simp [collect_result, hi, hnd.1]
  · simp only [collect_result, List.range_eq_range']
    congr 1
    apply flatMap_range_congr
    intro j _ h2
    rw [(queue_nodup _ (hq j (by omega)).1 (hq j (by omega)).2).2]

/-- Witness for C1 on a state with two buffers queued per camera. -/
theorem sview_pop_buffers_selects_tail_witness :
    (sample_backlog.flags &&& 1 = 0 ∧
      (∀ i, i < CAMERAS_NUMBER → sample_backlog.frames.testBit i = false) ∧
      (∀ i, i < CAMERAS_NUMBER → sample_backlog.render i ≠ [] ∧ (sample_backlog.render i).Nodup)) ∧
    ∃ app' out', sview_pop_buffers 1 sample_memory sample_backlog sample_out = .ok (1, app', out') ∧
      (∀ i, i < CAMERAS_NUMBER → ∃ older b, sample_backlog.render i = older ++ [b] ∧
        out'.buf i = b ∧ out'.tex i = sample_memory.priv b ∧
        out'.t i = sample_memory.tex (sample_memory.priv b) ∧
        out'.planes i = sample_memory.data0 (sample_memory.priv b) ∧ app'.render i = [b]) ∧
      app'.refs = sample_backlog.refs ++
        (List.range CAMERAS_NUMBER).flatMap
          (fun i => (sample_backlog.render i).dropLast.map gst_call.unref) :=
  have h1 : sample_backlog.flags &&& 1 = 0 := by decide
  have h2 : ∀ i, i < CAMERAS_NUMBER → sample_backlog.frames.testBit i = false := by
    intro i _; simp [sample_backlog]
  have h3 : ∀ i, i < CAMERAS_NUMBER →
      sample_backlog.render i ≠ [] ∧ (sample_backlog.render i).Nodup := by
    intro i _; simp [sample_backlog]
  ⟨⟨h1, h2, h3⟩, sview_pop_buffers_selects_tail 1 sample_memory sample_backlog sample_out h1 h2 h3⟩

/-- C2, as the code has it: start from a track start (`frames` set to all four
bits, queues empty) and make any sequence of `sview_input_process`,
`sview_pop_buffers`, `sview_release_buffers`, `sview_purge_buffers` calls and
settings or clearings of the end-of-stream flag, all of which return. Then
every camera whose queue is non-empty has its bit clear. If moreover the
end-of-stream flag is clear at the start and the sequence neither calls
`sview_purge_buffers` nor sets the flag, bit `i` is clear exactly when queue
`i` is non-empty. -/
theorem frames_invariant_reachable (APP_FLAG_EOS : Nat) (mem : Memory) (calls : List sview_call)
    (app0 app : app_data_t) (out0 out : sview_out)
    (h0 : ∀ i, i < CAMERAS_NUMBER → app0.render i = [])
    (hrun : run_calls APP_FLAG_EOS mem calls (__app_sview_track app0, out0) = .ok (app, out)) :
    (∀ i, i < CAMERAS_NUMBER → app.render i ≠ [] → app.frames.testBit i = false) ∧
    (app0.flags &&& APP_FLAG_EOS = 0 → (∀ c, c ∈ calls → c.stops = false) →
      ∀ i, i < CAMERAS_NUMBER → (app.frames.testBit i = false ↔ app.render i ≠ [])) := by
  constructor
  · refine run_calls_keeps_clear APP_FLAG_EOS mem calls _ (app, out) hrun ?_
    intro i hi hne
    exact absurd (h0 i hi) hne
  · intro heos hs
    refine run_calls_keeps_invariant APP_FLAG_EOS mem calls _ (app, out) hrun hs heos ?_
    intro i hi
    have h15 : (__app_sview_track app0).frames.testBit i = true := by
      have : i < 4 := hi
      simp only [__app_sview_track, CAMERAS_NUMBER]
      interval_cases i <;> decide
    show (__app_sview_track app0).frames.testBit i = false ↔ app0.render i ≠ []
    rw [h15, h0 i hi]
    simp

/-- Witness for C2: every camera pushes one buffer, then one pop and one
release. -/
theorem frames_invariant_reachable_witness :
    ∃ app out,
      ((∀ i, i < CAMERAS_NUMBER → sample_idle.render i = []) ∧
        run_calls 1 sample_memory
          [.input_process 0 1, .input_process 1 2, .input_process 2 3, .input_process 3 4,
            .pop_buffers, .release_buffers (fun i => i + 1)]
          (__app_sview_track sample_idle, sample_out) = .ok (app, out)) ∧
      (sample_idle.flags &&& 1 = 0 ∧
        ∀ c, c ∈ [sview_call.input_process 0 1, .input_process 1 2, .input_process 2 3,
            .input_process 3 4, .pop_buffers, .release_buffers (fun i => i + 1)] →
          c.stops = false) ∧
      (∀ i, i < CAMERAS_NUMBER → app.render i ≠ [] → app.frames.testBit i = false) ∧
      (∀ i, i < CAMERAS_NUMBER → (app.frames.testBit i = false ↔ app.render i ≠ [])) :=
  have h0 : ∀ i, i < CAMERAS_NUMBER → sample_idle.render i = [] := fun _ _ => rfl
  have hs : ∀ c, c ∈ [sview_call.input_process 0 1, .input_process 1 2, .input_process 2 3,
      .input_process 3 4, .pop_buffers, .release_buffers (fun i => i + 1)] →
      c.stops = false := by
    intro c hc
    simp only [List.mem_cons, List.mem_singleton, List.not_mem_nil, or_false] at hc
    rcases hc with rfl | rfl | rfl | rfl | rfl | rfl <;> rfl
  have hrun : ∃ app out, run_calls 1 sample_memory
      [.input_process 0 1, .input_process 1 2, .input_process 2 3, .input_process 3 4,
        .pop_buffers, .release_buffers (fun i => i + 1)]
      (__app_sview_track sample_idle, sample_out) = .ok (app, out) := ⟨_, _, rfl⟩
  match hrun with
  | ⟨app, out, h⟩ =>
    ⟨app, out, ⟨h0, h⟩, ⟨by decide, hs⟩,
      (frames_invariant_reachable 1 sample_memory _ sample_idle app sample_out out h0 h).1,
      (frames_invariant_reachable 1 sample_memory _ sample_idle app sample_out out h0 h).2
        (by decide) hs⟩

/-- C2 as stated fails: from a track start, camera 0 pushes buffer 7 and then
either `sview_purge_buffers` is called, or the end-of-stream flag is set and
`sview_pop_buffers` is called; all calls return, and in the state reached
queue 0 is empty while bit 0 of the bitmask is clear. -/
theorem frames_invariant_purge_counterexample :
    (∀ i, i < CAMERAS_NUMBER → sample_idle.render i = []) ∧
    (∃ app out,
      run_calls 1 sample_memory [.input_process 0 7, .purge_buffers]
        (__app_sview_track sample_idle, sample_out) = .ok (app, out) ∧
      app.render 0 = [] ∧ app.frames.testBit 0 = false) ∧
    (∃ app out,
      run_calls 1 sample_memory [.input_process 0 7, .set_eos, .pop_buffers]
        (__app_sview_track sample_idle, sample_out) = .ok (app, out) ∧
      app.render 0 = [] ∧ app.frames.testBit 0 = false) :=
  ⟨fun _ _ => rfl, ⟨_, _, rfl, rfl, rfl⟩, ⟨_, _, rfl, rfl, rfl⟩⟩

/-- C3: with the end-of-stream flag set, whatever the bitmask and the queues
hold, `sview_pop_buffers` returns 0 and leaves all four camera queues empty,
having unreferenced every queued buffer once, camera by camera in queue
order; the output arguments are not written. -/
theorem sview_pop_buffers_eos_purges (APP_FLAG_EOS : Nat) (mem : Memory) (app : app_data_t)
    (out : sview_out) (heos : app.flags &&& APP_FLAG_EOS ≠ 0) :
    ∃ app', sview_pop_buffers APP_FLAG_EOS mem app out = .ok (0, app', out) ∧
      (∀ i, i < CAMERAS_NUMBER → app'.render i = []) ∧
      app'.refs = app.refs ++
        (List.range CAMERAS_NUMBER).flatMap (fun i => (app.render i).map gst_call.unref) := by
  refine ⟨purge_loop CAMERAS_NUMBER 0 app, ?_, ?_, ?_⟩
  · simp [sview_pop_buffers, heos]
  · intro i hi
    simp [purge_loop_eq, purge_result, hi]
  · simp [purge_loop_eq, purge_result, List.range_eq_range']

/-- Witness for C3: a backlog of two buffers per camera, end-of-stream set. -/
theorem sview_pop_buffers_eos_purges_witness :
    ({ sample_backlog with flags := 1 } : app_data_t).flags &&& 1 ≠ 0 ∧
    ∃ app', sview_pop_buffers 1 sample_memory { sample_backlog with flags := 1 } sample_out =
        .ok (0, app', sample_out) ∧
      (∀ i, i < CAMERAS_NUMBER → app'.render i = []) ∧
      app'.refs = ({ sample_backlog with flags := 1 } : app_data_t).refs ++
        (List.range CAMERAS_NUMBER).flatMap
          (fun i => (({ sample_backlog with flags := 1 } : app_data_t).render i).map gst_call.unref) :=
  ⟨by decide,
    sview_pop_buffers_eos_purges 1 sample_memory { sample_backlog with flags := 1 } sample_out
      (by decide)⟩

/-- C4: in a state that satisfies the bitmask/queue invariant,
`sview_pop_buffers` returns (it does not abort), its result is 0 or 1, it is
1 exactly when the end-of-stream flag is clear and the four low bitmask bits
are all zero, and when it is 0 with end-of-stream clear the queues and the
bitmask are as before. -/
theorem sview_pop_buffers_ready_iff (APP_FLAG_EOS : Nat) (mem : Memory) (app : app_data_t)
    (out : sview_out) (hinv : frames_invariant app) :
    ∃ ready app' out', sview_pop_buffers APP_FLAG_EOS mem app out = .ok (ready, app', out') ∧
      (ready = 0 ∨ ready = 1) ∧
      (ready = 1 ↔
        (app.flags &&& APP_FLAG_EOS = 0 ∧ ∀ i, i < CAMERAS_NUMBER → app.frames.testBit i = false)) ∧
      (ready = 0 → app.flags &&& APP_FLAG_EOS = 0 →
        app'.render = app.render ∧ app'.frames = app.frames) := by
  by_cases heos : app.flags &&& APP_FLAG_EOS = 0
  · by_cases hz : app.frames &&& ((1 <<< CAMERAS_NUMBER) - 1) = 0
    · have hbits := (low_bits_zero_iff app.frames CAMERAS_NUMBER).mp hz
      have hq : ∀ i, i < CAMERAS_NUMBER → app.render i ≠ [] :=
        fun i hi => (hinv i hi).mp (hbits i hi)
      refine ⟨1, _, _, sview_pop_buffers_ready APP_FLAG_EOS mem app out heos hz hq, Or.inr rfl,
        ?_, ?_⟩
      · exact ⟨fun _ => ⟨heos, hbits⟩, fun _ => rfl⟩
      · intro h; exact absurd h (by decide)
    · refine ⟨0, app, out, ?_, Or.inl rfl, ?_, ?_⟩
      · simp [sview_pop_buffers, heos, hz]
      · constructor
        · intro h; exact absurd h (by decide)
        · intro h; exact absurd ((low_bits_zero_iff app.frames CAMERAS_NUMBER).mpr h.2) hz
      · intro _ _; exact ⟨rfl, rfl⟩
  · refine ⟨0, purge_loop CAMERAS_NUMBER 0 app, out, ?_, Or.inl rfl, ?_, ?_⟩
    · simp [sview_pop_buffers, heos]
    · constructor
      · intro h; exact absurd h (by decide)
      · intro h; exact absurd h.1 heos
    · intro _ h; exact absurd h heos

/-- Witness for C4: the backlog state satisfies the invariant. -/
theorem sview_pop_buffers_ready_iff_witness :
    frames_invariant sample_backlog ∧
    ∃ ready app' out',
      sview_pop_buffers 1 sample_memory sample_backlog sample_out = .ok (ready, app', out') ∧
      (ready = 0 ∨ ready = 1) ∧
      (ready = 1 ↔ (sample_backlog.flags &&& 1 = 0 ∧
        ∀ i, i < CAMERAS_NUMBER → sample_backlog.frames.testBit i = false)) ∧
      (ready = 0 → sample_backlog.flags &&& 1 = 0 →
        app'.render = sample_backlog.render ∧ app'.frames = sample_backlog.frames) :=
  have h : frames_invariant sample_backlog := by
    intro i _; simp [sample_backlog]
  ⟨h, sview_pop_buffers_ready_iff 1 sample_memory sample_backlog sample_out h⟩

/-- C5: for a camera index `i < 4`, `sview_input_process(i, buffer)` returns 0
in every state; when the end-of-stream flag is clear it appends `buffer` at
the tail of queue `i`, clears bit `i` of the bitmask, makes one
`gst_buffer_ref(buffer)` call and no other reference-count call, and leaves
every other queue and every other bit of the 32-bit bitmask as it was. -/
theorem sview_input_process_pushes (APP_FLAG_EOS : Nat) (app : app_data_t) (i : Nat)
    (buffer : GstBuffer) (hi : i < CAMERAS_NUMBER) :
    ∃ app', sview_input_process APP_FLAG_EOS app (i : Int) buffer = .ok (0, app') ∧
      (app.flags &&& APP_FLAG_EOS = 0 →
        app'.render i = app.render i ++ [buffer] ∧
        app'.frames.testBit i = false ∧
        app'.refs = app.refs ++ [.ref buffer] ∧
        (∀ j, j ≠ i → app'.render j = app.render j) ∧
        (∀ j, j ≠ i → j < 32 → app'.frames.testBit j = app.frames.testBit j)) := by
  have hi32 : i < 32 := camera_lt_32 i hi
  by_cases heos : app.flags &&& APP_FLAG_EOS = 0
  · obtain ⟨w, hw'⟩ := sview_input_process_live APP_FLAG_EOS app i buffer hi heos
    refine ⟨_, hw', fun _ => ⟨by simp, ?_, rfl, ?_, ?_⟩⟩
    · simp [testBit_clear _ _ _ hi32]
    · intro j hj
      simp [Function.update_apply, hj]
    · intro j hj h32
      simp [testBit_clear _ _ _ hi32, h32, hj]
  · exact ⟨app, sview_input_process_eos APP_FLAG_EOS app i buffer hi heos,
      fun h => absurd h heos⟩

/-- Witness for C5: camera 2 pushes buffer 77 onto the backlog state. -/
theorem sview_input_process_pushes_witness :
    (2 < CAMERAS_NUMBER ∧ sample_backlog.flags &&& 1 = 0) ∧
    ∃ app', sview_input_process 1 sample_backlog ((2 : Nat) : Int) 77 = .ok (0, app') ∧
      app'.render 2 = sample_backlog.render 2 ++ [77] ∧
      app'.frames.testBit 2 = false ∧
      app'.refs = sample_backlog.refs ++ [.ref 77] ∧
      (∀ j, j ≠ 2 → app'.render j = sample_backlog.render j) ∧
      (∀ j, j ≠ 2 → j < 32 → app'.frames.testBit j = sample_backlog.frames.testBit j) :=
  match sview_input_process_pushes 1 sample_backlog 2 77 (by decide) with
  | ⟨app', h1, h2⟩ => ⟨⟨by decide, by decide⟩, app', h1, h2 (by decide)⟩

/-- C7, as the code has it: whenever `sview_pop_buffers` returns non-zero, the
buffer it writes for camera `i` is the tail of queue `i`, and `*ts` is the sum
of the four selected decode timestamps, accumulated in 64 bits and read as
`s64`, divided by 4 with C's truncation; so when the sum is below `2 ^ 63`
the timestamp is the mean rounded down, `4 ts ≤ sum < 4 ts + 4`. -/
theorem sview_pop_buffers_timestamp (APP_FLAG_EOS : Nat) (mem : Memory) (app app' : app_data_t)
    (out out' : sview_out) (ready : Int)
    (h : sview_pop_buffers APP_FLAG_EOS mem app out = .ok (ready, app', out')) (hr : ready ≠ 0) :
    (∀ i, i < CAMERAS_NUMBER → (app.render i).getLast? = some (out'.buf i)) ∧
    out'.ts = Int.tdiv
      (to_s64 ((List.range CAMERAS_NUMBER).map (fun i => (mem.dts (out'.buf i) : Int))).sum)
      CAMERAS_NUMBER ∧
    (((List.range CAMERAS_NUMBER).map (fun i => (mem.dts (out'.buf i) : Int))).sum < 2 ^ 63 →
      4 * out'.ts ≤ ((List.range CAMERAS_NUMBER).map (fun i => (mem.dts (out'.buf i) : Int))).sum ∧
      ((List.range CAMERAS_NUMBER).map (fun i => (mem.dts (out'.buf i) : Int))).sum
        < 4 * out'.ts + 4) := by
  obtain ⟨heos, hz, hq⟩ := sview_pop_buffers_ready_inv APP_FLAG_EOS mem app app' out out' ready h hr
  rw [sview_pop_buffers_ready APP_FLAG_EOS mem app out heos hz hq] at h
  simp only [Except.ok.injEq, Prod.mk.injEq] at h
  obtain ⟨_, _, hout⟩ := h
  have hbuf : ∀ i, i < CAMERAS_NUMBER → out'.buf i = queue_tail (app.render i) := by
    intro i hi
    rw [← hout]
    simp [collect_result, hi]
  have hsum : ((List.range CAMERAS_NUMBER).map (fun i => (mem.dts (out'.buf i) : Int))) =
      ((List.range' 0 CAMERAS_NUMBER).map (fun i => (mem.dts (queue_tail (app.render i)) : Int))) := by
    rw [List.range_eq_range']
    apply map_range_congr
    intro j _ hj
    rw [hbuf j (by omega)]
  have hacc : (collect_result mem CAMERAS_NUMBER 0 (app, out, 0)).2.2 =
      to_s64 ((List.range CAMERAS_NUMBER).map (fun i => (mem.dts (out'.buf i) : Int))).sum := by
    rw [hsum]
    simp only [collect_result, Int.zero_add]
  have hts : out'.ts = Int.tdiv
      (to_s64 ((List.range CAMERAS_NUMBER).map (fun i => (mem.dts (out'.buf i) : Int))).sum)
      CAMERAS_NUMBER := by
    rw [← hacc, ← hout]
  refine ⟨?_, hts, ?_⟩
  · intro i hi
    rw [hbuf i hi]
    exact getLast?_eq_queue_tail _ (hq i hi)
  · intro hlt
    have hnn : (0 : Int) ≤ ((List.range CAMERAS_NUMBER).map (fun i =>
        (mem.dts (out'.buf i) : Int))).sum := by
      apply List.sum_nonneg
      intro x hx
      simp only [List.mem_map] at hx
      obtain ⟨i, _, rfl⟩ := hx
      exact Int.ofNat_nonneg _
    have h4 : ((CAMERAS_NUMBER : Nat) : Int) = 4 := rfl
    rw [hts, to_s64_of_range _ (le_trans (by decide) hnn) hlt,
      Int.tdiv_eq_ediv hnn (Int.ofNat_nonneg _), h4]
    omega

/-- Witness for C7: one buffer per camera, timestamps 1, 2, 3, 4. -/
theorem sview_pop_buffers_timestamp_witness :
    ∃ app' out',
      (sview_pop_buffers 1 sample_memory sample_single sample_out = .ok (1, app', out') ∧
        (1 : Int) ≠ 0) ∧
      (∀ i, i < CAMERAS_NUMBER → (sample_single.render i).getLast? = some (out'.buf i)) ∧
      out'.ts = Int.tdiv
        (to_s64 ((List.range CAMERAS_NUMBER).map (fun i => (sample_memory.dts (out'.buf i) : Int))).sum)
        CAMERAS_NUMBER ∧
      (((List.range CAMERAS_NUMBER).map (fun i => (sample_memory.dts (out'.buf i) : Int))).sum
          < 2 ^ 63 →
        4 * out'.ts ≤
          ((List.range CAMERAS_NUMBER).map (fun i => (sample_memory.dts (out'.buf i) : Int))).sum ∧
        ((List.range CAMERAS_NUMBER).map (fun i => (sample_memory.dts (out'.buf i) : Int))).sum
          < 4 * out'.ts + 4) :=
  have h := sview_pop_buffers_ready 1 sample_memory sample_single sample_out (by decide) (by decide)
    (by intro i _; simp [sample_single])
  ⟨_, _, ⟨h, by decide⟩,
    sview_pop_buffers_timestamp 1 sample_memory sample_single _ sample_out _ 1 h (by decide)⟩

/-- C7 as stated fails: with one buffer per camera and decode timestamps
1, 2, 3, 4 `sview_pop_buffers` returns 1 and writes the timestamp 2, while the
arithmetic mean of the four timestamps is 5/2. -/
theorem sview_pop_buffers_mean_counterexample :
    ∃ app' out', sview_pop_buffers 1 sample_memory sample_single sample_out = .ok (1, app', out') ∧
      (List.range CAMERAS_NUMBER).map (fun i => sample_memory.dts (out'.buf i)) = [1, 2, 3, 4] ∧
      out'.ts = 2 ∧
      (out'.ts : ℚ) ≠
        ((List.range CAMERAS_NUMBER).map (fun i => (sample_memory.dts (out'.buf i) : ℚ))).sum / 4 := by
  have h : Int.tdiv 10 4 = 2 := by decide
  refine ⟨_, _, rfl, rfl, rfl, ?_⟩
  norm_num [CAMERAS_NUMBER, List.range, List.range.loop, sample_memory, collect_loop,
    sample_single, sample_out, Function.update_apply, drop_previous, to_s64, h]

/-- C8, as the code has it: for a window whose `REDRAW` and `TERMINATE` flags
are clear and every `k ≥ 1`, `k` consecutive `window_schedule_redraw` calls
leave the window exactly as a single call does, with one more
`pthread_cond_signal` than before, and the render thread, run from there
until it blocks, invokes the redraw hook exactly once (after it the reinit
hook once if `REINIT` was pending) and ends waiting with `REDRAW` clear. -/
theorem window_schedule_redraw_coalesces (window : window_data_t) (k : Nat) (hk : 1 ≤ k)
    (hR : window.flags &&& WINDOW_FLAG_REDRAW = 0)
    (hT : window.flags &&& WINDOW_FLAG_TERMINATE = 0) :
    window_schedule_redraw^[k] window = window_schedule_redraw window ∧
    (window_schedule_redraw^[k] window).signals = window.signals + 1 ∧
    ∀ fuel, 3 ≤ fuel → ∃ window',
      window_thread fuel (window_schedule_redraw^[k] window) = some (.waiting, window') ∧
      window'.calls = window.calls ++ [.make_current, .redraw] ++
        (if window.flags &&& WINDOW_BV_REINIT = 0 then [] else [.make_current, .init_bv]) ∧
      window'.calls.count .redraw = window.calls.count .redraw + 1 ∧
      window'.flags &&& WINDOW_FLAG_REDRAW = 0 := by
  have b0 : window.flags.testBit 0 = false := (and_one_shiftLeft_eq_zero _ 0).mp hR
  have b1 : window.flags.testBit 1 = false := (and_one_shiftLeft_eq_zero _ 1).mp hT
  have hs := window_schedule_redraw_of_clear window b0
  rw [window_schedule_redraw_iterate window k hk, hs]
  refine ⟨rfl, rfl, ?_⟩
  intro fuel hfuel
  obtain ⟨f, rfl⟩ : ∃ f, fuel = f + 3 := ⟨fuel - 3, by omega⟩
  -- the window after the calls, and after the redraw pass
  have c0 : (window.flags ||| WINDOW_FLAG_REDRAW).testBit 0 = true := by
    show (window.flags ||| (1 <<< 0)).testBit 0 = true
    rw [testBit_set]; simp
  have c1 : (window.flags ||| WINDOW_FLAG_REDRAW).testBit 1 = false := by
    show (window.flags ||| (1 <<< 0)).testBit 1 = false
    rw [testBit_set, b1]; simp
  have d : ∀ j, ((window.flags ||| WINDOW_FLAG_REDRAW) &&& not32 WINDOW_FLAG_REDRAW).testBit j =
      (window.flags.testBit j && decide (j < 32) && decide (j ≠ 0)) := by
    intro j
    show ((window.flags ||| (1 <<< 0)) &&& not32 (1 <<< 0)).testBit j = _
    rw [testBit_clear _ _ _ (by decide), testBit_set]
    by_cases hj : j = 0 <;> simp [hj]
  have step1 : window_thread_step
      { flags := window.flags ||| WINDOW_FLAG_REDRAW, signals := window.signals + 1,
        calls := window.calls } =
      (.running,
        { flags := (window.flags ||| WINDOW_FLAG_REDRAW) &&& not32 WINDOW_FLAG_REDRAW,
          signals := window.signals + 1,
          calls := window.calls ++ [.make_current, .redraw] }) :=
    window_thread_step_redraw _ c1 c0
  have hclr : ((window.flags ||| WINDOW_FLAG_REDRAW) &&& not32 WINDOW_FLAG_REDRAW) &&&
      WINDOW_FLAG_REDRAW = 0 := by
    show _ &&& (1 <<< 0) = 0
    rw [and_one_shiftLeft_eq_zero, d]
    simp
  by_cases hI : window.flags &&& WINDOW_BV_REINIT = 0
  · have b2 : window.flags.testBit 2 = false := (and_one_shiftLeft_eq_zero _ 2).mp hI
    have step2 : window_thread_step
        { flags := (window.flags ||| WINDOW_FLAG_REDRAW) &&& not32 WINDOW_FLAG_REDRAW,
          signals := window.signals + 1,
          calls := window.calls ++ [.make_current, .redraw] } = (.waiting, _) :=
      window_thread_step_wait _ (by rw [d, b1]; rfl) (by rw [d]; simp) (by rw [d, b2]; rfl)
    refine ⟨{ flags := (window.flags ||| WINDOW_FLAG_REDRAW) &&& not32 WINDOW_FLAG_REDRAW,
              signals := window.signals + 1,
              calls := window.calls ++ [.make_current, .redraw] }, ?_, ?_, ?_, hclr⟩
    · rw [window_thread_running _ _ _ step1, window_thread_waiting _ _ _ step2]
    · simp [hI]
    · simp
  · have b2 : window.flags.testBit 2 = true := (and_one_shiftLeft_ne_zero _ 2).mp hI
    have step2 : window_thread_step
        { flags := (window.flags ||| WINDOW_FLAG_REDRAW) &&& not32 WINDOW_FLAG_REDRAW,
          signals := window.signals + 1,
          calls := window.calls ++ [.make_current, .redraw] } =
        (.running,
          { flags := ((window.flags ||| WINDOW_FLAG_REDRAW) &&& not32 WINDOW_FLAG_REDRAW) &&&
              not32 WINDOW_BV_REINIT,
            signals := window.signals + 1,
            calls := window.calls ++ [.make_current, .redraw] ++ [.make_current, .init_bv] }) :=
      window_thread_step_reinit _ (by rw [d, b1]; rfl) (by rw [d]; simp) (by rw [d, b2]; rfl)
    have e : ∀ j, (((window.flags ||| WINDOW_FLAG_REDRAW) &&& not32 WINDOW_FLAG_REDRAW) &&&
        not32 WINDOW_BV_REINIT).testBit j =
        (window.flags.testBit j && decide (j < 32) && decide (j ≠ 0) && decide (j ≠ 2)) := by
      intro j
      show (((window.flags ||| WINDOW_FLAG_REDRAW) &&& not32 WINDOW_FLAG_REDRAW) &&&
        not32 (1 <<< 2)).testBit j = _
      rw [testBit_clear _ _ _ (by decide), d]
      by_cases hj : j < 32 <;> simp [hj]
    have step3 : window_thread_step
        { flags := ((window.flags ||| WINDOW_FLAG_REDRAW) &&& not32 WINDOW_FLAG_REDRAW) &&&
            not32 WINDOW_BV_REINIT,
          signals := window.signals + 1,
          calls := window.calls ++ [.make_current, .redraw] ++ [.make_current, .init_bv] } =
        (.waiting, _) :=
      window_thread_step_wait _ (by rw [e, b1]; rfl) (by rw [e]; simp) (by rw [e]; simp)
    refine ⟨{ flags := ((window.flags ||| WINDOW_FLAG_REDRAW) &&& not32 WINDOW_FLAG_REDRAW) &&&
                not32 WINDOW_BV_REINIT,
              signals := window.signals + 1,
              calls := window.calls ++ [.make_current, .redraw] ++ [.make_current, .init_bv] },
      ?_, ?_, ?_, ?_⟩
    · rw [window_thread_running _ _ _ step1, window_thread_running _ _ _ step2,
        window_thread_waiting _ _ _ step3]
    · simp [hI]
    · simp
    · show _ &&& (1 <<< 0) = 0
      rw [and_one_shiftLeft_eq_zero, e]
      simp

/-- Witness for C8: three calls on a window with no flag set. -/
theorem window_schedule_redraw_coalesces_witness :
    (1 ≤ 3 ∧ sample_window.flags &&& WINDOW_FLAG_REDRAW = 0 ∧
      sample_window.flags &&& WINDOW_FLAG_TERMINATE = 0) ∧
    (window_schedule_redraw^[3] sample_window = window_schedule_redraw sample_window ∧
    (window_schedule_redraw^[3] sample_window).signals = sample_window.signals + 1 ∧
    ∀ fuel, 3 ≤ fuel → ∃ window',
      window_thread fuel (window_schedule_redraw^[3] sample_window) = some (.waiting, window') ∧
      window'.calls = sample_window.calls ++ [.make_current, .redraw] ++
        (if sample_window.flags &&& WINDOW_BV_REINIT = 0 then [] else [.make_current, .init_bv]) ∧
      window'.calls.count .redraw = sample_window.calls.count .redraw + 1 ∧
      window'.flags &&& WINDOW_FLAG_REDRAW = 0) :=
  ⟨⟨by decide, by decide, by decide⟩,
    window_schedule_redraw_coalesces sample_window 3 (by decide) (by decide) (by decide)⟩

/-- C8 as stated fails: on a window whose `REDRAW` flag is clear and whose
`TERMINATE` flag is set, one `window_schedule_redraw` call sets `REDRAW` and
signals, and the render thread, when it runs, stops without having invoked the
redraw hook. -/
theorem window_schedule_redraw_terminate_counterexample :
    sample_terminating.flags &&& WINDOW_FLAG_REDRAW = 0 ∧
    ∀ fuel, window_thread (fuel + 1) (window_schedule_redraw^[1] sample_terminating) =
      some (.stopped, { flags := 3, signals := 1, calls := [.release_context] }) :=
  ⟨by decide, fun fuel => window_thread_stopped fuel _ _ (by decide)⟩

/-- C9: when `TERMINATE` is set, whatever the other flags, the next pass of
`window_thread` leaves the loop: the thread stops, the only call it makes is
the release of its context (neither hook is invoked) and the flags stay as
they are; and `TERMINATE` is still set after each of `window_schedule_redraw`,
`window_reinit_bv`, `window_destroy` and a pass of `window_thread`, the only
code that writes the flags of a created window. -/
theorem window_thread_terminate_first (window : window_data_t)
    (h : window.flags &&& WINDOW_FLAG_TERMINATE ≠ 0) :
    window_thread_step window =
      (.stopped, { window with calls := window.calls ++ [.release_context] }) ∧
    (∀ fuel, window_thread (fuel + 1) window =
      some (.stopped, { window with calls := window.calls ++ [.release_context] })) ∧
    (window_schedule_redraw window).flags &&& WINDOW_FLAG_TERMINATE ≠ 0 ∧
    (window_reinit_bv window).flags &&& WINDOW_FLAG_TERMINATE ≠ 0 ∧
    (window_destroy window).flags &&& WINDOW_FLAG_TERMINATE ≠ 0 ∧
    (window_thread_step window).2.flags &&& WINDOW_FLAG_TERMINATE ≠ 0 := by
  have b1 : window.flags.testBit 1 = true := (and_one_shiftLeft_ne_zero _ 1).mp h
  have hstep := window_thread_step_stop window b1
  have hor : ∀ k, (window.flags ||| (1 <<< k)) &&& (1 <<< 1) ≠ 0 := by
    intro k
    rw [and_one_shiftLeft_ne_zero, testBit_set, b1]
    rfl
  refine ⟨hstep, fun fuel => window_thread_stopped fuel _ _ hstep, ?_, ?_, hor 1, ?_⟩
  · unfold window_schedule_redraw
    split
    · exact hor 0
    · exact h
  · unfold window_reinit_bv
    split
    · exact hor 2
    · exact h
  · rw [hstep]
    exact h

/-- Witness for C9: `TERMINATE`, `REDRAW` and `REINIT` all set. -/
theorem window_thread_terminate_first_witness :
    ({ flags := 7, signals := 0, calls := [] } : window_data_t).flags &&&
      WINDOW_FLAG_TERMINATE ≠ 0 ∧
    window_thread_step { flags := 7, signals := 0, calls := [] } =
      (.stopped, { flags := 7, signals := 0, calls := [.release_context] }) :=
  ⟨by decide,
    (window_thread_terminate_first { flags := 7, signals := 0, calls := [] } (by decide)).1⟩

/-- C10: when `TERMINATE` is clear, one pass of `window_thread` does the
following. If `REDRAW` is set it binds the window context and invokes the
redraw hook once, and afterwards bit 0 is clear and every other bit of the
32-bit flags word, a pending `REINIT` included, is as before. If `REDRAW` is
clear and `REINIT` is set it binds the context and invokes the reinit hook
once, not the redraw hook, and afterwards bit 2 is clear and every other bit
is as before. If neither is set the thread waits and the window is as before. -/
theorem window_thread_step_clears_one (window : window_data_t)
    (hT : window.flags &&& WINDOW_FLAG_TERMINATE = 0) :
    (window.flags &&& WINDOW_FLAG_REDRAW ≠ 0 →
      (window_thread_step window).1 = .running ∧
      (window_thread_step window).2.calls = window.calls ++ [.make_current, .redraw] ∧
      (window_thread_step window).2.signals = window.signals ∧
      (window_thread_step window).2.flags.testBit 0 = false ∧
      ∀ j, j ≠ 0 → j < 32 →
        (window_thread_step window).2.flags.testBit j = window.flags.testBit j) ∧
    (window.flags &&& WINDOW_FLAG_REDRAW = 0 → window.flags &&& WINDOW_BV_REINIT ≠ 0 →
      (window_thread_step window).1 = .running ∧
      (window_thread_step window).2.calls = window.calls ++ [.make_current, .init_bv] ∧
      (window_thread_step window).2.signals = window.signals ∧
      (window_thread_step window).2.flags.testBit 2 = false ∧
      ∀ j, j ≠ 2 → j < 32 →
        (window_thread_step window).2.flags.testBit j = window.flags.testBit j) ∧
    (window.flags &&& WINDOW_FLAG_REDRAW = 0 → window.flags &&& WINDOW_BV_REINIT = 0 →
      window_thread_step window = (.waiting, window)) := by
  have b1 : window.flags.testBit 1 = false := (and_one_shiftLeft_eq_zero _ 1).mp hT
  have hclear : ∀ k, k < 32 →
      (window.flags &&& not32 (1 <<< k)).testBit k = false ∧
      ∀ j, j ≠ k → j < 32 →
        (window.flags &&& not32 (1 <<< k)).testBit j = window.flags.testBit j := by
    intro k hk
    refine ⟨by simp [testBit_clear _ _ _ hk], fun j hj h32 => ?_⟩
    simp [testBit_clear _ _ _ hk, hj, h32]
  refine ⟨?_, ?_, ?_⟩
  · intro hR
    have b0 : window.flags.testBit 0 = true := (and_one_shiftLeft_ne_zero _ 0).mp hR
    rw [window_thread_step_redraw window b1 b0]
    exact ⟨rfl, rfl, rfl, (hclear 0 (by decide)).1, (hclear 0 (by decide)).2⟩
  · intro hR hI
    have b0 : window.flags.testBit 0 = false := (and_one_shiftLeft_eq_zero _ 0).mp hR
    have b2 : window.flags.testBit 2 = true := (and_one_shiftLeft_ne_zero _ 2).mp hI
    rw [window_thread_step_reinit window b1 b0 b2]
    exact ⟨rfl, rfl, rfl, (hclear 2 (by decide)).1, (hclear 2 (by decide)).2⟩
  · intro hR hI
    exact window_thread_step_wait window b1 ((and_one_shiftLeft_eq_zero _ 0).mp hR)
      ((and_one_shiftLeft_eq_zero _ 2).mp hI)

/-- Witness for C10: `REDRAW` and `REINIT` both pending; the pass services
`REDRAW` and leaves `REINIT` set. -/
theorem window_thread_step_clears_one_witness :
    (sample_pending.flags &&& WINDOW_FLAG_TERMINATE = 0 ∧
      sample_pending.flags &&& WINDOW_FLAG_REDRAW ≠ 0) ∧
    ((window_thread_step sample_pending).1 = .running ∧
      (window_thread_step sample_pending).2.calls =
        sample_pending.calls ++ [.make_current, .redraw] ∧
      (window_thread_step sample_pending).2.signals = sample_pending.signals ∧
      (window_thread_step sample_pending).2.flags.testBit 0 = false ∧
      ∀ j, j ≠ 0 → j < 32 →
        (window_thread_step sample_pending).2.flags.testBit j = sample_pending.flags.testBit j) :=
  ⟨⟨by decide, by decide⟩,
    (window_thread_step_clears_one sample_pending (by decide)).1 (by decide)⟩

/-! ## Lemmas on scene rendering -/

theorem to_s32_sub_sub (w x : Int) (hx : -(2 ^ 31) ≤ x ∧ x < 2 ^ 31) :
    to_s32 (w - to_s32 (w - x)) = x := by
  unfold to_s32; omega

theorem collect_loop_abort (mem : Memory) (n i : Nat) (st : app_data_t × sview_out × Int)
    (h : ∃ j, i ≤ j ∧ j < i + n ∧ st.1.render j = []) :
    collect_loop mem n i st = .error .abort := by
  induction n generalizing i st with
  | zero => obtain ⟨j, h1, h2, _⟩ := h; omega
  | succ n ih =>
    obtain ⟨app, out, acc⟩ := st
    obtain ⟨j, h1, h2, h3⟩ := h
    rw [collect_loop]
    by_cases hi : app.render i = []
    · simp [hi]
    · simp only [getLast?_eq_queue_tail _ hi, drop_previous_eq _ _ _ (queue_tail_mem _ hi)]
      apply ih
      have hj : j ≠ i := fun e => hi (e ▸ h3)
      exact ⟨j, by omega, by omega, by simpa [Function.update_apply, hj] using h3⟩

theorem release_loop_abort (buffers : Nat → GstBuffer) (n i : Nat) (app : app_data_t)
    (h : ∃ j, i ≤ j ∧ j < i + n ∧ (app.render j).head? ≠ some (buffers j)) :
    release_loop buffers n i app = .error .abort := by
  induction n generalizing i app with
  | zero => obtain ⟨j, h1, h2, _⟩ := h; omega
  | succ n ih =>
    obtain ⟨j, h1, h2, h3⟩ := h
    rw [release_loop]
    cases hq : app.render i with
    | nil => rfl
    | cons b q =>
      simp only
      by_cases hb : buffers i = b
      · simp only [hb, ne_eq, not_true_eq_false, if_false]
        have hj : j ≠ i := by
          intro e
          subst e
          simp [hq, hb] at h3
        by_cases hqe : q = []
        · simp only [hqe, if_true]
          apply ih
          exact ⟨j, by omega, by omega, by simpa [Function.update_apply, hj] using h3⟩
        · simp only [hqe, if_false]
          apply ih
          exact ⟨j, by omega, by omega, by simpa [Function.update_apply, hj] using h3⟩
      · simp [hb]

theorem queue_kept_head (q : List GstBuffer) (h : q ≠ []) :
    (queue_kept q).head? = some (queue_tail q) := by
  have hne := queue_kept_ne_nil q h
  have hp := List.head?_dropWhile_not (fun b => decide (b ≠ queue_tail q)) q
  rw [queue_kept] at hne ⊢
  cases hd : List.dropWhile (fun b => decide (b ≠ queue_tail q)) q with
  | nil => exact absurd hd hne
  | cons x xs =>
    rw [hd] at hp
    simp only [List.head?_cons] at hp ⊢
    simp at hp
    rw [hp]

theorem queue_kept_length (q : List GstBuffer) : (queue_kept q).length ≤ q.length := by
  rw [queue_kept]
  exact (List.dropWhile_suffix _).length_le

theorem sview_pop_release (APP_FLAG_EOS : Nat) (mem : Memory) (app : app_data_t) (out : sview_out)
    (heos : app.flags &&& APP_FLAG_EOS = 0)
    (hz : app.frames &&& ((1 <<< CAMERAS_NUMBER) - 1) = 0)
    (hq : ∀ i, i < CAMERAS_NUMBER → app.render i ≠ []) :
    ∃ appP outP appR,
      sview_pop_buffers APP_FLAG_EOS mem app out = .ok (1, appP, outP) ∧
      appP.frames = app.frames ∧
      (∀ i, i < CAMERAS_NUMBER → outP.buf i = queue_tail (app.render i)) ∧
      sview_release_buffers appP outP.buf = .ok appR ∧
      appR.flags = app.flags ∧ appR.window = app.window ∧
      (∀ i, i < CAMERAS_NUMBER → appR.render i = (queue_kept (app.render i)).tail) ∧
      (∀ i, i < CAMERAS_NUMBER →
        appR.frames.testBit i = decide ((queue_kept (app.render i)).tail = [])) ∧
      (∀ k, CAMERAS_NUMBER ≤ k → appR.frames.testBit k = app.frames.testBit k) ∧
      (∀ i, i < CAMERAS_NUMBER →
        outP.t i = mem.tex (mem.priv (queue_tail (app.render i))) ∧
        outP.planes i = mem.data0 (mem.priv (queue_tail (app.render i)))) ∧
      outP.ts = Int.tdiv (to_s64 (((List.range CAMERAS_NUMBER).map
        (fun i => (mem.dts (queue_tail (app.render i)) : Int))).sum)) CAMERAS_NUMBER := by
  have hpop := sview_pop_buffers_ready APP_FLAG_EOS mem app out heos hz hq
  have hbits := (low_bits_zero_iff app.frames CAMERAS_NUMBER).mp hz
  have hheads : ∀ j, 0 ≤ j → j < 0 + CAMERAS_NUMBER →
      ((collect_result mem CAMERAS_NUMBER 0 (app, out, 0)).1.render j).head? =
        some ((collect_result mem CAMERAS_NUMBER 0 (app, out, 0)).2.1.buf j) := by
    intro j _ hj
    have hj' : j < CAMERAS_NUMBER := by omega
    simp only [collect_result, Nat.zero_le, Nat.zero_add, hj', and_self, if_true]
    exact queue_kept_head _ (hq j hj')
  obtain ⟨appR, h1, h2, h3, h4, _, h6⟩ := release_loop_spec
    (collect_result mem CAMERAS_NUMBER 0 (app, out, 0)).2.1.buf CAMERAS_NUMBER 0
    (collect_result mem CAMERAS_NUMBER 0 (app, out, 0)).1 hheads
  refine ⟨_, _, appR, hpop, rfl, ?_, h1, h2, h3, ?_, ?_, ?_, ?_, ?_⟩
  · intro i hi
    simp [collect_result, hi]
  · intro i hi
    rw [h4 i]
    simp [collect_result, hi]
  · intro i hi
    rw [h6 i]
    have hr : (collect_result mem CAMERAS_NUMBER 0 (app, out, 0)).1.render i =
        queue_kept (app.render i) := by
      simp [collect_result, hi]
    have hf : (collect_result mem CAMERAS_NUMBER 0 (app, out, 0)).1.frames = app.frames := rfl
    rw [hr, hf, hbits i hi]
    by_cases ht : (queue_kept (app.render i)).tail = [] <;> simp [ht, hi]
  · intro k hk
    rw [h6 k]
    have : ¬ (0 ≤ k ∧ k < 0 + CAMERAS_NUMBER ∧
        ((collect_result mem CAMERAS_NUMBER 0 (app, out, 0)).1.render k).tail = []) := by
      omega
    rw [if_neg this]
    rfl
  · intro i hi
    simp [collect_result, hi]
  · simp only [collect_result, Int.zero_add, List.range_eq_range']

theorem sview_redraw_step (APP_FLAG_EOS : Nat) (mem : Memory) (fuel : Nat) (app : app_data_t)
    (out : sview_out) (scenes : List scene_call) (hinv : frames_invariant app) :
    (∃ app', sview_pop_buffers APP_FLAG_EOS mem app out = .ok (0, app', out) ∧
      sview_redraw APP_FLAG_EOS mem (fuel + 1) (app, out, scenes) = some (.ok (app', out, scenes)) ∧
      ∃ a, sview_pop_buffers APP_FLAG_EOS mem app' out = .ok (0, a, out)) ∨
    (∃ appP outP appR,
      sview_pop_buffers APP_FLAG_EOS mem app out = .ok (1, appP, outP) ∧
      sview_release_buffers appP outP.buf = .ok appR ∧
      sview_redraw APP_FLAG_EOS mem (fuel + 1) (app, out, scenes) =
        sview_redraw APP_FLAG_EOS mem fuel (appR, outP, scenes ++ [scene_of appP outP]) ∧
      frames_invariant appR ∧ (appR.render 0).length < (app.render 0).length) := by
  by_cases heos : app.flags &&& APP_FLAG_EOS = 0
  · by_cases hz : app.frames &&& ((1 <<< CAMERAS_NUMBER) - 1) = 0
    · right
      have hbits := (low_bits_zero_iff app.frames CAMERAS_NUMBER).mp hz
      have hq : ∀ i, i < CAMERAS_NUMBER → app.render i ≠ [] :=
        fun i hi => (hinv i hi).mp (hbits i hi)
      obtain ⟨appP, outP, appR, h1, _, _, h4, _, _, h7, h8, _⟩ :=
        sview_pop_release APP_FLAG_EOS mem app out heos hz hq
      refine ⟨appP, outP, appR, h1, h4, ?_, ?_, ?_⟩
      · simp [sview_redraw, h1, h4]
      · intro i hi
        rw [h7 i hi, h8 i hi]
        by_cases ht : (queue_kept (app.render i)).tail = [] <;> simp [ht]
      · rw [h7 0 (by decide)]
        have hk := queue_kept_ne_nil _ (hq 0 (by decide))
        have hl := queue_kept_length (app.render 0)
        cases hd : queue_kept (app.render 0) with
        | nil => exact absurd hd hk
        | cons x xs =>
          rw [hd] at hl
          simp only [List.tail_cons, List.length_cons] at hl ⊢
          omega
    · left
      have hp : sview_pop_buffers APP_FLAG_EOS mem app out = .ok (0, app, out) := by
        simp [sview_pop_buffers, heos, hz]
      exact ⟨app, hp, by simp [sview_redraw, hp], app, hp⟩
  · left
    have hp : sview_pop_buffers APP_FLAG_EOS mem app out =
        .ok (0, purge_loop CAMERAS_NUMBER 0 app, out) := by
      simp [sview_pop_buffers, heos]
    have hf : (purge_loop CAMERAS_NUMBER 0 app).flags = app.flags := by
      rw [purge_loop_eq]; rfl
    have hp2 : sview_pop_buffers APP_FLAG_EOS mem (purge_loop CAMERAS_NUMBER 0 app) out =
        .ok (0, purge_loop CAMERAS_NUMBER 0 (purge_loop CAMERAS_NUMBER 0 app), out) := by
      simp [sview_pop_buffers, hf, heos]
    exact ⟨_, hp, by simp [sview_redraw, hp], _, hp2⟩

theorem sview_redraw_returns (APP_FLAG_EOS : Nat) (mem : Memory) (n : Nat) :
    ∀ (app : app_data_t) (out : sview_out) (scenes : List scene_call),
      frames_invariant app → (app.render 0).length ≤ n →
      ∀ fuel, n + 1 ≤ fuel → ∃ app' out' scenes',
        sview_redraw APP_FLAG_EOS mem fuel (app, out, scenes) = some (.ok (app', out', scenes')) ∧
        (∃ a, sview_pop_buffers APP_FLAG_EOS mem app' out' = .ok (0, a, out')) ∧
        scenes'.length ≤ scenes.length + n := by
  induction n with
  | zero =>
    intro app out scenes hinv hlen fuel hfuel
    obtain ⟨f, rfl⟩ : ∃ f, fuel = f + 1 := ⟨fuel - 1, by omega⟩
    rcases sview_redraw_step APP_FLAG_EOS mem f app out scenes hinv with
      ⟨app', _, h2, h3⟩ | ⟨_, _, appR, _, _, _, _, h5⟩
    · exact ⟨app', out, scenes, h2, h3, by omega⟩
    · omega
  | succ n ih =>
    intro app out scenes hinv hlen fuel hfuel
    obtain ⟨f, rfl⟩ : ∃ f, fuel = f + 1 := ⟨fuel - 1, by omega⟩
    rcases sview_redraw_step APP_FLAG_EOS mem f app out scenes hinv with
      ⟨app', _, h2, h3⟩ | ⟨appP, outP, appR, _, _, h3, h4, h5⟩
    · exact ⟨app', out, scenes, h2, h3, by omega⟩
    · obtain ⟨app', out', scenes', g1, g2, g3⟩ :=
        ih appR outP (scenes ++ [scene_of appP outP]) h4 (by omega) f (by omega)
      refine ⟨app', out', scenes', by rw [h3]; exact g1, g2, ?_⟩
      simp only [List.length_append, List.length_singleton] at g3
      omega

theorem sview_redraw_no_fault (APP_FLAG_EOS : Nat) (mem : Memory) (fuel : Nat) :
    ∀ (app : app_data_t) (out : sview_out) (scenes : List scene_call),
      frames_invariant app → ∀ e, sview_redraw APP_FLAG_EOS mem fuel (app, out, scenes) ≠ some (.error e) := by
  induction fuel with
  | zero => intro app out scenes _ e; simp [sview_redraw]
  | succ f ih =>
    intro app out scenes hinv e
    rcases sview_redraw_step APP_FLAG_EOS mem f app out scenes hinv with
      ⟨app', _, h2, _⟩ | ⟨appP, outP, appR, _, _, h3, h4, _⟩
    · rw [h2]; simp
    · rw [h3]; exact ih appR outP _ h4 e

theorem sview_pop_buffers_ts (APP_FLAG_EOS : Nat) (mem : Memory) (app app' : app_data_t)
    (out out' : sview_out) (ready : Int)
    (h : sview_pop_buffers APP_FLAG_EOS mem app out = .ok (ready, app', out')) (hr : ready ≠ 0)
    (hlt : (mem.dts (out'.buf 0) : Int) + mem.dts (out'.buf 1) + mem.dts (out'.buf 2) +
      mem.dts (out'.buf 3) < 2 ^ 63) :
    4 * out'.ts ≤ (mem.dts (out'.buf 0) : Int) + mem.dts (out'.buf 1) + mem.dts (out'.buf 2) +
      mem.dts (out'.buf 3) ∧
    (mem.dts (out'.buf 0) : Int) + mem.dts (out'.buf 1) + mem.dts (out'.buf 2) +
      mem.dts (out'.buf 3) < 4 * out'.ts + 4 := by
  obtain ⟨heos, hz, hq⟩ := sview_pop_buffers_ready_inv APP_FLAG_EOS mem app app' out out' ready h hr
  rw [sview_pop_buffers_ready APP_FLAG_EOS mem app out heos hz hq] at h
  simp only [Except.ok.injEq, Prod.mk.injEq] at h
  obtain ⟨_, _, hout⟩ := h
  have hbuf : ∀ i, i < CAMERAS_NUMBER → out'.buf i = queue_tail (app.render i) := by
    intro i hi
    rw [← hout]
    simp [collect_result, hi]
  have hacc : (collect_result mem CAMERAS_NUMBER 0 (app, out, 0)).2.2 =
      to_s64 ((mem.dts (out'.buf 0) : Int) + mem.dts (out'.buf 1) + mem.dts (out'.buf 2) +
        mem.dts (out'.buf 3)) := by
    rw [hbuf 0 (by decide), hbuf 1 (by decide), hbuf 2 (by decide), hbuf 3 (by decide)]
    simp only [collect_result, CAMERAS_NUMBER, List.range'_succ, List.range'_zero, List.map_cons,
      List.map_nil, List.sum_cons, List.sum_nil, Int.zero_add, Int.add_zero, Nat.zero_add,
      Nat.reduceAdd]
    congr 1
    omega
  have hts : out'.ts = Int.tdiv
      (to_s64 ((mem.dts (out'.buf 0) : Int) + mem.dts (out'.buf 1) + mem.dts (out'.buf 2) +
        mem.dts (out'.buf 3))) CAMERAS_NUMBER := by
    rw [← hacc, ← hout]
  have hnn : (0 : Int) ≤ (mem.dts (out'.buf 0) : Int) + mem.dts (out'.buf 1) +
      mem.dts (out'.buf 2) + mem.dts (out'.buf 3) := by omega
  have h4 : ((CAMERAS_NUMBER : Nat) : Int) = 4 := rfl
  rw [hts, to_s64_of_range _ (le_trans (by decide) hnn) hlt,
    Int.tdiv_eq_ediv hnn (Int.ofNat_nonneg _), h4]
  omega

/-! ## Lemmas on a stalled track -/

theorem low_bits_ne_zero_of_set (x j : Nat) (hj : j < CAMERAS_NUMBER) (hb : x.testBit j = true) :
    ¬ x &&& ((1 <<< CAMERAS_NUMBER) - 1) = 0 := by
  intro hz
  have := (low_bits_zero_iff x CAMERAS_NUMBER).mp hz j hj
  rw [hb] at this
  exact absurd this (by decide)

theorem sview_pop_buffers_stalled (APP_FLAG_EOS : Nat) (mem : Memory) (app : app_data_t)
    (out : sview_out) (j : Nat) (hj : j < CAMERAS_NUMBER)
    (heos : app.flags &&& APP_FLAG_EOS = 0) (hb : app.frames.testBit j = true) :
    sview_pop_buffers APP_FLAG_EOS mem app out = .ok (0, app, out) := by
  have hz := low_bits_ne_zero_of_set app.frames j hj hb
  simp [sview_pop_buffers, heos, hz]

theorem run_track_stalled (APP_FLAG_EOS : Nat) (mem : Memory) (fuel j : Nat)
    (hj : j < CAMERAS_NUMBER) (hfuel : 1 ≤ fuel) (calls : List track_call) :
    ∀ (app : app_data_t) (out : sview_out) (scenes : List scene_call),
      app.flags &&& APP_FLAG_EOS = 0 → app.frames.testBit j = true →
      (∀ c, c ∈ calls → c.avoids j) →
      ∃ app', run_track APP_FLAG_EOS mem fuel calls (app, out, scenes) =
          some (.ok (app', out, scenes)) ∧
        app'.flags = app.flags ∧ app'.frames.testBit j = true ∧
        (∀ i, app'.render i = app.render i ++ delivered i calls) ∧
        app'.refs = app.refs ++ (delivered_all calls).map gst_call.ref := by
  induction calls with
  | nil =>
    intro app out scenes _ hb _
    exact ⟨app, rfl, rfl, hb, by simp [delivered], by simp [delivered_all]⟩
  | cons c cs ih =>
    intro app out scenes heos hb hc
    have hcs : ∀ d, d ∈ cs → d.avoids j := fun d hd => hc d (List.mem_cons_of_mem _ hd)
    cases c with
    | input_process i buffer =>
      have hi : i < CAMERAS_NUMBER ∧ i ≠ j := hc _ (List.mem_cons_self _ _)
      obtain ⟨w, hw⟩ := sview_input_process_live APP_FLAG_EOS app i buffer hi.1 heos
      have hb' : (app.frames &&& not32 (1 <<< i)).testBit j = true := by
        rw [testBit_clear _ _ _ (camera_lt_32 i hi.1), hb]
        simp [camera_lt_32 j hj, Ne.symm hi.2]
      obtain ⟨app', g1, g2, g3, g4, g5⟩ := ih
        { flags := app.flags, frames := app.frames &&& not32 (1 <<< i),
          render := Function.update app.render i (app.render i ++ [buffer]),
          window := w, refs := app.refs ++ [.ref buffer] } out scenes heos hb' hcs
      refine ⟨app', by simp only [run_track, hw]; exact g1, g2, g3, ?_, ?_⟩
      · intro k
        rw [g4 k]
        by_cases hk : k = i
        · subst hk; simp [delivered]
        · have hk' : ¬ i = k := fun e => hk e.symm
          simp [Function.update_apply, hk, hk', delivered]
      · rw [g5]; simp [delivered_all]
    | redraw =>
      obtain ⟨f, rfl⟩ : ∃ f, fuel = f + 1 := ⟨fuel - 1, by omega⟩
      have hp := sview_pop_buffers_stalled APP_FLAG_EOS mem app out j hj heos hb
      have hr : sview_redraw APP_FLAG_EOS mem (f + 1) (app, out, scenes) =
          some (.ok (app, out, scenes)) := by
        simp [sview_redraw, hp]
      obtain ⟨app', g1, g2, g3, g4, g5⟩ := ih app out scenes heos hb hcs
      refine ⟨app', by simp only [run_track, hr]; exact g1, g2, g3, ?_, ?_⟩
      · intro k; rw [g4 k]; simp [delivered]
      · rw [g5]; simp [delivered_all]

/-! ## Lemmas on a tick -/

theorem sview_input_process_live_eq (APP_FLAG_EOS : Nat) (app : app_data_t) (k : Nat)
    (buffer : GstBuffer) (hk : k < CAMERAS_NUMBER) (heos : app.flags &&& APP_FLAG_EOS = 0) :
    sview_input_process APP_FLAG_EOS app (k : Int) buffer =
      .ok (0, { flags := app.flags, frames := app.frames &&& not32 (1 <<< k),
                render := Function.update app.render k (app.render k ++ [buffer]),
                window :=
                  if (app.frames &&& not32 (1 <<< k)) &&& ((1 <<< CAMERAS_NUMBER) - 1) = 0 then
                    window_schedule_redraw app.window
                  else app.window,
                refs := app.refs ++ [.ref buffer] }) := by
  have h1 : ¬ ((k : Int) ≥ (CAMERAS_NUMBER : Int)) := by omega
  have h2 : ¬ ((k : Int) < 0) := by omega
  by_cases h3 : (app.frames &&& not32 (1 <<< k)) &&& ((1 <<< CAMERAS_NUMBER) - 1) = 0
  · simp [sview_input_process, h1, h2, heos, h3]
  · simp [sview_input_process, h1, h2, heos, h3]

theorem window_schedule_redraw_bits (window : window_data_t) (j : Nat) :
    (window_schedule_redraw window).flags.testBit j =
      (window.flags.testBit j || decide (j = 0)) := by
  by_cases h : window.flags.testBit 0 = true
  · rw [window_schedule_redraw_of_set _ h]
    by_cases hj : j = 0
    · subst hj; simp [h]
    · simp [hj]
  · rw [window_schedule_redraw_of_clear _ (by simpa using h)]
    show (window.flags ||| (1 <<< 0)).testBit j = _
    rw [testBit_set]

theorem push_all_spec (APP_FLAG_EOS : Nat) (ps : List (Nat × GstBuffer)) :
    ∀ app : app_data_t, app.flags &&& APP_FLAG_EOS = 0 →
      (∀ k, 32 ≤ k → app.frames.testBit k = false) →
      (app.frames &&& ((1 <<< CAMERAS_NUMBER) - 1) = 0 → app.window.flags.testBit 0 = true) →
      (ps.map Prod.fst).Nodup → (∀ p, p ∈ ps → p.1 < CAMERAS_NUMBER) →
      ∃ app', push_all APP_FLAG_EOS ps app = .ok app' ∧ app'.flags = app.flags ∧
        (∀ i, app'.render i =
          app.render i ++ (if i ∈ ps.map Prod.fst then [tick_buffer i ps] else [])) ∧
        (∀ k, app'.frames.testBit k =
          (app.frames.testBit k && decide (k ∉ ps.map Prod.fst))) ∧
        (∀ j, j ≠ 0 → app'.window.flags.testBit j = app.window.flags.testBit j) ∧
        (app'.frames &&& ((1 <<< CAMERAS_NUMBER) - 1) = 0 → app'.window.flags.testBit 0 = true) ∧
        app'.refs = app.refs ++ ps.map (fun p => gst_call.ref p.2) := by
  induction ps with
  | nil =>
    intro app _ _ hP _ _
    exact ⟨app, rfl, rfl, by simp, by simp, fun _ _ => rfl, hP, by simp⟩
  | cons p ps ih =>
    intro app heos hw hP hnd hlt
    obtain ⟨k, buffer⟩ := p
    have hk : k < CAMERAS_NUMBER := hlt (k, buffer) (List.mem_cons_self _ _)
    have hk32 := camera_lt_32 k hk
    simp only [List.map_cons, List.nodup_cons] at hnd
    have hstep := sview_input_process_live_eq APP_FLAG_EOS app k buffer hk heos
    obtain ⟨app', g1, g2, g3, g4, g5, g6, g7⟩ := ih
      { flags := app.flags, frames := app.frames &&& not32 (1 <<< k),
        render := Function.update app.render k (app.render k ++ [buffer]),
        window :=
          if (app.frames &&& not32 (1 <<< k)) &&& ((1 <<< CAMERAS_NUMBER) - 1) = 0 then
            window_schedule_redraw app.window
          else app.window,
        refs := app.refs ++ [.ref buffer] }
      heos
      (by intro j hj; simp only [testBit_clear _ _ _ hk32]
          have : ¬ j < 32 := by omega
          simp [this])
      (by intro hz; simp only [hz, if_true]; rw [window_schedule_redraw_bits]; simp)
      hnd.2 (fun q hq => hlt q (List.mem_cons_of_mem _ hq))
    refine ⟨app', by simp only [push_all, hstep]; exact g1, g2, ?_, ?_, ?_, g6, ?_⟩
    · intro i
      rw [g3 i]
      by_cases hi : i = k
      · subst hi
        simp [hnd.1, tick_buffer]
      · have hki : ¬ k = i := fun e => hi e.symm
        have hm : (i ∈ k :: List.map Prod.fst ps) ↔ (i ∈ List.map Prod.fst ps) := by
          simp only [List.mem_cons, hi, false_or]
        simp only [Function.update_apply, hi, if_false, tick_buffer, hki, List.map_cons]
        rw [if_congr hm rfl rfl]
    · intro j
      rw [g4 j]
      simp only [testBit_clear _ _ _ hk32]
      by_cases hj : j = k
      · subst hj; simp
      · have hb : (j == k) = false := by simp [hj]
        by_cases h32 : j < 32
        · simp [hj, h32, hb]
        · simp [hw j (by omega)]
    · intro j hj
      rw [g5 j hj]
      simp only
      split
      · rw [window_schedule_redraw_bits]; simp [hj]
      · rfl
    · rw [g7]; simp

theorem testBit_fifteen (k : Nat) : (15 : Nat).testBit k = decide (k < 4) :=
  Nat.testBit_two_pow_sub_one 4 k

theorem sview_redraw_one_each (APP_FLAG_EOS : Nat) (mem : Memory) (f : Nat) (app : app_data_t)
    (out : sview_out) (scenes : List scene_call) (b : Nat → GstBuffer)
    (heos : app.flags &&& APP_FLAG_EOS = 0) (hf : app.frames = 0)
    (hq : ∀ i, i < CAMERAS_NUMBER → app.render i = [b i]) :
    ∃ appR outP, sview_redraw APP_FLAG_EOS mem (f + 2) (app, out, scenes) =
        some (.ok (appR, outP, scenes ++
          [{ frames := 0,
             buf := (List.range CAMERAS_NUMBER).map b,
             t := (List.range CAMERAS_NUMBER).map (fun i => mem.tex (mem.priv (b i))),
             planes := (List.range CAMERAS_NUMBER).map (fun i => mem.data0 (mem.priv (b i))),
             ts := Int.tdiv (to_s64 (((List.range CAMERAS_NUMBER).map
               (fun i => (mem.dts (b i) : Int))).sum)) CAMERAS_NUMBER }])) ∧
      appR.flags = app.flags ∧ appR.window = app.window ∧ appR.frames = 15 ∧
      (∀ i, i < CAMERAS_NUMBER → appR.render i = []) := by
  have hz : app.frames &&& ((1 <<< CAMERAS_NUMBER) - 1) = 0 := by rw [hf]; rfl
  have hne : ∀ i, i < CAMERAS_NUMBER → app.render i ≠ [] := by
    intro i hi; rw [hq i hi]; simp
  have htail : ∀ i, i < CAMERAS_NUMBER → queue_tail (app.render i) = b i := by
    intro i hi; rw [hq i hi]; simp [queue_tail]
  have hkept : ∀ i, i < CAMERAS_NUMBER → (queue_kept (app.render i)).tail = [] := by
    intro i hi
    have := (queue_nodup (app.render i) (hne i hi) (by rw [hq i hi]; simp)).1
    rw [this]; rfl
  obtain ⟨appP, outP, appR, h1, h2, h3, h4, h5, h6, h7, h8, h9, h10, h11⟩ :=
    sview_pop_release APP_FLAG_EOS mem app out heos hz hne
  have hframes : appR.frames = 15 := by
    apply Nat.eq_of_testBit_eq
    intro k
    rw [testBit_fifteen]
    by_cases hk : k < 4
    · rw [h8 k hk, hkept k hk]; simp [hk]
    · rw [h9 k (by unfold CAMERAS_NUMBER; omega), hf]; simp [hk]
  have hempty : ∀ i, i < CAMERAS_NUMBER → appR.render i = [] := by
    intro i hi; rw [h7 i hi, hkept i hi]
  have hp2 : sview_pop_buffers APP_FLAG_EOS mem appR outP = .ok (0, appR, outP) :=
    sview_pop_buffers_stalled APP_FLAG_EOS mem appR outP 0 (by decide) (by rw [h5]; exact heos)
      (by rw [hframes]; decide)
  have hmem : ∀ i, i ∈ List.range CAMERAS_NUMBER → i < CAMERAS_NUMBER :=
    fun i hi => List.mem_range.mp hi
  have hscene : scene_of appP outP =
      { frames := 0,
        buf := (List.range CAMERAS_NUMBER).map b,
        t := (List.range CAMERAS_NUMBER).map (fun i => mem.tex (mem.priv (b i))),
        planes := (List.range CAMERAS_NUMBER).map (fun i => mem.data0 (mem.priv (b i))),
        ts := Int.tdiv (to_s64 (((List.range CAMERAS_NUMBER).map
          (fun i => (mem.dts (b i) : Int))).sum)) CAMERAS_NUMBER } := by
    have e1 : (List.range CAMERAS_NUMBER).map outP.buf = (List.range CAMERAS_NUMBER).map b :=
      List.map_congr_left (fun i hi => by rw [h3 i (hmem i hi), htail i (hmem i hi)])
    have e2 : (List.range CAMERAS_NUMBER).map outP.t =
        (List.range CAMERAS_NUMBER).map (fun i => mem.tex (mem.priv (b i))) :=
      List.map_congr_left (fun i hi => by rw [(h10 i (hmem i hi)).1, htail i (hmem i hi)])
    have e3 : (List.range CAMERAS_NUMBER).map outP.planes =
        (List.range CAMERAS_NUMBER).map (fun i => mem.data0 (mem.priv (b i))) :=
      List.map_congr_left (fun i hi => by rw [(h10 i (hmem i hi)).2, htail i (hmem i hi)])
    have e4 : (List.range CAMERAS_NUMBER).map
          (fun i => (mem.dts (queue_tail (app.render i)) : Int)) =
        (List.range CAMERAS_NUMBER).map (fun i => (mem.dts (b i) : Int)) :=
      List.map_congr_left (fun i hi => by rw [htail i (hmem i hi)])
    simp only [scene_of, e1, e2, e3, h11, e4, h2, hf]
  refine ⟨appR, outP, ?_, h5, h6, hframes, hempty⟩
  rw [← hscene]
  simp [sview_redraw, h1, h4, hp2]

theorem render_thread_tick (APP_FLAG_EOS : Nat) (mem : Memory) (rf tf : Nat) (app : app_data_t)
    (out : sview_out) (scenes : List scene_call) (b : Nat → GstBuffer)
    (hrf : 2 ≤ rf) (htf : 3 ≤ tf)
    (heos : app.flags &&& APP_FLAG_EOS = 0) (hf : app.frames = 0)
    (hq : ∀ i, i < CAMERAS_NUMBER → app.render i = [b i])
    (hT : app.window.flags.testBit 1 = false) (hR : app.window.flags.testBit 0 = true) :
    ∃ appR outP, render_thread APP_FLAG_EOS mem rf tf (app, out, scenes) =
        some (.ok (.waiting, (appR, outP, scenes ++
          [{ frames := 0,
             buf := (List.range CAMERAS_NUMBER).map b,
             t := (List.range CAMERAS_NUMBER).map (fun i => mem.tex (mem.priv (b i))),
             planes := (List.range CAMERAS_NUMBER).map (fun i => mem.data0 (mem.priv (b i))),
             ts := Int.tdiv (to_s64 (((List.range CAMERAS_NUMBER).map
               (fun i => (mem.dts (b i) : Int))).sum)) CAMERAS_NUMBER }]))) ∧
      appR.flags = app.flags ∧ appR.frames = 15 ∧
      (∀ i, i < CAMERAS_NUMBER → appR.render i = []) ∧
      appR.window.flags.testBit 1 = false := by
  obtain ⟨f, rfl⟩ : ∃ f, rf = f + 2 := ⟨rf - 2, by omega⟩
  obtain ⟨t, rfl⟩ : ∃ t, tf = t + 3 := ⟨tf - 3, by omega⟩
  have hstep1 := window_thread_step_redraw app.window hT hR
  have hcond : app.window.flags &&& WINDOW_FLAG_REDRAW ≠ 0 :=
    (and_one_shiftLeft_ne_zero _ 0).mpr hR
  obtain ⟨appR, outP, g1, g2, g3, g4, g5⟩ := sview_redraw_one_each APP_FLAG_EOS mem f
    { app with window := { app.window with
        flags := app.window.flags &&& not32 WINDOW_FLAG_REDRAW,
        calls := app.window.calls ++ [.make_current, .redraw] } }
    out scenes b heos hf hq
  have hbits : ∀ j, appR.window.flags.testBit j =
      (app.window.flags.testBit j && decide (j < 32) && decide (j ≠ 0)) := by
    intro j
    rw [g3]
    show (app.window.flags &&& not32 (1 <<< 0)).testBit j = _
    rw [testBit_clear _ _ _ (by decide)]
  have hR1 : appR.window.flags.testBit 0 = false := by rw [hbits]; simp
  have hT1 : appR.window.flags.testBit 1 = false := by rw [hbits, hT]; rfl
  have hunf : render_thread APP_FLAG_EOS mem (f + 2) (t + 3) (app, out, scenes) =
      render_thread APP_FLAG_EOS mem (f + 2) (t + 2) (appR, outP, scenes ++
        [{ frames := 0,
           buf := (List.range CAMERAS_NUMBER).map b,
           t := (List.range CAMERAS_NUMBER).map (fun i => mem.tex (mem.priv (b i))),
           planes := (List.range CAMERAS_NUMBER).map (fun i => mem.data0 (mem.priv (b i))),
           ts := Int.tdiv (to_s64 (((List.range CAMERAS_NUMBER).map
             (fun i => (mem.dts (b i) : Int))).sum)) CAMERAS_NUMBER }]) := by
    rw [render_thread, hstep1]
    simp only [hcond, ne_eq, not_false_eq_true, if_true]
    rw [g1]
  rw [hunf]
  by_cases hI : appR.window.flags.testBit 2 = true
  · have hstep2 := window_thread_step_reinit appR.window hT1 hR1 hI
    have hcond2 : ¬ appR.window.flags &&& WINDOW_FLAG_REDRAW ≠ 0 := by
      intro hne
      have := (and_one_shiftLeft_ne_zero _ 0).mp hne
      rw [hR1] at this
      exact absurd this (by decide)
    have hb3 : ∀ j, (appR.window.flags &&& not32 WINDOW_BV_REINIT).testBit j =
        (appR.window.flags.testBit j && decide (j < 32) && decide (j ≠ 2)) := by
      intro j
      show (appR.window.flags &&& not32 (1 <<< 2)).testBit j = _
      rw [testBit_clear _ _ _ (by decide)]
    have hstep3 := window_thread_step_wait
      { appR.window with
        flags := appR.window.flags &&& not32 WINDOW_BV_REINIT,
        calls := appR.window.calls ++ [.make_current, .init_bv] }
      (by show (appR.window.flags &&& not32 WINDOW_BV_REINIT).testBit 1 = false
          rw [hb3, hT1]; rfl)
      (by show (appR.window.flags &&& not32 WINDOW_BV_REINIT).testBit 0 = false
          rw [hb3, hR1]; rfl)
      (by show (appR.window.flags &&& not32 WINDOW_BV_REINIT).testBit 2 = false
          rw [hb3]; simp)
    refine ⟨{ appR with window := { appR.window with
        flags := appR.window.flags &&& not32 WINDOW_BV_REINIT,
        calls := appR.window.calls ++ [.make_current, .init_bv] } }, outP, ?_, g2, g4, g5, ?_⟩
    · rw [render_thread, hstep2]
      simp only [hcond2, if_false]
      rw [render_thread, hstep3]
    · show (appR.window.flags &&& not32 WINDOW_BV_REINIT).testBit 1 = false
      rw [hb3, hT1]; rfl
  · have hI' : appR.window.flags.testBit 2 = false := by simpa using hI
    have hstep2 := window_thread_step_wait appR.window hT1 hR1 hI'
    refine ⟨appR, outP, ?_, g2, g4, g5, hT1⟩
    rw [render_thread, hstep2]

theorem run_ticks_spec (APP_FLAG_EOS : Nat) (mem : Memory) (rf tf : Nat) (hrf : 2 ≤ rf)
    (htf : 3 ≤ tf) (ticks : List (List (Nat × GstBuffer))) :
    ∀ (app : app_data_t) (out : sview_out) (scenes : List scene_call),
      app.flags &&& APP_FLAG_EOS = 0 → app.frames = 15 →
      (∀ i, i < CAMERAS_NUMBER → app.render i = []) →
      app.window.flags.testBit 1 = false →
      (∀ tick, tick ∈ ticks → (tick.map Prod.fst).Perm (List.range CAMERAS_NUMBER)) →
      ∃ app' out', run_ticks APP_FLAG_EOS mem rf tf ticks (app, out, scenes) =
          some (.ok (app', out', scenes ++ ticks.map (tick_scene mem))) ∧
        app'.frames = 15 ∧ (∀ i, i < CAMERAS_NUMBER → app'.render i = []) := by
  induction ticks with
  | nil =>
    intro app out scenes _ hf hq _ _
    exact ⟨app, out, by simp [run_ticks], hf, hq⟩
  | cons tick ticks ih =>
    intro app out scenes heos hf hq hT hperm
    have hp : (tick.map Prod.fst).Perm (List.range CAMERAS_NUMBER) :=
      hperm tick (List.mem_cons_self _ _)
    have hmem : ∀ i, i ∈ tick.map Prod.fst ↔ i < CAMERAS_NUMBER := by
      intro i; rw [hp.mem_iff, List.mem_range]
    have hnd : (tick.map Prod.fst).Nodup := hp.nodup_iff.mpr (List.nodup_range _)
    have hlt : ∀ q, q ∈ tick → q.1 < CAMERAS_NUMBER :=
      fun q hq' => (hmem q.1).mp (List.mem_map_of_mem Prod.fst hq')
    obtain ⟨app1, g1, g2, g3, g4, g5, g6, _⟩ := push_all_spec APP_FLAG_EOS tick app heos
      (by intro k hk; rw [hf, testBit_fifteen]; simp; omega)
      (by intro hz; rw [hf] at hz; exact absurd hz (by decide))
      hnd hlt
    have hf1 : app1.frames = 0 := by
      apply Nat.eq_of_testBit_eq
      intro k
      rw [g4 k, hf, testBit_fifteen, Nat.zero_testBit]
      by_cases hk : k < 4
      · have : k ∈ tick.map Prod.fst := (hmem k).mpr hk
        simp [this]
      · simp [hk]
    have hq1 : ∀ i, i < CAMERAS_NUMBER → app1.render i = [tick_buffer i tick] := by
      intro i hi
      rw [g3 i, hq i hi, if_pos ((hmem i).mpr hi)]
      rfl
    have hR1 : app1.window.flags.testBit 0 = true := g6 (by rw [hf1]; rfl)
    have hT1 : app1.window.flags.testBit 1 = false := by rw [g5 1 (by decide)]; exact hT
    obtain ⟨appR, outP, r1, r2, r3, r4, r5⟩ := render_thread_tick APP_FLAG_EOS mem rf tf app1 out
      scenes (fun i => tick_buffer i tick) hrf htf (by rw [g2]; exact heos) hf1 hq1 hT1 hR1
    obtain ⟨app', out', e1, e2, e3⟩ := ih appR outP (scenes ++ [tick_scene mem tick])
      (by rw [r2, g2]; exact heos) r3 r4 r5
      (fun t ht => hperm t (List.mem_cons_of_mem _ ht))
    refine ⟨app', out', ?_, e2, e3⟩
    rw [run_ticks, g1]
    simp only
    have r1' : render_thread APP_FLAG_EOS mem rf tf (app1, out, scenes) =
        some (.ok (.waiting, (appR, outP, scenes ++ [tick_scene mem tick]))) := r1
    rw [r1']
    simp only
    rw [e1]
    simp

/-! ## Lemmas on the GPU context broker -/

theorem display_egl_ctx_get_bound (self : Nat) (display : display_data_t)
    (h : display.current self ≠ .none) :
    display_egl_ctx_get self display = .abort display := by
  simp [display_egl_ctx_get, h]

theorem display_egl_ctx_get_free (self : Nat) (display : display_data_t)
    (h : display.current self = .none) (hl : display.lock = none) :
    display_egl_ctx_get self display =
      .done { current := Function.update display.current self .shared,
              lock := some self,
              calls := display.calls ++ [.mutex_lock self, .make_current self .shared] } := by
  simp [display_egl_ctx_get, h, hl]

theorem display_egl_ctx_get_held (self t : Nat) (display : display_data_t)
    (h : display.current self = .none) (hl : display.lock = some t) :
    display_egl_ctx_get self display = .blocked := by
  simp [display_egl_ctx_get, h, hl]

theorem update_update_none (current : Nat → egl_context) (self : Nat) (c : egl_context)
    (h : current self = .none) :
    Function.update (Function.update current self c) self .none = current := by
  funext t
  by_cases ht : t = self
  · subst ht; simp [h]
  · simp [Function.update_noteq ht]

theorem ran_shared_put (self : Nat) (work : gl_work) (display : display_data_t)
    (h : display.current self = .none) (hl : display.lock = none) :
    ran_shared self work display
      (display_egl_ctx_put self
        { current := Function.update display.current self .shared,
          lock := some self,
          calls := (display.calls ++ [.mutex_lock self, .make_current self .shared]) ++
            [.gl self (Function.update display.current self .shared self) work] }) := by
  refine ⟨?_, ?_, ?_⟩
  · exact update_update_none display.current self .shared h
  · simp [display_egl_ctx_put, hl]
  · simp [display_egl_ctx_put]

/-! ## Lemmas on buffer allocation -/

theorem texture_create_done (K : pixel_formats) (self : Nat) (format : Int) (malloc_result : Nat)
    (errno : Int) (display : display_data_t) (h : display.current self = .none)
    (hl : display.lock = none) (hf : __pixfmt_gst_to_egl K format ≠ 0) (hm : malloc_result ≠ 0) :
    ∃ d, texture_create K self format malloc_result errno display =
        .done (malloc_result, errno, d) ∧
      ran_shared self (.texture_create malloc_result) display d := by
  refine ⟨_, ?_, ran_shared_put self _ display h hl⟩
  simp [texture_create, hf, hm, display_egl_ctx_get_free self display h hl]

theorem texture_destroy_done (self texture : Nat) (display : display_data_t)
    (h : display.current self = .none) (hl : display.lock = none) :
    ∃ d, texture_destroy self texture display = .done d ∧
      ran_shared self (.texture_destroy texture) display d := by
  refine ⟨_, ?_, ran_shared_put self _ display h hl⟩
  simp [texture_destroy, h, display_egl_ctx_get_free self display h hl]

theorem sview_input_alloc_size (K : pixel_formats) (self malloc_result : Nat) (errno : Int)
    (s : camera_buffers) (buffer : GstBuffer)
    (h : ¬((s.vsink_meta buffer).width = 1280 ∧ (s.vsink_meta buffer).height = 800)) :
    sview_input_alloc K self malloc_result errno s buffer = .done (-EINVAL, errno, s) := by
  simp only [sview_input_alloc, h, not_false_eq_true, if_true]

theorem sview_input_alloc_null (K : pixel_formats) (self malloc_result : Nat) (errno : Int)
    (s : camera_buffers) (buffer : GstBuffer)
    (h : (s.vsink_meta buffer).width = 1280 ∧ (s.vsink_meta buffer).height = 800)
    (hn : __pixfmt_gst_to_egl K (s.vsink_meta buffer).format = 0 ∨ malloc_result = 0) :
    ∃ e, sview_input_alloc K self malloc_result errno s buffer =
        .done (-e, e,
          { vsink_meta := Function.update s.vsink_meta buffer
              { width := (s.vsink_meta buffer).width, height := (s.vsink_meta buffer).height,
                format := (s.vsink_meta buffer).format, plane := (s.vsink_meta buffer).plane,
                priv := 0 },
            weak_refs := s.weak_refs,
            display := s.display }) ∧
      (e = EINVAL ∨ e = ENOMEM) := by
  by_cases hf : __pixfmt_gst_to_egl K (s.vsink_meta buffer).format = 0
  · refine ⟨EINVAL, ?_, Or.inl rfl⟩
    simp [sview_input_alloc, h, texture_create, hf]
  · have hm : malloc_result = 0 := hn.resolve_left hf
    refine ⟨ENOMEM, ?_, Or.inr rfl⟩
    simp [sview_input_alloc, h, texture_create, hf, hm]

theorem sview_input_alloc_ok (K : pixel_formats) (self malloc_result : Nat) (errno : Int)
    (s : camera_buffers) (buffer : GstBuffer)
    (h : (s.vsink_meta buffer).width = 1280 ∧ (s.vsink_meta buffer).height = 800)
    (hf : __pixfmt_gst_to_egl K (s.vsink_meta buffer).format ≠ 0) (hm : malloc_result ≠ 0)
    (hc : s.display.current self = .none) (hl : s.display.lock = none) :
    ∃ s', sview_input_alloc K self malloc_result errno s buffer = .done (0, errno, s') ∧
      s'.weak_refs = s.weak_refs ++ [buffer] ∧
      (s'.vsink_meta buffer).priv = malloc_result ∧
      ran_shared self (.texture_create malloc_result) s.display s'.display := by
  obtain ⟨d, hd, hran⟩ :=
    texture_create_done K self (s.vsink_meta buffer).format malloc_result errno s.display
      hc hl hf hm
  refine ⟨{ vsink_meta := Function.update s.vsink_meta buffer
              { width := (s.vsink_meta buffer).width, height := (s.vsink_meta buffer).height,
                format := (s.vsink_meta buffer).format, plane := (s.vsink_meta buffer).plane,
                priv := malloc_result },
            weak_refs := s.weak_refs ++ [buffer],
            display := d }, ?_, rfl, ?_, hran⟩
  · simp [sview_input_alloc, h, hd, hm]
  · simp

theorem filter_eq_append_self (l : List GstBuffer) (buffer : GstBuffer) (h : buffer ∉ l) :
    (l ++ [buffer]).filter (fun b => b = buffer) = [buffer] ∧
    (l ++ [buffer]).filter (fun b => b ≠ buffer) = l := by
  constructor
  · rw [List.filter_append, List.filter_eq_nil_iff.mpr]
    · simp
    · intro a ha
      have : a ≠ buffer := fun e => h (e ▸ ha)
      simp [this]
  · rw [List.filter_append, List.filter_eq_self.mpr]
    · simp
    · intro a ha
      have : a ≠ buffer := fun e => h (e ▸ ha)
      simp [this]

theorem buffer_destroyed_one (t : Nat) (buffer : GstBuffer) (s : camera_buffers)
    (l : List GstBuffer) (h : buffer ∉ l) (hs : s.weak_refs = l ++ [buffer]) :
    buffer_destroyed t buffer s =
      match texture_destroy t (s.vsink_meta buffer).priv s.display with
      | .abort d => .abort d
      | .blocked => .blocked
      | .done d => .done { vsink_meta := s.vsink_meta, weak_refs := l, display := d } := by
  have hfl := filter_eq_append_self l buffer h
  simp only [buffer_destroyed, hs, hfl.1, hfl.2, weak_notify, __destroy_sv_texture]
  cases texture_destroy t (s.vsink_meta buffer).priv s.display <;> rfl

theorem sview_input_alloc_busy (K : pixel_formats) (self malloc_result : Nat) (errno : Int)
    (s : camera_buffers) (buffer : GstBuffer)
    (h : (s.vsink_meta buffer).width = 1280 ∧ (s.vsink_meta buffer).height = 800)
    (hf : __pixfmt_gst_to_egl K (s.vsink_meta buffer).format ≠ 0) (hm : malloc_result ≠ 0)
    (hb : ¬(s.display.current self = .none ∧ s.display.lock = none))
    (r e : Int) (s' : camera_buffers) :
    sview_input_alloc K self malloc_result errno s buffer ≠ .done (r, e, s') := by
  by_cases hc : s.display.current self = .none
  · cases hl : s.display.lock with
    | none => exact absurd ⟨hc, hl⟩ hb
    | some t =>
      simp [sview_input_alloc, h, texture_create, hf, hm,
        display_egl_ctx_get_held self t s.display hc hl]
  · simp [sview_input_alloc, h, texture_create, hf, hm,
      display_egl_ctx_get_bound self s.display hc]

/-! ## Lemmas on input dispatch -/

theorem widget_pass_event_hook {σ : Type} (widgets : Nat → widget_data_t σ) (focus : Nat)
    (info : widget_info_t σ) (hook : Nat → Nat → widget_event_t → σ → Nat × σ)
    (hinfo : (widgets focus).info = some info) (hev : info.event = some hook)
    (event : widget_event_t) (st : input_state σ) :
    widget_pass_event widgets focus event st =
      some ((hook focus (widgets focus).cdata event st.world).1,
        { st with world := (hook focus (widgets focus).cdata event st.world).2,
                  events := st.events ++ [(focus, (widgets focus).cdata, event)] }) := by
  simp [widget_pass_event, hinfo, hev]

/-! ## Lemmas on the passes of a redraw -/

theorem sview_redraw_passes (APP_FLAG_EOS : Nat) (mem : Memory) (n : Nat) :
    ∀ (app : app_data_t) (out : sview_out) (scenes : List scene_call),
      frames_invariant app → (app.render 0).length ≤ n →
      ∀ fuel, n + 1 ≤ fuel → ∃ passes app' out',
        sview_redraw APP_FLAG_EOS mem fuel (app, out, scenes) =
          some (.ok (app', out', scenes ++ passes.map (fun p => scene_of p.1 p.2.1))) ∧
        redraw_passes APP_FLAG_EOS mem passes (app, out) (app', out') ∧
        passes.length ≤ n ∧
        (∃ a, sview_pop_buffers APP_FLAG_EOS mem app' out' = .ok (0, a, out')) := by
  induction n with
  | zero =>
    intro app out scenes hinv hlen fuel hfuel
    obtain ⟨f, rfl⟩ : ∃ f, fuel = f + 1 := ⟨fuel - 1, by omega⟩
    rcases sview_redraw_step APP_FLAG_EOS mem f app out scenes hinv with
      ⟨app', h1, h2, h3⟩ | ⟨_, _, appR, _, _, _, _, h5⟩
    · exact ⟨[], app', out, by simpa using h2, h1, by simp, h3⟩
    · omega
  | succ n ih =>
    intro app out scenes hinv hlen fuel hfuel
    obtain ⟨f, rfl⟩ : ∃ f, fuel = f + 1 := ⟨fuel - 1, by omega⟩
    rcases sview_redraw_step APP_FLAG_EOS mem f app out scenes hinv with
      ⟨app', h1, h2, h3⟩ | ⟨appP, outP, appR, h1, h2, h3, h4, h5⟩
    · exact ⟨[], app', out, by simpa using h2, h1, by simp, h3⟩
    · obtain ⟨passes, app', out', g1, g2, g3, g4⟩ :=
        ih appR outP (scenes ++ [scene_of appP outP]) h4 (by omega) f (by omega)
      refine ⟨(appP, outP, appR) :: passes, app', out', ?_, ⟨h1, h2, g2⟩, ?_, g4⟩
      · rw [h3, g1]
        simp
      · simp only [List.length_cons]
        omega

/-! ## Claims, continued -/

/-- C11: start a track (all four bits set, queues empty, end-of-stream clear)
and let the cameras other than `j` deliver buffers through
`sview_input_process`, interleaved with `sview_redraw` invocations, in any
finite sequence. Every call returns, bit `j` is still set, no render pass has
been made and no output argument written, `sview_pop_buffers` returns 0 and
leaves the state as it is, every queue holds the buffers delivered for its
camera in arrival order, and the only reference-count calls are the
`gst_buffer_ref` of the deliveries. -/
theorem missing_camera_stalls (APP_FLAG_EOS : Nat) (mem : Memory) (fuel j : Nat)
    (calls : List track_call) (app0 : app_data_t) (out0 : sview_out)
    (hj : j < CAMERAS_NUMBER) (hfuel : 1 ≤ fuel)
    (h0 : ∀ i, i < CAMERAS_NUMBER → app0.render i = [])
    (heos : app0.flags &&& APP_FLAG_EOS = 0)
    (hcalls : ∀ c, c ∈ calls → c.avoids j) :
    ∃ app, run_track APP_FLAG_EOS mem fuel calls (__app_sview_track app0, out0, []) =
        some (.ok (app, out0, [])) ∧
      app.frames.testBit j = true ∧
      sview_pop_buffers APP_FLAG_EOS mem app out0 = .ok (0, app, out0) ∧
      (∀ i, i < CAMERAS_NUMBER → app.render i = delivered i calls) ∧
      app.render j = [] ∧
      app.refs = app0.refs ++ (delivered_all calls).map gst_call.ref := by
  have hb : (__app_sview_track app0).frames.testBit j = true := by
    have : j < 4 := hj
    simp only [__app_sview_track, CAMERAS_NUMBER]
    interval_cases j <;> decide
  obtain ⟨app, g1, g2, g3, g4, g5⟩ := run_track_stalled APP_FLAG_EOS mem fuel j hj hfuel calls
    (__app_sview_track app0) out0 [] heos hb hcalls
  have hr : ∀ i, i < CAMERAS_NUMBER → app.render i = delivered i calls := by
    intro i hi
    rw [g4 i]
    show app0.render i ++ delivered i calls = delivered i calls
    rw [h0 i hi, List.nil_append]
  have hnone : delivered j calls = [] := by
    clear g1 g4 g5 hr
    induction calls with
    | nil => rfl
    | cons c cs ih =>
      have hcs : ∀ d, d ∈ cs → d.avoids j := fun d hd => hcalls d (List.mem_cons_of_mem _ hd)
      cases c with
      | input_process i buffer =>
        have hi : i < CAMERAS_NUMBER ∧ i ≠ j := hcalls _ (List.mem_cons_self _ _)
        simp only [delivered, hi.2, if_false]
        exact ih hcs
      | redraw =>
        simp only [delivered]
        exact ih hcs
  refine ⟨app, g1, g3, ?_, hr, by rw [hr j hj, hnone], g5⟩
  exact sview_pop_buffers_stalled APP_FLAG_EOS mem app out0 j hj (by rw [g2]; exact heos) g3

/-- Witness for C11: camera 3 is missing; cameras 0, 1, 2 deliver, camera 0
twice, with redraws in between. -/
theorem missing_camera_stalls_witness :
    (3 < CAMERAS_NUMBER ∧ 1 ≤ 1 ∧ (∀ i, i < CAMERAS_NUMBER → sample_idle.render i = []) ∧
      sample_idle.flags &&& 1 = 0 ∧
      ∀ c, c ∈ [track_call.input_process 0 1, .redraw, .input_process 1 2, .input_process 0 5,
        .input_process 2 3, .redraw] → c.avoids 3) ∧
    ∃ app, run_track 1 sample_memory 1
        [.input_process 0 1, .redraw, .input_process 1 2, .input_process 0 5,
          .input_process 2 3, .redraw]
        (__app_sview_track sample_idle, sample_out, []) = some (.ok (app, sample_out, [])) ∧
      app.frames.testBit 3 = true ∧
      sview_pop_buffers 1 sample_memory app sample_out = .ok (0, app, sample_out) ∧
      (∀ i, i < CAMERAS_NUMBER → app.render i = delivered i
        [.input_process 0 1, .redraw, .input_process 1 2, .input_process 0 5,
          .input_process 2 3, .redraw]) ∧
      app.render 3 = [] ∧
      app.refs = sample_idle.refs ++ (delivered_all
        [.input_process 0 1, .redraw, .input_process 1 2, .input_process 0 5,
          .input_process 2 3, .redraw]).map gst_call.ref :=
  have h0 : ∀ i, i < CAMERAS_NUMBER → sample_idle.render i = [] := fun _ _ => rfl
  have hc : ∀ c, c ∈ [track_call.input_process 0 1, .redraw, .input_process 1 2,
      .input_process 0 5, .input_process 2 3, .redraw] → c.avoids 3 := by
    intro c hc
    simp only [List.mem_cons, List.mem_singleton, List.not_mem_nil, or_false] at hc
    rcases hc with rfl | rfl | rfl | rfl | rfl | rfl <;> simp [track_call.avoids, CAMERAS_NUMBER]
  ⟨⟨by decide, by decide, h0, by decide, hc⟩,
    missing_camera_stalls 1 sample_memory 1 3 _ sample_idle sample_out (by decide) (by decide)
      h0 (by decide) hc⟩

/-- C12: start a track with the four cameras (end-of-stream clear, the window
not being destroyed) and run 100 ticks, in each of which every camera
delivers one buffer through `sview_input_process`, in any order, and the
window thread then runs until it blocks. Every call returns and the scene
renderer has been invoked exactly once per tick, hence at least once and at
most 100 times; the invocation of a tick is made with the four low bitmask
bits zero and carries, for every camera, the buffer delivered in that tick
with its texture handle and first plane. Afterwards the queues are empty and
the four bits set again. -/
theorem hundred_ticks_render (APP_FLAG_EOS : Nat) (mem : Memory) (rf tf : Nat)
    (ticks : List (List (Nat × GstBuffer))) (app0 : app_data_t) (out0 : sview_out)
    (hrf : 2 ≤ rf) (htf : 3 ≤ tf) (hlen : ticks.length = 100)
    (hperm : ∀ tick, tick ∈ ticks → (tick.map Prod.fst).Perm (List.range CAMERAS_NUMBER))
    (h0 : ∀ i, i < CAMERAS_NUMBER → app0.render i = [])
    (heos : app0.flags &&& APP_FLAG_EOS = 0)
    (hT : app0.window.flags &&& WINDOW_FLAG_TERMINATE = 0) :
    ∃ app out scenes,
      run_ticks APP_FLAG_EOS mem rf tf ticks (__app_sview_track app0, out0, []) =
        some (.ok (app, out, scenes)) ∧
      scenes = ticks.map (tick_scene mem) ∧
      1 ≤ scenes.length ∧ scenes.length ≤ 100 ∧
      (∀ s, s ∈ scenes → s.frames &&& ((1 <<< CAMERAS_NUMBER) - 1) = 0 ∧
        s.buf.length = CAMERAS_NUMBER ∧ s.t.length = CAMERAS_NUMBER ∧
        s.planes.length = CAMERAS_NUMBER) ∧
      (∀ i, i < CAMERAS_NUMBER → app.render i = [] ∧ app.frames.testBit i = true) := by
  obtain ⟨app, out, g1, g2, g3⟩ := run_ticks_spec APP_FLAG_EOS mem rf tf hrf htf ticks
    (__app_sview_track app0) out0 [] heos rfl h0 ((and_one_shiftLeft_eq_zero _ 1).mp hT) hperm
  refine ⟨app, out, ticks.map (tick_scene mem), by simpa using g1, rfl, ?_, ?_, ?_, ?_⟩
  · rw [List.length_map, hlen]; decide
  · rw [List.length_map, hlen]
  · intro s hs
    simp only [List.mem_map] at hs
    obtain ⟨tick, _, rfl⟩ := hs
    simp [tick_scene]
  · intro i hi
    refine ⟨g3 i hi, ?_⟩
    rw [g2, testBit_fifteen]
    simpa using hi

/-- Witness for C12: a hundred ticks of fresh buffers, delivered in the camera
order 2, 0, 3, 1. -/
theorem hundred_ticks_render_witness :
    (2 ≤ 2 ∧ 3 ≤ 3 ∧ sample_ticks.length = 100 ∧
      (∀ tick, tick ∈ sample_ticks → (tick.map Prod.fst).Perm (List.range CAMERAS_NUMBER)) ∧
      (∀ i, i < CAMERAS_NUMBER → sample_idle.render i = []) ∧
      sample_idle.flags &&& 1 = 0 ∧
      sample_idle.window.flags &&& WINDOW_FLAG_TERMINATE = 0) ∧
    ∃ app out scenes,
      run_ticks 1 sample_memory 2 3 sample_ticks (__app_sview_track sample_idle, sample_out, []) =
        some (.ok (app, out, scenes)) ∧
      scenes = sample_ticks.map (tick_scene sample_memory) ∧
      1 ≤ scenes.length ∧ scenes.length ≤ 100 ∧
      (∀ s, s ∈ scenes → s.frames &&& ((1 <<< CAMERAS_NUMBER) - 1) = 0 ∧
        s.buf.length = CAMERAS_NUMBER ∧ s.t.length = CAMERAS_NUMBER ∧
        s.planes.length = CAMERAS_NUMBER) ∧
      (∀ i, i < CAMERAS_NUMBER → app.render i = [] ∧ app.frames.testBit i = true) :=
  have hlen : sample_ticks.length = 100 := by simp [sample_ticks]
  have hperm : ∀ tick, tick ∈ sample_ticks →
      (tick.map Prod.fst).Perm (List.range CAMERAS_NUMBER) := by
    intro tick ht
    simp only [sample_ticks, List.mem_map] at ht
    obtain ⟨k, _, rfl⟩ := ht
    show List.Perm [2, 0, 3, 1] (List.range CAMERAS_NUMBER)
    decide
  have h0 : ∀ i, i < CAMERAS_NUMBER → sample_idle.render i = [] := fun _ _ => rfl
  ⟨⟨by decide, by decide, hlen, hperm, h0, by decide, by decide⟩,
    hundred_ticks_render 1 sample_memory 2 3 sample_ticks sample_idle sample_out
      (by decide) (by decide) hlen hperm h0 (by decide) (by decide)⟩

/-- C13: for a transform `T` among 0, 90, 180, 270, any window size and any
point `(x, y)` with `int` coordinates, `window_translate_coordinates` with
`T` followed by `window_translate_coordinates` with `(360 - T) mod 360` on the
same window size gives `(x, y)` back. -/
theorem window_translate_coordinates_inverse (T : Nat) (w h x y : Int)
    (hT : T = 0 ∨ T = 90 ∨ T = 180 ∨ T = 270)
    (hx : -(2 ^ 31) ≤ x ∧ x < 2 ^ 31) (hy : -(2 ^ 31) ≤ y ∧ y < 2 ^ 31) :
    window_translate_coordinates ((360 - T) % 360) w h
      (window_translate_coordinates T w h x y).1 (window_translate_coordinates T w h x y).2 =
      (x, y) := by
  rcases hT with rfl | rfl | rfl | rfl
  · simp [window_translate_coordinates]
  · simp [window_translate_coordinates, to_s32_sub_sub w x hx]
  · simp [window_translate_coordinates, to_s32_sub_sub w x hx, to_s32_sub_sub h y hy]
  · simp [window_translate_coordinates, to_s32_sub_sub w y hy]

/-- Witness for C13: transform 90, window 1280 x 800, point (100, 30). -/
theorem window_translate_coordinates_inverse_witness :
    ((90 = 0 ∨ 90 = 90 ∨ 90 = 180 ∨ 90 = 270) ∧
      (-(2 ^ 31) ≤ (100 : Int) ∧ (100 : Int) < 2 ^ 31) ∧
      (-(2 ^ 31) ≤ (30 : Int) ∧ (30 : Int) < 2 ^ 31)) ∧
    window_translate_coordinates ((360 - 90) % 360) 1280 800
      (window_translate_coordinates 90 1280 800 100 30).1
      (window_translate_coordinates 90 1280 800 100 30).2 = (100, 30) :=
  ⟨⟨by decide, by decide, by decide⟩,
    window_translate_coordinates_inverse 90 1280 800 100 30 (by decide) (by decide) (by decide)⟩

/-- C14: `display_egl_ctx_get` called on a thread that already has a context
current aborts with the display unchanged (the lock is not taken, nothing is
rebound). Called with no context current and the display lock free, it takes
the lock and makes the shared context current on the calling thread only, and
`display_egl_ctx_put` then restores the binding of every thread and frees the
lock. While another thread holds the lock the call waits. -/
theorem display_egl_ctx_get_exclusive (self : Nat) (display : display_data_t) :
    (display.current self ≠ .none →
      display_egl_ctx_get self display = .abort display) ∧
    (display.current self = .none → display.lock = none →
      ∃ d, display_egl_ctx_get self display = .done d ∧
        d.lock = some self ∧ d.current self = .shared ∧
        (∀ t, t ≠ self → d.current t = display.current t) ∧
        d.calls = display.calls ++ [.mutex_lock self, .make_current self .shared] ∧
        (display_egl_ctx_put self d).current = display.current ∧
        (display_egl_ctx_put self d).lock = none ∧
        (display_egl_ctx_put self d).calls =
          d.calls ++ [.make_current self .none, .mutex_unlock self]) ∧
    (display.current self = .none → ∀ t, display.lock = some t →
      display_egl_ctx_get self display = .blocked) := by
  refine ⟨display_egl_ctx_get_bound self display, ?_, ?_⟩
  · intro h hl
    refine ⟨_, display_egl_ctx_get_free self display h hl, rfl, ?_, ?_, rfl, ?_, rfl, rfl⟩
    · simp
    · intro t ht
      simp [Function.update_noteq ht]
    · exact update_update_none display.current self .shared h
  · intro h t hl
    exact display_egl_ctx_get_held self t display h hl

/-- Witness for C14: thread 1 with the context of window 7 current aborts;
thread 1 with nothing current and the lock free acquires and restores; thread 1
waits while thread 2 holds the lock. -/
theorem display_egl_ctx_get_exclusive_witness :
    display_egl_ctx_get 1 sample_display_bound = .abort sample_display_bound ∧
    (∃ d, display_egl_ctx_get 1 sample_display = .done d ∧
        d.lock = some 1 ∧ d.current 1 = .shared ∧
        (∀ t, t ≠ 1 → d.current t = sample_display.current t) ∧
        d.calls = sample_display.calls ++ [.mutex_lock 1, .make_current 1 .shared] ∧
        (display_egl_ctx_put 1 d).current = sample_display.current ∧
        (display_egl_ctx_put 1 d).lock = none ∧
        (display_egl_ctx_put 1 d).calls =
          d.calls ++ [.make_current 1 .none, .mutex_unlock 1]) ∧
    display_egl_ctx_get 1 sample_display_held = .blocked :=
  ⟨(display_egl_ctx_get_exclusive 1 sample_display_bound).1 (by decide),
   (display_egl_ctx_get_exclusive 1 sample_display).2.1 rfl rfl,
   (display_egl_ctx_get_exclusive 1 sample_display_held).2.2 rfl 2 rfl⟩

/-- C16: with end-of-stream clear and the four low bitmask bits zero,
`sview_pop_buffers` aborts whenever some camera queue is empty;
`sview_release_buffers` aborts whenever some camera queue is empty or its head
is not the buffer passed for that camera; and from a state that satisfies the
bitmask/queue invariant `sview_redraw` never ends in an abort, however long it
is run. -/
theorem sview_inconsistent_state_aborts (APP_FLAG_EOS : Nat) (mem : Memory) (app : app_data_t)
    (out : sview_out) (buffers : Nat → GstBuffer) (scenes : List scene_call) :
    (app.flags &&& APP_FLAG_EOS = 0 →
      (∀ i, i < CAMERAS_NUMBER → app.frames.testBit i = false) →
      (∃ i, i < CAMERAS_NUMBER ∧ app.render i = []) →
      sview_pop_buffers APP_FLAG_EOS mem app out = .error .abort) ∧
    ((∃ i, i < CAMERAS_NUMBER ∧ (app.render i = [] ∨ (app.render i).head? ≠ some (buffers i))) →
      sview_release_buffers app buffers = .error .abort) ∧
    (frames_invariant app →
      ∀ fuel e, sview_redraw APP_FLAG_EOS mem fuel (app, out, scenes) ≠ some (.error e)) := by
  refine ⟨?_, ?_, ?_⟩
  · intro heos hbits ⟨i, hi, he⟩
    have hz := (low_bits_zero_iff app.frames CAMERAS_NUMBER).mpr hbits
    have hc := collect_loop_abort mem CAMERAS_NUMBER 0 (app, out, 0)
      ⟨i, Nat.zero_le i, by omega, he⟩
    simp [sview_pop_buffers, heos, hz, hc]
  · rintro ⟨i, hi, he⟩
    apply release_loop_abort
    refine ⟨i, Nat.zero_le i, by omega, ?_⟩
    rcases he with he | he
    · simp [he]
    · exact he
  · intro hinv fuel e
    exact sview_redraw_no_fault APP_FLAG_EOS mem fuel app out scenes hinv e

/-- Witness for C16: queue 2 is empty while the bitmask is zero. -/
theorem sview_inconsistent_state_aborts_witness :
    (sample_gap.flags &&& 1 = 0 ∧
      (∀ i, i < CAMERAS_NUMBER → sample_gap.frames.testBit i = false) ∧
      (∃ i, i < CAMERAS_NUMBER ∧ sample_gap.render i = [])) ∧
    sview_pop_buffers 1 sample_memory sample_gap sample_out = .error .abort ∧
    sview_release_buffers sample_gap (fun i => i + 1) = .error .abort :=
  have h1 : sample_gap.flags &&& 1 = 0 := by decide
  have h2 : ∀ i, i < CAMERAS_NUMBER → sample_gap.frames.testBit i = false := by
    intro i _; simp [sample_gap]
  have h3 : ∃ i, i < CAMERAS_NUMBER ∧ sample_gap.render i = [] := ⟨2, by decide, rfl⟩
  ⟨⟨h1, h2, h3⟩,
    (sview_inconsistent_state_aborts 1 sample_memory sample_gap sample_out
      (fun i => i + 1) []).1 h1 h2 h3,
    (sview_inconsistent_state_aborts 1 sample_memory sample_gap sample_out
      (fun i => i + 1) []).2.1 ⟨2, by decide, Or.inl rfl⟩⟩

/-- C17: when the focus widget of the device has an event hook, each of
`pointer_handle_motion`, `pointer_handle_button`, `pointer_handle_axis`,
`touch_handle_down` (focus: the touch focus, or the root widget of the window
of the surface when there is none), `touch_handle_motion`, `touch_handle_up`,
`keyboard_handle_key` and `keyboard_handle_modifiers` calls the hook exactly
once, with the widget, its client data and the event built from the arguments,
and stores the value the hook returns as the focus of that device; a return of
0 (`NULL`) therefore leaves the device without focus. -/
theorem input_handlers_store_hook_result {σ : Type} (user_data window_surface : Nat → Nat)
    (widgets : Nat → widget_data_t σ) (st : input_state σ) (focus : Nat)
    (info : widget_info_t σ) (hook : Nat → Nat → widget_event_t → σ → Nat × σ)
    (hf : focus ≠ 0) (hinfo : (widgets focus).info = some info) (hev : info.event = some hook) :
    (st.input.pointer_focus = focus →
      (∀ sx_w sy_w : Int,
        hook_ran widgets hook focus (.mouse_move (wl_fixed_to_int sx_w) (wl_fixed_to_int sy_w))
          st (pointer_handle_motion widgets st sx_w sy_w)
          (pointer_handle_motion widgets st sx_w sy_w).input.pointer_focus) ∧
      (∀ button state : Nat,
        hook_ran widgets hook focus
          (.mouse_button st.input.pointer_x st.input.pointer_y button
            (if state = WL_POINTER_BUTTON_STATE_PRESSED then 1 else 0))
          st (pointer_handle_button widgets st button state)
          (pointer_handle_button widgets st button state).input.pointer_focus) ∧
      (∀ (axis : Nat) (value : Int),
        hook_ran widgets hook focus
          (.mouse_axis st.input.pointer_x st.input.pointer_y axis (wl_fixed_to_int value))
          st (pointer_handle_axis widgets st axis value)
          (pointer_handle_axis widgets st axis value).input.pointer_focus)) ∧
    (∀ surface : Nat, __window_lookup user_data window_surface surface ≠ 0 →
      (if st.input.touch_focus ≠ 0 then st.input.touch_focus
        else __window_lookup user_data window_surface surface) = focus →
      ∀ id x_w y_w : Int,
        hook_ran widgets hook focus
          (.touch_down (wl_fixed_to_int x_w) (wl_fixed_to_int y_w) id)
          st (touch_handle_down user_data window_surface widgets st surface id x_w y_w)
          (touch_handle_down user_data window_surface widgets st surface id x_w
            y_w).input.touch_focus) ∧
    (st.input.touch_focus = focus →
      (∀ id x_w y_w : Int,
        hook_ran widgets hook focus
          (.touch_move (wl_fixed_to_int x_w) (wl_fixed_to_int y_w) id)
          st (touch_handle_motion widgets st id x_w y_w)
          (touch_handle_motion widgets st id x_w y_w).input.touch_focus) ∧
      (∀ id : Int,
        hook_ran widgets hook focus (.touch_up id)
          st (touch_handle_up widgets st id)
          (touch_handle_up widgets st id).input.touch_focus)) ∧
    (st.input.keyboard_focus = focus →
      (∀ key state : Nat,
        hook_ran widgets hook focus
          (.key_press key (if state = WL_KEYBOARD_KEY_STATE_PRESSED then 1 else 0))
          st (keyboard_handle_key widgets st key state)
          (keyboard_handle_key widgets st key state).input.keyboard_focus) ∧
      (∀ mods_depressed mods_latched mods_locked : Nat,
        hook_ran widgets hook focus (.key_mods mods_latched mods_depressed mods_locked)
          st (keyboard_handle_modifiers widgets st mods_depressed mods_latched mods_locked)
          (keyboard_handle_modifiers widgets st mods_depressed mods_latched
            mods_locked).input.keyboard_focus)) := by
  have hp := widget_pass_event_hook widgets focus info hook hinfo hev
  refine ⟨?_, ?_, ?_, ?_⟩
  · intro h
    refine ⟨?_, ?_, ?_⟩
    · intro sx_w sy_w
      simp only [pointer_handle_motion, h, hf, if_false, hp]
      exact ⟨rfl, rfl, rfl⟩
    · intro button state
      simp only [pointer_handle_button, h, hf, if_false, hp]
      exact ⟨rfl, rfl, rfl⟩
    · intro axis value
      simp only [pointer_handle_axis, h, hf, if_false, hp]
      exact ⟨rfl, rfl, rfl⟩
  · intro surface hw hfocus id x_w y_w
    simp only [touch_handle_down, hw, if_false, hfocus, hp]
    exact ⟨rfl, rfl, rfl⟩
  · intro h
    refine ⟨?_, ?_⟩
    · intro id x_w y_w
      simp only [touch_handle_motion, h, hf, if_false, hp]
      exact ⟨rfl, rfl, rfl⟩
    · intro id
      simp only [touch_handle_up, h, hf, if_false, hp]
      exact ⟨rfl, rfl, rfl⟩
  · intro h
    refine ⟨?_, ?_⟩
    · intro key state
      simp only [keyboard_handle_key, h, hf, if_false, hp]
      exact ⟨rfl, rfl, rfl⟩
    · intro mods_depressed mods_latched mods_locked
      simp only [keyboard_handle_modifiers, h, hf, if_false, hp]
      exact ⟨rfl, rfl, rfl⟩

/-- Witness for C17: with every device focused on widget 5, whose hook is
`sample_hook`, each handler runs the hook once; a touch release makes the hook
return 0 and the touch focus becomes 0. -/
theorem input_handlers_store_hook_result_witness :
    hook_ran sample_widgets sample_hook 5 (.mouse_move 3 4) sample_input
      (pointer_handle_motion sample_widgets sample_input 768 1024)
      (pointer_handle_motion sample_widgets sample_input 768 1024).input.pointer_focus ∧
    hook_ran sample_widgets sample_hook 5 (.mouse_button 10 20 272 1) sample_input
      (pointer_handle_button sample_widgets sample_input 272 1)
      (pointer_handle_button sample_widgets sample_input 272 1).input.pointer_focus ∧
    hook_ran sample_widgets sample_hook 5 (.mouse_axis 10 20 0 2) sample_input
      (pointer_handle_axis sample_widgets sample_input 0 512)
      (pointer_handle_axis sample_widgets sample_input 0 512).input.pointer_focus ∧
    hook_ran sample_widgets sample_hook 5 (.touch_down 3 4 1) sample_input
      (touch_handle_down sample_user_data sample_surface sample_widgets sample_input 77 1 768
        1024)
      (touch_handle_down sample_user_data sample_surface sample_widgets sample_input 77 1 768
        1024).input.touch_focus ∧
    hook_ran sample_widgets sample_hook 5 (.touch_move 3 4 1) sample_input
      (touch_handle_motion sample_widgets sample_input 1 768 1024)
      (touch_handle_motion sample_widgets sample_input 1 768 1024).input.touch_focus ∧
    hook_ran sample_widgets sample_hook 5 (.touch_up 1) sample_input
      (touch_handle_up sample_widgets sample_input 1)
      (touch_handle_up sample_widgets sample_input 1).input.touch_focus ∧
    (touch_handle_up sample_widgets sample_input 1).input.touch_focus = 0 ∧
    hook_ran sample_widgets sample_hook 5 (.key_press 30 1) sample_input
      (keyboard_handle_key sample_widgets sample_input 30 1)
      (keyboard_handle_key sample_widgets sample_input 30 1).input.keyboard_focus ∧
    hook_ran sample_widgets sample_hook 5 (.key_mods 2 1 4) sample_input
      (keyboard_handle_modifiers sample_widgets sample_input 1 2 4)
      (keyboard_handle_modifiers sample_widgets sample_input 1 2 4).input.keyboard_focus :=
  have key := input_handlers_store_hook_result sample_user_data sample_surface sample_widgets
    sample_input 5
    { event := some sample_hook } sample_hook (by decide) rfl rfl
  have pointer := key.1 rfl
  have down := key.2.1 77 (by decide) rfl 1 768 1024
  have touch := key.2.2.1 rfl
  have keyboard := key.2.2.2 rfl
  ⟨pointer.1 768 1024, pointer.2.1 272 1, pointer.2.2 0 512, down, touch.1 1 768 1024,
   touch.2 1, (touch.2 1).1, keyboard.1 30 1, keyboard.2 1 2 4⟩

/-- C18: called on a thread with no context current while the display lock is
free, `sview_input_alloc` returns. Whenever it returns, the status is 0 exactly
when the buffer is 1280x800 and the texture was created (format mapped,
`malloc` succeeded); on status 0 `__destroy_sv_texture` has been registered on
the buffer once more than before and the buffer's metadata holds the new
texture, created under the shared context; on any other status the value is
negative and neither the registrations nor the display have changed. After a
successful allocation of a buffer that carried no registration, destroying
the buffer runs exactly one `texture_destroy`, on the texture in its metadata,
and leaves the registrations as before the allocation. -/
theorem sview_input_alloc_registers (K : pixel_formats) (self malloc_result : Nat) (errno : Int)
    (s : camera_buffers) (buffer : GstBuffer) :
    (s.display.current self = .none → s.display.lock = none →
      ∃ r e s', sview_input_alloc K self malloc_result errno s buffer = .done (r, e, s')) ∧
    (∀ r e s', sview_input_alloc K self malloc_result errno s buffer = .done (r, e, s') →
      (r = 0 ↔ ((s.vsink_meta buffer).width = 1280 ∧ (s.vsink_meta buffer).height = 800 ∧
        __pixfmt_gst_to_egl K (s.vsink_meta buffer).format ≠ 0 ∧ malloc_result ≠ 0)) ∧
      (r = 0 →
        s'.weak_refs = s.weak_refs ++ [buffer] ∧
        (s'.vsink_meta buffer).priv = malloc_result ∧
        ran_shared self (.texture_create malloc_result) s.display s'.display) ∧
      (r ≠ 0 → r < 0 ∧ s'.weak_refs = s.weak_refs ∧ s'.display = s.display) ∧
      (r = 0 → buffer ∉ s.weak_refs → ∀ t,
        buffer_destroyed t buffer s' =
          match texture_destroy t malloc_result s'.display with
          | .abort d => .abort d
          | .blocked => .blocked
          | .done d =>
            .done { vsink_meta := s'.vsink_meta, weak_refs := s.weak_refs, display := d }) ∧
      (r = 0 → buffer ∉ s.weak_refs → ∀ t, s.display.current t = .none →
        ∃ s'', buffer_destroyed t buffer s' = .done s'' ∧ s''.weak_refs = s.weak_refs ∧
          ran_shared t (.texture_destroy malloc_result) s'.display s''.display)) := by
  by_cases hdim : (s.vsink_meta buffer).width = 1280 ∧ (s.vsink_meta buffer).height = 800
  swap
  · have hsz := sview_input_alloc_size K self malloc_result errno s buffer hdim
    refine ⟨fun _ _ => ⟨_, _, _, hsz⟩, ?_⟩
    intro r e s' h
    rw [hsz] at h
    injection h with h
    injection h with hr h
    injection h with he hs
    subst hr; subst hs
    have hneg : -EINVAL ≠ 0 := by decide
    refine ⟨?_, fun h0 => absurd h0 hneg, fun _ => ⟨by decide, rfl, rfl⟩,
      fun h0 => absurd h0 hneg, fun h0 => absurd h0 hneg⟩
    constructor
    · intro h0; exact absurd h0 hneg
    · intro h1; exact absurd ⟨h1.1, h1.2.1⟩ hdim
  by_cases hnull : __pixfmt_gst_to_egl K (s.vsink_meta buffer).format = 0 ∨ malloc_result = 0
  · obtain ⟨e0, hres, he0⟩ := sview_input_alloc_null K self malloc_result errno s buffer hdim hnull
    refine ⟨fun _ _ => ⟨_, _, _, hres⟩, ?_⟩
    intro r e s' h
    rw [hres] at h
    injection h with h
    injection h with hr h
    injection h with he hs
    subst hr; subst hs
    have hpos : 0 < e0 := by
      rcases he0 with h1 | h1 <;> rw [h1] <;> decide
    have hneg : -e0 ≠ 0 := by omega
    refine ⟨?_, fun h0 => absurd h0 hneg, fun _ => ⟨by omega, rfl, rfl⟩,
      fun h0 => absurd h0 hneg, fun h0 => absurd h0 hneg⟩
    constructor
    · intro h0; exact absurd h0 hneg
    · intro h1
      rcases hnull with h2 | h2
      · exact absurd h2 h1.2.2.1
      · exact absurd h2 h1.2.2.2
  have hf : __pixfmt_gst_to_egl K (s.vsink_meta buffer).format ≠ 0 := fun h => hnull (Or.inl h)
  have hm : malloc_result ≠ 0 := fun h => hnull (Or.inr h)
  by_cases hfree : s.display.current self = .none ∧ s.display.lock = none
  swap
  · refine ⟨fun hc hl => absurd ⟨hc, hl⟩ hfree, ?_⟩
    intro r e s' h
    exact absurd h (sview_input_alloc_busy K self malloc_result errno s buffer hdim hf hm hfree
      r e s')
  obtain ⟨s1, hres, hrefs, hpriv, hran⟩ :=
    sview_input_alloc_ok K self malloc_result errno s buffer hdim hf hm hfree.1 hfree.2
  refine ⟨fun _ _ => ⟨_, _, _, hres⟩, ?_⟩
  intro r e s' h
  rw [hres] at h
  injection h with h
  injection h with hr h
  injection h with he hs
  subst hr; subst hs
  refine ⟨⟨fun _ => ⟨hdim.1, hdim.2, hf, hm⟩, fun _ => rfl⟩, fun _ => ⟨hrefs, hpriv, hran⟩,
    fun h0 => absurd rfl h0, ?_, ?_⟩
  · intro _ hnot t
    have := buffer_destroyed_one t buffer s1 s.weak_refs hnot hrefs
    rw [hpriv] at this
    exact this
  · intro _ hnot t ht
    have hone := buffer_destroyed_one t buffer s1 s.weak_refs hnot hrefs
    rw [hpriv] at hone
    obtain ⟨d, hd, hdran⟩ := texture_destroy_done t malloc_result s1.display
      (by rw [hran.1]; exact ht) (by rw [hran.2.1]; exact hfree.2)
    rw [hd] at hone
    exact ⟨_, hone, rfl, hdran⟩

/-- Witness for C18: thread 1 allocates the 1280x800 buffer 3 with texture 40:
status 0, one registration, and destroying the buffer on thread 2 destroys
texture 40 under the shared context; the 640x480 buffer 4 is refused with
`-EINVAL` and no registration. -/
theorem sview_input_alloc_registers_witness :
    (∃ s', sview_input_alloc sample_formats 1 40 0 sample_buffers 3 = .done (0, 0, s') ∧
      s'.weak_refs = [3] ∧ (s'.vsink_meta 3).priv = 40 ∧
      ∃ s'', buffer_destroyed 2 3 s' = .done s'' ∧ s''.weak_refs = [] ∧
        ran_shared 2 (.texture_destroy 40) s'.display s''.display) ∧
    (∃ e s', sview_input_alloc sample_formats 1 40 0 sample_buffers 4 = .done (-22, e, s') ∧
      s'.weak_refs = []) := by
  constructor
  · have key := sview_input_alloc_registers sample_formats 1 40 0 sample_buffers 3
    obtain ⟨r, e, s', h⟩ := key.1 rfl rfl
    have p := key.2 r e s' h
    have hr : r = 0 := p.1.mpr ⟨rfl, rfl, by decide, by decide⟩
    have he : e = 0 := by
      have h2 : sview_input_alloc sample_formats 1 40 0 sample_buffers 3 = .done (0, 0, _) := rfl
      rw [h2] at h
      injection h with h
      injection h with _ h
      injection h with h _
      exact h.symm
    subst hr; subst he
    exact ⟨s', h, (p.2.1 rfl).1, (p.2.1 rfl).2.1,
      p.2.2.2.2 rfl (by simp [sample_buffers]) 2 rfl⟩
  · have key := sview_input_alloc_registers sample_formats 1 40 0 sample_buffers 4
    obtain ⟨r, e, s', h⟩ := key.1 rfl rfl
    have p := key.2 r e s' h
    have hr : r = -22 := by
      have h2 : sview_input_alloc sample_formats 1 40 0 sample_buffers 4 =
          .done (-22, 0, sample_buffers) := rfl
      rw [h2] at h
      injection h with h
      injection h with h _
      exact h.symm
    subst hr
    exact ⟨e, s', h, (p.2.2.1 (by decide)).2.1⟩

/-- C19, as the code has it: whenever `sview_pop_buffers` returns non-zero and
the sum of the four delivered decode timestamps is below `2 ^ 63`, the scene
timestamp is not before the earliest and not after the latest of them: some
delivered buffer has its decode timestamp at or before `*ts`, and some has it
at or after `*ts`. -/
theorem sview_pop_buffers_timestamp_between (APP_FLAG_EOS : Nat) (mem : Memory)
    (app app' : app_data_t) (out out' : sview_out) (ready : Int)
    (h : sview_pop_buffers APP_FLAG_EOS mem app out = .ok (ready, app', out')) (hr : ready ≠ 0)
    (hlt : (mem.dts (out'.buf 0) : Int) + mem.dts (out'.buf 1) + mem.dts (out'.buf 2) +
      mem.dts (out'.buf 3) < 2 ^ 63) :
    (∃ i, i < CAMERAS_NUMBER ∧ (mem.dts (out'.buf i) : Int) ≤ out'.ts) ∧
    (∃ i, i < CAMERAS_NUMBER ∧ out'.ts ≤ (mem.dts (out'.buf i) : Int)) ∧
    (∀ lo hi : Int, (∀ i, i < CAMERAS_NUMBER → lo ≤ mem.dts (out'.buf i)) →
      (∀ i, i < CAMERAS_NUMBER → (mem.dts (out'.buf i) : Int) ≤ hi) →
      lo ≤ out'.ts ∧ out'.ts ≤ hi) := by
  obtain ⟨h1, h2⟩ := sview_pop_buffers_ts APP_FLAG_EOS mem app app' out out' ready h hr hlt
  refine ⟨?_, ?_, ?_⟩
  · by_contra hc
    have g : ∀ i, i < CAMERAS_NUMBER → out'.ts < (mem.dts (out'.buf i) : Int) := by
      intro i hi
      by_contra hn
      exact hc ⟨i, hi, by omega⟩
    have g0 := g 0 (by decide)
    have g1 := g 1 (by decide)
    have g2 := g 2 (by decide)
    have g3 := g 3 (by decide)
    omega
  · by_contra hc
    have g : ∀ i, i < CAMERAS_NUMBER → (mem.dts (out'.buf i) : Int) < out'.ts := by
      intro i hi
      by_contra hn
      exact hc ⟨i, hi, by omega⟩
    have g0 := g 0 (by decide)
    have g1 := g 1 (by decide)
    have g2 := g 2 (by decide)
    have g3 := g 3 (by decide)
    omega
  · intro lo hi hlo hhi
    have a0 := hlo 0 (by decide)
    have a1 := hlo 1 (by decide)
    have a2 := hlo 2 (by decide)
    have a3 := hlo 3 (by decide)
    have b0 := hhi 0 (by decide)
    have b1 := hhi 1 (by decide)
    have b2 := hhi 2 (by decide)
    have b3 := hhi 3 (by decide)
    constructor <;> omega

/-- Witness for C19: one buffer per camera, timestamps 1, 2, 3, 4. -/
theorem sview_pop_buffers_timestamp_between_witness :
    ∃ app' out',
      (sview_pop_buffers 1 sample_memory sample_single sample_out = .ok (1, app', out') ∧
        (1 : Int) ≠ 0 ∧
        (sample_memory.dts (out'.buf 0) : Int) + sample_memory.dts (out'.buf 1) +
          sample_memory.dts (out'.buf 2) + sample_memory.dts (out'.buf 3) < 2 ^ 63) ∧
      (∃ i, i < CAMERAS_NUMBER ∧ (sample_memory.dts (out'.buf i) : Int) ≤ out'.ts) ∧
      (∃ i, i < CAMERAS_NUMBER ∧ out'.ts ≤ (sample_memory.dts (out'.buf i) : Int)) :=
  have h := sview_pop_buffers_ready 1 sample_memory sample_single sample_out (by decide) (by decide)
    (by intro i _; simp [sample_single])
  have hlt : (sample_memory.dts ((collect_result sample_memory CAMERAS_NUMBER 0
        (sample_single, sample_out, 0)).2.1.buf 0) : Int) +
      sample_memory.dts ((collect_result sample_memory CAMERAS_NUMBER 0
        (sample_single, sample_out, 0)).2.1.buf 1) +
      sample_memory.dts ((collect_result sample_memory CAMERAS_NUMBER 0
        (sample_single, sample_out, 0)).2.1.buf 2) +
      sample_memory.dts ((collect_result sample_memory CAMERAS_NUMBER 0
        (sample_single, sample_out, 0)).2.1.buf 3) < 2 ^ 63 := by decide
  ⟨_, _, ⟨h, by decide, hlt⟩,
    (sview_pop_buffers_timestamp_between 1 sample_memory sample_single _ sample_out _ 1 h
      (by decide) hlt).1,
    (sview_pop_buffers_timestamp_between 1 sample_memory sample_single _ sample_out _ 1 h
      (by decide) hlt).2.1⟩

/-- C19 as stated fails: with one buffer per camera and decode timestamps
1, 2, 3, 4 `sview_pop_buffers` returns 1 and writes the timestamp 2, while the
buffers delivered for cameras 2 and 3 have the decode timestamps 3 and 4. -/
theorem sview_pop_buffers_later_counterexample :
    ∃ app' out', sview_pop_buffers 1 sample_memory sample_single sample_out = .ok (1, app', out') ∧
      out'.ts = 2 ∧ sample_memory.dts (out'.buf 2) = 3 ∧ sample_memory.dts (out'.buf 3) = 4 ∧
      ¬ ((sample_memory.dts (out'.buf 2) : Int) ≤ out'.ts) :=
  ⟨_, _, rfl, rfl, rfl, rfl, by decide⟩

/-- C20: from a state that satisfies the bitmask/queue invariant, with no
buffer pushed meanwhile, `sview_redraw` returns, given as many evaluations of
its loop condition as there are buffers in queue 0, plus one. What it has done
by then is a sequence of passes, each a `sview_pop_buffers` that returned 1,
the rendering of the scene that pop delivered, and the `sview_release_buffers`
of the popped buffers, up to the first `sview_pop_buffers` that returned 0:
the state and output arguments it returns are those this last pop left, and
the scenes rendered are those of the passes, in order. There is at least one
pass when the state is ready at the start (end-of-stream clear, the four low
bits zero) and at most one per buffer queue 0 held, and a further
`sview_pop_buffers` on the state returned reports not-ready. -/
theorem sview_redraw_terminates (APP_FLAG_EOS : Nat) (mem : Memory) (app : app_data_t)
    (out : sview_out) (scenes : List scene_call) (hinv : frames_invariant app) :
    ∀ fuel, (app.render 0).length + 1 ≤ fuel → ∃ passes app' out',
      sview_redraw APP_FLAG_EOS mem fuel (app, out, scenes) =
        some (.ok (app', out', scenes ++ passes.map (fun p => scene_of p.1 p.2.1))) ∧
      redraw_passes APP_FLAG_EOS mem passes (app, out) (app', out') ∧
      passes.length ≤ (app.render 0).length ∧
      (app.flags &&& APP_FLAG_EOS = 0 → app.frames &&& ((1 <<< CAMERAS_NUMBER) - 1) = 0 →
        passes ≠ []) ∧
      (∃ a, sview_pop_buffers APP_FLAG_EOS mem app' out' = .ok (0, a, out')) := by
  intro fuel hfuel
  obtain ⟨passes, app', out', g1, g2, g3, g4⟩ :=
    sview_redraw_passes APP_FLAG_EOS mem (app.render 0).length app out scenes hinv (le_refl _)
      fuel hfuel
  refine ⟨passes, app', out', g1, g2, g3, ?_, g4⟩
  intro heos hz hnil
  subst hnil
  have hq : ∀ i, i < CAMERAS_NUMBER → app.render i ≠ [] :=
    fun i hi => (hinv i hi).mp ((low_bits_zero_iff app.frames CAMERAS_NUMBER).mp hz i hi)
  have hready := sview_pop_buffers_ready APP_FLAG_EOS mem app out heos hz hq
  have hzero : sview_pop_buffers APP_FLAG_EOS mem app out = .ok (0, app', out') := g2
  rw [hready] at hzero
  injection hzero with hzero
  injection hzero with hzero _
  exact absurd hzero (by decide)

/-- Witness for C20: the backlog state, two buffers per camera; the run makes
a pass. -/
theorem sview_redraw_terminates_witness :
    frames_invariant sample_backlog ∧
    ∃ passes app' out',
      sview_redraw 1 sample_memory 3 (sample_backlog, sample_out, []) =
        some (.ok (app', out', [] ++ passes.map (fun p => scene_of p.1 p.2.1))) ∧
      redraw_passes 1 sample_memory passes (sample_backlog, sample_out) (app', out') ∧
      passes ≠ [] ∧
      (∃ a, sview_pop_buffers 1 sample_memory app' out' = .ok (0, a, out')) :=
  have h : frames_invariant sample_backlog := by
    intro i _; simp [sample_backlog]
  match sview_redraw_terminates 1 sample_memory sample_backlog sample_out [] h 3 (by decide) with
  | ⟨passes, app', out', g1, g2, _, g4, g5⟩ =>
    ⟨h, passes, app', out', g1, g2, g4 (by decide) (by decide), g5⟩

/-! ## Lemmas on deliveries -/

theorem push_keeps_invariant (app : app_data_t) (k : Nat) (buffer : GstBuffer)
    (hk : k < CAMERAS_NUMBER) (hinv : frames_invariant app) (j : Nat) (_hj : j < CAMERAS_NUMBER) :
    (app.frames &&& not32 (1 <<< k)).testBit j = false ↔
      Function.update app.render k (app.render k ++ [buffer]) j ≠ [] := by
  have hj32 : j < 32 := camera_lt_32 j _hj
  rw [testBit_clear app.frames k j (camera_lt_32 k hk)]
  by_cases hjk : j = k
  · subst hjk
    simp
  · have := hinv j _hj
    simp only [Function.update_noteq hjk, hj32, hjk, decide_True, Bool.and_true, ne_eq,
      not_false_eq_true]
    exact this

/-! ## Lemmas on end-of-stream -/

theorem sview_pop_buffers_eos (APP_FLAG_EOS : Nat) (mem : Memory) (app : app_data_t)
    (out : sview_out) (heos : app.flags &&& APP_FLAG_EOS ≠ 0) :
    sview_pop_buffers APP_FLAG_EOS mem app out =
      .ok (0, purge_result CAMERAS_NUMBER 0 app, out) := by
  simp [sview_pop_buffers, heos, purge_loop_eq]

theorem sview_redraw_eos (APP_FLAG_EOS : Nat) (mem : Memory) (f : Nat) (app : app_data_t)
    (out : sview_out) (scenes : List scene_call) (heos : app.flags &&& APP_FLAG_EOS ≠ 0) :
    sview_redraw APP_FLAG_EOS mem (f + 1) (app, out, scenes) =
      some (.ok (purge_result CAMERAS_NUMBER 0 app, out, scenes)) := by
  simp [sview_redraw, sview_pop_buffers_eos APP_FLAG_EOS mem app out heos]

theorem purge_result_refs_of_empty (app : app_data_t)
    (h : ∀ i, i < CAMERAS_NUMBER → app.render i = []) :
    (purge_result CAMERAS_NUMBER 0 app).refs = app.refs := by
  have : (List.range' 0 CAMERAS_NUMBER).flatMap (fun j => (app.render j).map gst_call.unref) =
      [] := by
    simp only [CAMERAS_NUMBER, List.range', List.flatMap_cons, List.flatMap_nil,
      h 0 (by decide), h 1 (by decide), h 2 (by decide), h 3 (by decide), List.map_nil,
      List.append_nil]
  simp only [purge_result, this, List.append_nil]

theorem run_track_eos (APP_FLAG_EOS : Nat) (mem : Memory) (fuel : Nat) (hfuel : 1 ≤ fuel)
    (calls : List track_call) :
    ∀ (app : app_data_t) (out : sview_out) (scenes : List scene_call),
      app.flags &&& APP_FLAG_EOS ≠ 0 →
      (∀ i, i < CAMERAS_NUMBER → app.render i = []) →
      (∀ i buffer, track_call.input_process i buffer ∈ calls → i < CAMERAS_NUMBER) →
      ∃ app', run_track APP_FLAG_EOS mem fuel calls (app, out, scenes) =
          some (.ok (app', out, scenes)) ∧
        (∀ i, i < CAMERAS_NUMBER → app'.render i = []) ∧
        app'.flags = app.flags ∧ app'.frames = app.frames ∧ app'.refs = app.refs ∧
        app'.window = app.window := by
  induction calls with
  | nil =>
    intro app out scenes _ h0 _
    exact ⟨app, rfl, h0, rfl, rfl, rfl, rfl⟩
  | cons c cs ih =>
    intro app out scenes heos h0 hin
    have hin' : ∀ i buffer, track_call.input_process i buffer ∈ cs → i < CAMERAS_NUMBER :=
      fun i buffer hm => hin i buffer (List.mem_cons_of_mem _ hm)
    cases c with
    | input_process i buffer =>
      have hi := hin i buffer (List.mem_cons_self _ _)
      obtain ⟨app', g1, g2⟩ := ih app out scenes heos h0 hin'
      refine ⟨app', ?_, g2⟩
      simp only [run_track, sview_input_process_eos APP_FLAG_EOS app i buffer hi heos]
      exact g1
    | redraw =>
      obtain ⟨f, rfl⟩ : ∃ f, fuel = f + 1 := ⟨fuel - 1, by omega⟩
      have hr := sview_redraw_eos APP_FLAG_EOS mem f app out scenes heos
      have h0' : ∀ i, i < CAMERAS_NUMBER → (purge_result CAMERAS_NUMBER 0 app).render i = [] := by
        intro i hi
        simp [purge_result, hi]
      obtain ⟨app', g1, g2, g3, g4, g5, g6⟩ :=
        ih (purge_result CAMERAS_NUMBER 0 app) out scenes heos h0' hin'
      refine ⟨app', ?_, g2, g3, g4, ?_, g6⟩
      · simp only [run_track, hr]
        exact g1
      · rw [g5]
        exact purge_result_refs_of_empty app h0

/-! ## Lemmas on a backlog -/

theorem sview_pop_release_refs (APP_FLAG_EOS : Nat) (mem : Memory) (app : app_data_t)
    (out : sview_out)
    (heos : app.flags &&& APP_FLAG_EOS = 0)
    (hz : app.frames &&& ((1 <<< CAMERAS_NUMBER) - 1) = 0)
    (hq : ∀ i, i < CAMERAS_NUMBER → app.render i ≠ []) :
    ∃ appP outP appR,
      sview_pop_buffers APP_FLAG_EOS mem app out = .ok (1, appP, outP) ∧
      sview_release_buffers appP outP.buf = .ok appR ∧
      appR.refs = app.refs ++
        (List.range' 0 CAMERAS_NUMBER).flatMap
          (fun j => (queue_dropped (app.render j)).map gst_call.unref) ++
        (List.range' 0 CAMERAS_NUMBER).map (fun j => gst_call.unref (queue_tail (app.render j))) := by
  have hpop := sview_pop_buffers_ready APP_FLAG_EOS mem app out heos hz hq
  have hheads : ∀ j, 0 ≤ j → j < 0 + CAMERAS_NUMBER →
      ((collect_result mem CAMERAS_NUMBER 0 (app, out, 0)).1.render j).head? =
        some ((collect_result mem CAMERAS_NUMBER 0 (app, out, 0)).2.1.buf j) := by
    intro j _ hj
    have hj' : j < CAMERAS_NUMBER := by omega
    simp only [collect_result, Nat.zero_le, Nat.zero_add, hj', and_self, if_true]
    exact queue_kept_head _ (hq j hj')
  obtain ⟨appR, h1, _, _, _, h5, _⟩ := release_loop_spec
    (collect_result mem CAMERAS_NUMBER 0 (app, out, 0)).2.1.buf CAMERAS_NUMBER 0
    (collect_result mem CAMERAS_NUMBER 0 (app, out, 0)).1 hheads
  refine ⟨_, _, appR, hpop, h1, ?_⟩
  rw [h5]
  have hm : (List.range' 0 CAMERAS_NUMBER).map
        (fun j => gst_call.unref ((collect_result mem CAMERAS_NUMBER 0 (app, out, 0)).2.1.buf j)) =
      (List.range' 0 CAMERAS_NUMBER).map
        (fun j => gst_call.unref (queue_tail (app.render j))) := by
    apply List.map_congr_left
    intro j hj
    have hj' : j < CAMERAS_NUMBER := by
      have := (List.mem_range'_1.mp hj).2
      omega
    simp [collect_result, hj']
  rw [hm]
  simp only [collect_result]

/-! ## Lemmas on the frame rate -/

theorem window_frame_rate_update_first (window : frame_rate_t) (t0 : Nat) :
    window_frame_rate_update t0 (window_frame_rate_reset window) =
      (.zero, { fps_acc := 0, fps_ts := t0 % 2 ^ 32 }) := by
  simp [window_frame_rate_update, window_frame_rate_reset]

theorem window_frame_rate_update_second (t d : Nat) (h0 : t % 2 ^ 32 ≠ 0) (hd1 : 1 ≤ d)
    (hd : 16 * d < 2 ^ 32) :
    window_frame_rate_update (t + d) { fps_acc := 0, fps_ts := t % 2 ^ 32 } =
      (.per d, { fps_acc := 16 * d, fps_ts := (t + d) % 2 ^ 32 }) := by
  have hdelta : ((t + d) % 2 ^ 32 + 2 ^ 32 - t % 2 ^ 32 % 2 ^ 32) % 2 ^ 32 = d := by omega
  have hacc : (d <<< 4) % 2 ^ 32 = 16 * d := by
    rw [Nat.shiftLeft_eq]; omega
  have hne : 16 * d ≠ 0 := by omega
  have hint : ((16 * d + 8) % 2 ^ 32) >>> 4 = d := by
    rw [Nat.shiftRight_eq_div_pow]; omega
  simp only [window_frame_rate_update, hdelta, h0, hacc, hne, hint, if_true, if_false, ne_eq,
    not_false_eq_true]

theorem window_frame_rate_update_steady (t d : Nat) (hd1 : 1 ≤ d) (hd : 16 * d < 2 ^ 32) :
    window_frame_rate_update (t + d) { fps_acc := 16 * d, fps_ts := t % 2 ^ 32 } =
      (.per d, { fps_acc := 16 * d, fps_ts := (t + d) % 2 ^ 32 }) := by
  have hdelta : ((t + d) % 2 ^ 32 + 2 ^ 32 - t % 2 ^ 32 % 2 ^ 32) % 2 ^ 32 = d := by omega
  have hne : 16 * d ≠ 0 := by omega
  have hint : ((16 * d + 8) % 2 ^ 32) >>> 4 = d := by
    rw [Nat.shiftRight_eq_div_pow]; omega
  have hacc : (16 * d + (d + 2 ^ 32 - d) % 2 ^ 32) % 2 ^ 32 = 16 * d := by omega
  simp only [window_frame_rate_update, hdelta, hne, hint, hacc, if_true, if_false, ne_eq,
    not_false_eq_true]

theorem window_frame_rate_updates_steady (d : Nat) (hd1 : 1 ≤ d) (hd : 16 * d < 2 ^ 32) (n : Nat) :
    ∀ t, window_frame_rate_updates (frame_times (t + d) d n)
        { fps_acc := 16 * d, fps_ts := t % 2 ^ 32 } =
      (List.replicate n (.per d), { fps_acc := 16 * d, fps_ts := (t + n * d) % 2 ^ 32 }) := by
  induction n with
  | zero => intro t; simp [frame_times, window_frame_rate_updates]
  | succ n ih =>
    intro t
    have hstep : window_frame_rate_update ((t + d) % 2 ^ 32)
        { fps_acc := 16 * d, fps_ts := t % 2 ^ 32 } =
        (.per d, { fps_acc := 16 * d, fps_ts := (t + d) % 2 ^ 32 }) := by
      have := window_frame_rate_update_steady t d hd1 hd
      simpa [window_frame_rate_update] using this
    have e : t + d + n * d = t + (n + 1) * d := by ring
    simp only [frame_times, window_frame_rate_updates, hstep, ih (t + d), e, List.replicate_succ]

/-! ## Lemmas on the drawing transform -/

theorem to_s32_of_range (x : Int) (h : -(2 ^ 31) ≤ x ∧ x < 2 ^ 31) : to_s32 x = x := by
  unfold to_s32
  omega

theorem window_translate_coordinates_matrix (w h x y : Int) (fullscreen : Int)
    (hfull : fullscreen ≠ 0) (hx : -(2 ^ 31) ≤ x ∧ x < 2 ^ 31) (hy : -(2 ^ 31) ≤ y ∧ y < 2 ^ 31) :
    (∃ m, window_set_transform_matrix w h fullscreen 90 = .ok m ∧
      window_translate_coordinates 90 w h (cairo_matrix_transform_point m x y).1
        (cairo_matrix_transform_point m x y).2 = (x, y)) ∧
    (∃ m, window_set_transform_matrix w h fullscreen 180 = .ok m ∧
      window_translate_coordinates 180 w h (cairo_matrix_transform_point m x y).1
        (cairo_matrix_transform_point m x y).2 = (x, y)) ∧
    (∃ m, window_set_transform_matrix w h fullscreen 270 = .ok m ∧
      window_translate_coordinates 270 w h (cairo_matrix_transform_point m x y).1
        (cairo_matrix_transform_point m x y).2 = (to_s32 (x + (w - h)), y)) := by
  refine ⟨⟨{ xx := 0, xy := -1, x0 := w, yx := 1, yy := 0, y0 := 0 },
      by simp [window_set_transform_matrix, hfull], ?_⟩,
    ⟨{ xx := -1, xy := 0, x0 := w, yx := 0, yy := -1, y0 := h },
      by simp [window_set_transform_matrix, hfull], ?_⟩,
    ⟨{ xx := 0, xy := 1, x0 := 0, yx := -1, yy := 0, y0 := h },
      by simp [window_set_transform_matrix, hfull], ?_⟩⟩
  · have e : w - (-y + w) = y := by ring
    simp [window_translate_coordinates, cairo_matrix_transform_point, e, to_s32_of_range y hy]
  · have e1 : w - (-x + w) = x := by ring
    have e2 : h - (-y + h) = y := by ring
    simp [window_translate_coordinates, cairo_matrix_transform_point, e1, e2,
      to_s32_of_range x hx, to_s32_of_range y hy]
  · have e : w - (-x + h) = x + (w - h) := by ring
    simp [window_translate_coordinates, cairo_matrix_transform_point, e]

/-! ## Lemmas on threads in the GPU context broker -/

theorem ctx_step_inv (t : Nat) (s s' : ctx_system) (h : ctx_step t s = .done s')
    (hI : ctx_inv s) : ctx_inv s' := by
  obtain ⟨hL, hC⟩ := hI
  unfold ctx_step at h
  cases hpc : s.pc t with
  | idle =>
    rw [hpc] at h
    by_cases hc : s.display.current t = .none
    · cases hl : s.display.lock with
      | some o => simp [hc, hl] at h
      | none =>
        simp only [hc, hl, ne_eq, not_true_eq_false, if_false] at h
        injection h with h
        subst h
        constructor
        · intro t'
          by_cases ht : t' = t
          · subst ht; simp
          · have h1 : s.pc t' = .idle := by
              by_contra hn
              have := (hL t').mpr hn
              rw [hl] at this
              cases this
            have h2 : t ≠ t' := fun e => ht e.symm
            simp [Function.update_noteq ht, h1, h2]
        · intro t'
          by_cases ht : t' = t
          · subst ht
            simp [hc]
          · simp only [Function.update_noteq ht]
            exact hC t'
    · simp [hc] at h
  | locked =>
    rw [hpc] at h
    injection h with h
    subst h
    have hlk : s.display.lock = some t := (hL t).mpr (by rw [hpc]; decide)
    constructor
    · intro t'
      by_cases ht : t' = t
      · subst ht; simp [hlk]
      · simp only [Function.update_noteq ht]
        exact hL t'
    · intro t'
      by_cases ht : t' = t
      · subst ht; simp
      · simp only [Function.update_noteq ht]
        exact hC t'
  | bound =>
    rw [hpc] at h
    injection h with h
    subst h
    have hlk : s.display.lock = some t := (hL t).mpr (by rw [hpc]; decide)
    constructor
    · intro t'
      by_cases ht : t' = t
      · subst ht; simp [hlk]
      · simp only [Function.update_noteq ht]
        exact hL t'
    · intro t'
      by_cases ht : t' = t
      · subst ht; simp
      · simp only [Function.update_noteq ht]
        exact hC t'
  | unbound =>
    rw [hpc] at h
    injection h with h
    subst h
    have hlk : s.display.lock = some t := (hL t).mpr (by rw [hpc]; decide)
    constructor
    · intro t'
      by_cases ht : t' = t
      · subst ht; simp
      · have h1 : s.pc t' = .idle := by
          by_contra hn
          have := (hL t').mpr hn
          rw [hlk] at this
          injection this with this
          exact ht this.symm
        simp [Function.update_noteq ht, h1]
    · intro t'
      by_cases ht : t' = t
      · subst ht
        have : s.display.current t' ≠ .shared := by
          intro hs
          have := (hC t').mp hs
          rw [hpc] at this
          cases this
        simp [this]
      · simp only [Function.update_noteq ht]
        exact hC t'

theorem ctx_run_inv (schedule : List Nat) :
    ∀ s, ctx_inv s → ctx_inv (ctx_run schedule s) := by
  induction schedule with
  | nil => intro s h; exact h
  | cons t ts ih =>
    intro s h
    unfold ctx_run
    cases hs : ctx_step t s with
    | done s' => exact ih s' (ctx_step_inv t s s' hs h)
    | blocked => exact ih s h
    | abort d => exact h

theorem ctx_inv_start (s : ctx_system) (hlock : s.display.lock = none)
    (hpc : ∀ t, s.pc t = .idle) (hcur : ∀ t, s.display.current t ≠ .shared) : ctx_inv s := by
  constructor
  · intro t
    simp [hlock, hpc t]
  · intro t
    simp [hcur t, hpc t]

theorem ctx_step_waits (s : ctx_system) (hI : ctx_inv s) (t1 t2 : Nat) (hne : t2 ≠ t1)
    (hlk : s.display.lock = some t1) :
    ctx_step t2 s = .blocked ∨ ctx_step t2 s = .abort s.display := by
  have hidle : s.pc t2 = .idle := by
    by_contra hn
    have := (hI.1 t2).mpr hn
    rw [hlk] at this
    injection this with this
    exact hne this.symm
  unfold ctx_step
  rw [hidle]
  by_cases hc : s.display.current t2 = .none
  · left; simp [hc, hlk]
  · right; simp [hc]

theorem ctx_run_waits (s : ctx_system) (hI : ctx_inv s) (t1 : Nat)
    (hlk : s.display.lock = some t1) (schedule : List Nat) (h : t1 ∉ schedule) :
    ctx_run schedule s = s := by
  induction schedule with
  | nil => rfl
  | cons t ts ih =>
    have ht : t ≠ t1 := fun e => h (by simp [e])
    have hts : t1 ∉ ts := fun hm => h (List.mem_cons_of_mem _ hm)
    unfold ctx_run
    rcases ctx_step_waits s hI t1 t ht hlk with hb | ha
    · rw [hb]; exact ih hts
    · rw [ha]

theorem ctx_step_get (s : ctx_system) (t : Nat) (hpc : s.pc t = .idle)
    (hc : s.display.current t = .none) (hl : s.display.lock = none) :
    ∃ s1 s2, ctx_step t s = .done s1 ∧ ctx_step t s1 = .done s2 ∧
      display_egl_ctx_get t s.display = .done s2.display ∧ s2.pc t = .bound := by
  refine ⟨{ display := { s.display with lock := some t,
                                        calls := s.display.calls ++ [.mutex_lock t] },
            pc := Function.update s.pc t .locked },
          { display := { current := Function.update s.display.current t .shared,
                         lock := some t,
                         calls := s.display.calls ++ [.mutex_lock t] ++
                           [.make_current t .shared] },
            pc := Function.update (Function.update s.pc t .locked) t .bound }, ?_, ?_, ?_, ?_⟩
  · simp [ctx_step, hpc, hc, hl]
  · simp [ctx_step]
  · simp [display_egl_ctx_get, hc, hl]
  · simp

theorem ctx_step_put (s : ctx_system) (t : Nat) (hpc : s.pc t = .bound) :
    ∃ s1 s2, ctx_step t s = .done s1 ∧ ctx_step t s1 = .done s2 ∧
      display_egl_ctx_put t s.display = s2.display ∧ s2.pc t = .idle := by
  refine ⟨{ display := { s.display with
                          current := Function.update s.display.current t .none,
                          calls := s.display.calls ++ [.make_current t .none] },
            pc := Function.update s.pc t .unbound },
          { display := { current := Function.update s.display.current t .none,
                         lock := none,
                         calls := s.display.calls ++ [.make_current t .none] ++
                           [.mutex_unlock t] },
            pc := Function.update (Function.update s.pc t .unbound) t .idle }, ?_, ?_, ?_, ?_⟩
  · simp [ctx_step, hpc]
  · simp [ctx_step]
  · simp [display_egl_ctx_put]
  · simp

/-! ## Lemmas on widgets -/

theorem draw_count_append (widget : Nat) (a b : List widget_op) :
    draw_count widget (a ++ b) = draw_count widget a + draw_count widget b := by
  induction a with
  | nil => simp [draw_count]
  | cons x xs ih =>
    cases x <;> simp [draw_count, ih, Nat.add_assoc]

theorem widget_update_clean (widgets : Nat → widget_data_t widget_world) (widget : Nat)
    (flush : Int) (cr : Nat) (st : widget_state) (h : st.world.dirty widget = 0) :
    widget_update widgets widget flush cr st = .ok st := by
  simp [widget_update, h]

theorem widget_update_dirty (widgets : Nat → widget_data_t widget_world) (widget : Nat)
    (info : widget_info_t widget_world) (hook : Nat → Nat → Nat → widget_world → widget_world)
    (hinfo : (widgets widget).info = some info) (hdraw : info.draw = some hook)
    (flush : Int) (cr : Nat) (st : widget_state) (h : st.world.dirty widget ≠ 0) :
    widget_update widgets widget flush cr st =
      .ok { world := hook widget (widgets widget).cdata cr
              { st.world with dirty := Function.update st.world.dirty widget 0 },
            calls := st.calls ++ [.cairo_create widget cr,
              .draw widget (widgets widget).cdata cr, .cairo_destroy cr] } := by
  simp [widget_update, h, hinfo, hdraw]

theorem widget_calls_clean (widgets : Nat → widget_data_t widget_world) (widget cr : Nat)
    (info : widget_info_t widget_world) (hinfo : (widgets widget).info = some info)
    (cs : List widget_call) :
    ∀ st : widget_state, st.world.dirty widget = 0 →
      ∃ st', widget_calls widgets widget cr cs st = .ok st' ∧ st'.world = st.world ∧
        draw_count widget st'.calls = draw_count widget st.calls := by
  induction cs with
  | nil => intro st _; exact ⟨st, rfl, rfl, rfl⟩
  | cons c cs ih =>
    intro st h
    cases c with
    | update flush =>
      obtain ⟨st', g1, g2, g3⟩ := ih st h
      refine ⟨st', ?_, g2, g3⟩
      simp only [widget_calls, widget_update_clean widgets widget flush cr st h]
      exact g1
    | render target =>
      obtain ⟨st', g1, g2, g3⟩ :=
        ih { st with calls := st.calls ++ [.paint widget target] } h
      refine ⟨st', ?_, g2, ?_⟩
      · simp only [widget_calls, widget_render, widget_update_clean widgets widget 0 cr st h,
          hinfo]
        exact g1
      · rw [g3, draw_count_append]
        simp [draw_count]

/-! ## Lemmas on the track list -/

theorem tracks_create_append (head a : Nat) (l : List Nat) :
    ∀ links, tracks_create head (l ++ [a]) links =
      (track_create (tracks_create head l links) head a).2 := by
  induction l with
  | nil => intro links; rfl
  | cons b l ih =>
    intro links
    show tracks_create head (l ++ [a]) (track_create links head b).2 = _
    rw [ih]
    rfl

theorem track_create_links (links : track_links) (head a : Nat) (ha0 : a ≠ 0) (hh0 : head ≠ 0)
    (hah : a ≠ head) :
    (track_create links head a).1 = a ∧
    (∀ z, (track_create links head a).2.next z =
      if z = links.prev head then a else if z = a then head else links.next z) ∧
    (∀ z, (track_create links head a).2.prev z =
      if z = head then a else if z = a then links.prev head else links.prev z) := by
  have hha : head ≠ a := fun e => hah e.symm
  refine ⟨by simp [track_create, ha0, hh0], ?_, ?_⟩
  · intro z
    simp [track_create, ha0, hh0, Function.update_apply, hha]
  · intro z
    simp [track_create, ha0, hh0, Function.update_apply, hha]

theorem linked_prev_mem (links : track_links) (b : Nat) (l : List Nat) :
    ∀ x, linked links x l b → links.prev b ∈ x :: l := by
  induction l with
  | nil =>
    intro x h
    simp [h.2]
  | cons y l ih =>
    intro x h
    exact List.mem_cons_of_mem _ (ih y h.2.2)

theorem linked_snoc (links : track_links) (head a : Nat) (ha0 : a ≠ 0) (hh0 : head ≠ 0)
    (hah : a ≠ head) (l : List Nat) :
    ∀ x, linked links x l head → (x :: l).Nodup → head ∉ l → a ∉ x :: l →
      linked (track_create links head a).2 x (l ++ [a]) head := by
  obtain ⟨_, hn, hp⟩ := track_create_links links head a ha0 hh0 hah
  induction l with
  | nil =>
    intro x h _ _ ha
    have hax : a ≠ x := fun e => ha (by simp [e])
    obtain ⟨h1, h2⟩ := h
    refine ⟨?_, ?_, ?_, ?_⟩
    · rw [hn, h2]; simp
    · rw [hp, h2]; simp [hah]
    · rw [hn, h2]; simp [hax]
    · rw [hp]; simp
  | cons y l ih =>
    intro x h hnd hh ha
    obtain ⟨h1, h2, h3⟩ := h
    have hmem := linked_prev_mem links head l y h3
    have hx : x ∉ y :: l := (List.nodup_cons.mp hnd).1
    have hxp : x ≠ links.prev head := fun e => hx (e ▸ hmem)
    have hxa : x ≠ a := fun e => ha (by simp [e])
    have hya : y ≠ a := fun e => ha (by simp [e])
    have hyh : y ≠ head := fun e => hh (by simp [e])
    refine ⟨?_, ?_, ?_⟩
    · rw [hn]; simp [hxp, hxa, h1]
    · rw [hp]; simp [hyh, hya, h2]
    · exact ih y h3 (List.nodup_cons.mp hnd).2 (fun hm => hh (List.mem_cons_of_mem _ hm))
        (fun hm => ha (List.mem_cons_of_mem _ hm))

theorem tracks_create_linked (links : track_links) (head : Nat) (hh0 : head ≠ 0)
    (l : List Nat) :
    l.Nodup → head ∉ l → 0 ∉ l →
      linked (tracks_create head l (track_list_init links head)) head l head := by
  induction l using List.reverseRecOn with
  | nil =>
    intro _ _ _
    simp [tracks_create, track_list_init, linked]
  | append_singleton l a ih =>
    intro hnd hh h0
    have hnd' := List.nodup_append.mp hnd
    have hal : a ∉ l := fun hm => hnd'.2.2 hm (by simp)
    have hhl : head ∉ l := fun hm => hh (by simp [hm])
    have hah : a ≠ head := fun e => hh (by simp [e])
    have ha0 : a ≠ 0 := fun e => h0 (by simp [e])
    have h0l : 0 ∉ l := fun hm => h0 (by simp [hm])
    rw [tracks_create_append]
    refine linked_snoc _ head a ha0 hh0 hah l head (ih hnd'.1 hhl h0l) ?_ hhl ?_
    · exact List.nodup_cons.mpr ⟨hhl, hnd'.1⟩
    · intro hm
      rcases List.mem_cons.mp hm with e | hm
      · exact hah e
      · exact hal hm

theorem linked_get (links : track_links) (b : Nat) (l : List Nat) :
    ∀ x, linked links x l b → ∀ i, i ≤ l.length →
      links.next ((x :: l).getD i 0) = (l ++ [b]).getD i 0 ∧
      links.prev ((l ++ [b]).getD i 0) = (x :: l).getD i 0 := by
  induction l with
  | nil =>
    intro x h i hi
    have : i = 0 := by simpa using hi
    subst this
    simpa using h
  | cons y l ih =>
    intro x h i hi
    cases i with
    | zero => simpa using ⟨h.1, h.2.1⟩
    | succ j =>
      have := ih y h.2.2 j (by simpa using hi)
      simpa using this

theorem getD_mem_of_lt (l : List Nat) (k : Nat) (h : k < l.length) : l.getD k 0 ∈ l := by
  rw [List.getD_eq_getElem l 0 h]
  exact List.getElem_mem h

theorem track_steps (links : track_links) (head : Nat) (l : List Nat)
    (hl : linked links head l head) (hne : l ≠ []) (hh : head ∉ l) (h0 : 0 ∉ l) :
    track_next links head 0 = .ok (l.getD 0 0) ∧
    track_prev links head 0 = .ok (l.getD (l.length - 1) 0) ∧
    ∀ k, k < l.length →
      track_next links head (l.getD k 0) =
        .ok (if k + 1 < l.length then l.getD (k + 1) 0 else l.getD 0 0) ∧
      track_prev links head (l.getD k 0) =
        .ok (if k = 0 then l.getD (l.length - 1) 0 else l.getD (k - 1) 0) := by
  have hn : 0 < l.length := List.length_pos.mpr hne
  have hget := linked_get links head l head hl
  have hnh : ∀ k, k < l.length → l.getD k 0 ≠ head :=
    fun k hk e => hh (e ▸ getD_mem_of_lt l k hk)
  have hn0 : ∀ k, k < l.length → l.getD k 0 ≠ 0 :=
    fun k hk e => h0 (e ▸ getD_mem_of_lt l k hk)
  have hnext_head : links.next head = l.getD 0 0 := by
    have := (hget 0 (Nat.zero_le _)).1
    rw [List.getD_append l [head] 0 0 hn] at this
    simpa using this
  have hprev_head : links.prev head = l.getD (l.length - 1) 0 := by
    have := (hget l.length (le_refl _)).2
    rw [List.getD_append_right l [head] 0 l.length (le_refl _)] at this
    obtain ⟨m, hm⟩ : ∃ m, l.length = m + 1 := ⟨l.length - 1, by omega⟩
    rw [hm] at this ⊢
    simpa using this
  have hnext : ∀ k, k < l.length → links.next (l.getD k 0) =
      if k + 1 < l.length then l.getD (k + 1) 0 else head := by
    intro k hk
    have := (hget (k + 1) hk).1
    rw [List.getD_cons_succ] at this
    rw [this]
    by_cases hlt : k + 1 < l.length
    · rw [if_pos hlt, List.getD_append l [head] 0 (k + 1) hlt]
    · rw [if_neg hlt, List.getD_append_right l [head] 0 (k + 1) (by omega)]
      have : k + 1 - l.length = 0 := by omega
      rw [this]
      rfl
  have hprev : ∀ k, k < l.length → links.prev (l.getD k 0) =
      if k = 0 then head else l.getD (k - 1) 0 := by
    intro k hk
    have := (hget k (by omega)).2
    rw [List.getD_append l [head] 0 k hk] at this
    rw [this]
    cases k with
    | zero => simp
    | succ j => simp
  have hb1 : links.next head ≠ head := by rw [hnext_head]; exact hnh 0 hn
  have hb2 : links.prev head ≠ head := by rw [hprev_head]; exact hnh _ (by omega)
  refine ⟨?_, ?_, ?_⟩
  · unfold track_next
    rw [if_neg hb1, if_neg (fun h => h rfl), hnext_head]
  · unfold track_prev
    rw [if_neg hb2, if_neg (fun h => h rfl), hprev_head]
  · intro k hk
    constructor
    · unfold track_next
      rw [if_neg hb1, if_pos (hn0 k hk), hnext k hk, hnext_head]
      by_cases hlt : k + 1 < l.length
      · simp only [hlt, if_true, hnh (k + 1) hlt, if_false]
      · simp only [hlt, if_false, if_true]
    · unfold track_prev
      rw [if_neg hb2, if_pos (hn0 k hk), hprev k hk, hprev_head]
      by_cases hk0 : k = 0
      · simp only [hk0, if_true]
      · simp only [hk0, if_false, hnh (k - 1) (by omega)]

theorem track_walk_index (links : track_links) (head : Nat) (l : List Nat)
    (hl : linked links head l head) (hne : l ≠ []) (hh : head ∉ l) (h0 : 0 ∉ l) (j : Nat) :
    ∀ i, i < l.length →
      track_walk links head j (l.getD i 0) = .ok (l.getD ((i + j) % l.length) 0) := by
  obtain ⟨_, _, hstep⟩ := track_steps links head l hl hne hh h0
  induction j with
  | zero =>
    intro i hi
    simp [track_walk, Nat.mod_eq_of_lt hi]
  | succ j ih =>
    intro i hi
    simp only [track_walk, (hstep i hi).1]
    by_cases hlt : i + 1 < l.length
    · rw [if_pos hlt, ih (i + 1) hlt]
      have : i + 1 + j = i + (j + 1) := by omega
      rw [this]
    · rw [if_neg hlt, ih 0 (by omega)]
      have e : i + (j + 1) = l.length + j := by omega
      rw [e, Nat.add_mod_left, Nat.zero_add]

/-! ## Claims, concluded -/

/-- C21: start with the display lock free and the shared context current on
no thread, and let any number of threads run `display_egl_ctx_get` ...
`display_egl_ctx_put`, statement by statement, in any order of turns. At every
point of the run the shared context is current on at most one thread, and
that thread owns the display lock. While a thread holds the lock, a second
thread that calls `display_egl_ctx_get` with no context current waits in
`pthread_mutex_lock`, and as long as the holder takes no step (it has not
released the lock through `display_egl_ctx_put`) no turn of any other thread
changes anything: the second caller has not bound the shared context. The two
statements of `display_egl_ctx_get`, and of `display_egl_ctx_put`, taken one
after the other, make up the whole call. -/
theorem shared_context_serializes (s0 : ctx_system) (schedule : List Nat)
    (hlock : s0.display.lock = none) (hpc : ∀ t, s0.pc t = .idle)
    (hcur : ∀ t, s0.display.current t ≠ .shared) :
    (∀ t1 t2, (ctx_run schedule s0).display.current t1 = .shared →
      (ctx_run schedule s0).display.current t2 = .shared → t1 = t2) ∧
    (∀ t, (ctx_run schedule s0).display.current t = .shared →
      (ctx_run schedule s0).display.lock = some t) ∧
    (∀ t1 t2, t2 ≠ t1 → (ctx_run schedule s0).display.lock = some t1 →
      (ctx_run schedule s0).display.current t2 = .none →
      ctx_step t2 (ctx_run schedule s0) = .blocked) ∧
    (∀ t1 later, (ctx_run schedule s0).display.lock = some t1 → t1 ∉ later →
      ctx_run later (ctx_run schedule s0) = ctx_run schedule s0 ∧
      ∀ t, t ≠ t1 → (ctx_run later (ctx_run schedule s0)).display.current t ≠ .shared) ∧
    (∀ t, (ctx_run schedule s0).pc t = .idle →
      (ctx_run schedule s0).display.current t = .none →
      (ctx_run schedule s0).display.lock = none →
      ∃ s1 s2, ctx_step t (ctx_run schedule s0) = .done s1 ∧ ctx_step t s1 = .done s2 ∧
        display_egl_ctx_get t (ctx_run schedule s0).display = .done s2.display ∧
        s2.pc t = .bound) ∧
    (∀ t, (ctx_run schedule s0).pc t = .bound →
      ∃ s1 s2, ctx_step t (ctx_run schedule s0) = .done s1 ∧ ctx_step t s1 = .done s2 ∧
        display_egl_ctx_put t (ctx_run schedule s0).display = s2.display ∧
        s2.pc t = .idle) := by
  have hI : ctx_inv (ctx_run schedule s0) :=
    ctx_run_inv schedule s0 (ctx_inv_start s0 hlock hpc hcur)
  have howner : ∀ t, (ctx_run schedule s0).display.current t = .shared →
      (ctx_run schedule s0).display.lock = some t := by
    intro t ht
    have hb := (hI.2 t).mp ht
    exact (hI.1 t).mpr (by rw [hb]; decide)
  refine ⟨?_, howner, ?_, ?_, ?_, ?_⟩
  · intro t1 t2 h1 h2
    have g1 := howner t1 h1
    have g2 := howner t2 h2
    rw [g1] at g2
    injection g2
  · intro t1 t2 hne hlk hc
    rcases ctx_step_waits _ hI t1 t2 hne hlk with hb | ha
    · exact hb
    · have hidle : (ctx_run schedule s0).pc t2 = .idle := by
        by_contra hn
        have := (hI.1 t2).mpr hn
        rw [hlk] at this
        injection this with this
        exact hne this.symm
      simp [ctx_step, hidle, hc, hlk]
  · intro t1 later hlk hnot
    have hsame := ctx_run_waits _ hI t1 hlk later hnot
    refine ⟨hsame, ?_⟩
    intro t ht hs
    rw [hsame] at hs
    have := howner t hs
    rw [hlk] at this
    injection this with this
    exact ht this.symm
  · intro t h1 h2 h3
    exact ctx_step_get _ t h1 h2 h3
  · intro t h1
    exact ctx_step_put _ t h1

/-- Witness for C21: threads 1 and 2 both call `display_egl_ctx_get`. After
the turns 1, 2, 1 thread 1 holds the shared context and thread 2 waits; two
more turns of thread 2 change nothing; after thread 1 has gone through
`display_egl_ctx_put` (turns 1, 1) thread 2 binds the shared context (turns
2, 2) and thread 1 has none. -/
theorem shared_context_serializes_witness :
    (sample_system.display.lock = none ∧ (∀ t, sample_system.pc t = .idle) ∧
      ∀ t, sample_system.display.current t ≠ .shared) ∧
    (ctx_run [1, 2, 1] sample_system).display.current 1 = .shared ∧
    ctx_step 2 (ctx_run [1, 2, 1] sample_system) = .blocked ∧
    ctx_run [2, 2] (ctx_run [1, 2, 1] sample_system) = ctx_run [1, 2, 1] sample_system ∧
    (ctx_run [1, 2, 1, 2, 2, 1, 1, 2, 2] sample_system).display.current 2 = .shared ∧
    (ctx_run [1, 2, 1, 2, 2, 1, 1, 2, 2] sample_system).display.current 1 = .none ∧
    (ctx_run [1, 2, 1, 2, 2, 1, 1, 2, 2] sample_system).display.lock = some 2 :=
  have hcur : ∀ t, sample_system.display.current t ≠ .shared := by
    intro t h
    cases h
  have key := shared_context_serializes sample_system [1, 2, 1] rfl (fun _ => rfl) hcur
  have key2 := shared_context_serializes sample_system [1, 2, 1, 2, 2, 1, 1, 2, 2] rfl
    (fun _ => rfl) hcur
  ⟨⟨rfl, fun _ => rfl, hcur⟩, rfl, key.2.2.1 1 2 (by decide) rfl rfl,
    (key.2.2.2.1 1 [2, 2] rfl (by decide)).1, rfl, rfl, key2.2.1 2 rfl⟩

/-- C22: with end-of-stream clear and a camera index in range,
`sview_input_process` returns 0 and calls `window_schedule_redraw` on the
window when, after its push, the four low bitmask bits are zero, and leaves
the window as it is otherwise. On a window whose redraw flag was clear the
flag is therefore set afterwards exactly when those bits are zero, with one
signal in that case and none otherwise. Under the bitmask/queue invariant the
bits are zero exactly when every camera queue holds a buffer. -/
theorem sview_input_process_schedules (APP_FLAG_EOS : Nat) (app : app_data_t) (i : Nat)
    (buffer : GstBuffer) (hi : i < CAMERAS_NUMBER) (heos : app.flags &&& APP_FLAG_EOS = 0) :
    ∃ app', sview_input_process APP_FLAG_EOS app (i : Int) buffer = .ok (0, app') ∧
      (app'.frames &&& ((1 <<< CAMERAS_NUMBER) - 1) = 0 →
        app'.window = window_schedule_redraw app.window) ∧
      (app'.frames &&& ((1 <<< CAMERAS_NUMBER) - 1) ≠ 0 → app'.window = app.window) ∧
      (app.window.flags &&& WINDOW_FLAG_REDRAW = 0 →
        (app'.window.flags &&& WINDOW_FLAG_REDRAW ≠ 0 ↔
          app'.frames &&& ((1 <<< CAMERAS_NUMBER) - 1) = 0) ∧
        app'.window.signals = app.window.signals +
          (if app'.frames &&& ((1 <<< CAMERAS_NUMBER) - 1) = 0 then 1 else 0)) ∧
      (frames_invariant app →
        (app'.frames &&& ((1 <<< CAMERAS_NUMBER) - 1) = 0 ↔
          ∀ j, j < CAMERAS_NUMBER → app'.render j ≠ [])) := by
  refine ⟨_, sview_input_process_live_eq APP_FLAG_EOS app i buffer hi heos, ?_, ?_, ?_, ?_⟩
  · intro hz
    simp only [hz, if_true]
  · intro hz
    simp only [hz, if_false]
  · intro hclear
    have hbit : app.window.flags.testBit 0 = false := (and_one_shiftLeft_eq_zero _ 0).mp hclear
    show ((if (app.frames &&& not32 (1 <<< i)) &&& ((1 <<< CAMERAS_NUMBER) - 1) = 0 then
          window_schedule_redraw app.window else app.window).flags &&& WINDOW_FLAG_REDRAW ≠ 0 ↔
        (app.frames &&& not32 (1 <<< i)) &&& ((1 <<< CAMERAS_NUMBER) - 1) = 0) ∧
      (if (app.frames &&& not32 (1 <<< i)) &&& ((1 <<< CAMERAS_NUMBER) - 1) = 0 then
          window_schedule_redraw app.window else app.window).signals =
        app.window.signals +
          (if (app.frames &&& not32 (1 <<< i)) &&& ((1 <<< CAMERAS_NUMBER) - 1) = 0 then 1 else 0)
    by_cases hz : (app.frames &&& not32 (1 <<< i)) &&& ((1 <<< CAMERAS_NUMBER) - 1) = 0
    · rw [if_pos hz, if_pos hz, window_schedule_redraw_of_clear app.window hbit]
      have : (app.window.flags ||| WINDOW_FLAG_REDRAW).testBit 0 = true := by
        rw [WINDOW_FLAG_REDRAW, testBit_set]; simp
      exact ⟨⟨fun _ => hz, fun _ => (and_one_shiftLeft_ne_zero _ 0).mpr this⟩, rfl⟩
    · rw [if_neg hz, if_neg hz]
      exact ⟨⟨fun h => absurd hclear h, fun h => absurd h hz⟩, rfl⟩
  · intro hinv
    show (app.frames &&& not32 (1 <<< i)) &&& ((1 <<< CAMERAS_NUMBER) - 1) = 0 ↔
      ∀ j, j < CAMERAS_NUMBER → Function.update app.render i (app.render i ++ [buffer]) j ≠ []
    rw [low_bits_zero_iff]
    constructor
    · intro h j hj
      exact (push_keeps_invariant app i buffer hi hinv j hj).mp (h j hj)
    · intro h j hj
      exact (push_keeps_invariant app i buffer hi hinv j hj).mpr (h j hj)

/-- Witness for C22: the fourth delivery of a round (cameras 0, 1 and 2 have a
buffer queued, camera 3 delivers buffer 9) schedules the redraw. -/
theorem sview_input_process_schedules_witness :
    ∃ app', sview_input_process 1 sample_last ((3 : Nat) : Int) 9 = .ok (0, app') ∧
      app'.frames &&& ((1 <<< CAMERAS_NUMBER) - 1) = 0 ∧
      app'.window = window_schedule_redraw sample_last.window ∧
      app'.window.flags &&& WINDOW_FLAG_REDRAW ≠ 0 :=
  match sview_input_process_schedules 1 sample_last 3 9 (by decide) (by decide) with
  | ⟨app', h, h1, _, h3, _⟩ =>
    have hz : app'.frames &&& ((1 <<< CAMERAS_NUMBER) - 1) = 0 := by
      have h2 : sview_input_process 1 sample_last ((3 : Nat) : Int) 9 = .ok (0, _) := rfl
      rw [h2] at h
      injection h with h
      injection h with _ h
      subst h
      decide
    ⟨app', h, hz, h1 hz, ((h3 (by decide)).1).mpr hz⟩

/-- C23: in a state whose end-of-stream flag is set, `sview_input_process`
with a camera index in range returns 0 and changes nothing: no queue, not the
bitmask, no reference-count call, no window flag or signal. Hence once
`sview_pop_buffers` has purged the queues under end-of-stream, any sequence of
deliveries and `sview_redraw` invocations made while the flag stays set
returns with every queue still empty, no scene rendered, and bitmask,
reference counts and window as the purge left them. -/
theorem sview_input_process_eos_ignored (APP_FLAG_EOS : Nat) (mem : Memory) (fuel : Nat)
    (app : app_data_t) (out : sview_out) (scenes : List scene_call) (calls : List track_call)
    (heos : app.flags &&& APP_FLAG_EOS ≠ 0) (hfuel : 1 ≤ fuel)
    (hin : ∀ i buffer, track_call.input_process i buffer ∈ calls → i < CAMERAS_NUMBER) :
    (∀ i buffer, i < CAMERAS_NUMBER →
      sview_input_process APP_FLAG_EOS app (i : Int) buffer = .ok (0, app)) ∧
    ∃ app1, sview_pop_buffers APP_FLAG_EOS mem app out = .ok (0, app1, out) ∧
      (∀ i, i < CAMERAS_NUMBER → app1.render i = []) ∧
      app1.flags = app.flags ∧ app1.frames = app.frames ∧ app1.window = app.window ∧
      ∃ app2, run_track APP_FLAG_EOS mem fuel calls (app1, out, scenes) =
          some (.ok (app2, out, scenes)) ∧
        (∀ i, i < CAMERAS_NUMBER → app2.render i = []) ∧
        app2.flags = app.flags ∧ app2.frames = app.frames ∧ app2.refs = app1.refs ∧
        app2.window = app.window := by
  refine ⟨fun i buffer hi => sview_input_process_eos APP_FLAG_EOS app i buffer hi heos,
    purge_result CAMERAS_NUMBER 0 app, sview_pop_buffers_eos APP_FLAG_EOS mem app out heos,
    ?_, rfl, rfl, rfl, ?_⟩
  · intro i hi
    simp [purge_result, hi]
  · have h0 : ∀ i, i < CAMERAS_NUMBER → (purge_result CAMERAS_NUMBER 0 app).render i = [] := by
      intro i hi
      simp [purge_result, hi]
    obtain ⟨app2, g1, g2, g3, g4, g5, g6⟩ :=
      run_track_eos APP_FLAG_EOS mem fuel hfuel calls (purge_result CAMERAS_NUMBER 0 app) out
        scenes heos h0 hin
    exact ⟨app2, g1, g2, g3, g4, g5, g6⟩

/-- Witness for C23: end-of-stream is set while one buffer per camera is
queued; after the purge, cameras 0 and 3 deliver around a redraw. -/
theorem sview_input_process_eos_ignored_witness :
    sample_eos.flags &&& 1 ≠ 0 ∧
    (∀ i buffer, i < CAMERAS_NUMBER →
      sview_input_process 1 sample_eos (i : Int) buffer = .ok (0, sample_eos)) ∧
    ∃ app1, sview_pop_buffers 1 sample_memory sample_eos sample_out = .ok (0, app1, sample_out) ∧
      ∃ app2, run_track 1 sample_memory 1
          [.input_process 0 7, .redraw, .input_process 3 8] (app1, sample_out, []) =
            some (.ok (app2, sample_out, [])) ∧
        (∀ i, i < CAMERAS_NUMBER → app2.render i = []) ∧ app2.refs = app1.refs :=
  have hin : ∀ i buffer, track_call.input_process i buffer ∈
      [track_call.input_process 0 7, .redraw, .input_process 3 8] → i < CAMERAS_NUMBER := by
    intro i buffer hm
    simp only [List.mem_cons, track_call.input_process.injEq, List.mem_singleton,
      List.not_mem_nil, or_false] at hm
    rcases hm with ⟨rfl, _⟩ | hm | ⟨rfl, _⟩
    · decide
    · cases hm
    · decide
  match sview_input_process_eos_ignored 1 sample_memory 1 sample_eos sample_out []
    [.input_process 0 7, .redraw, .input_process 3 8] (by decide) (by decide) hin with
  | ⟨h1, app1, h2, _, _, _, _, app2, h3, h4, _, _, h5, _⟩ =>
    ⟨by decide, h1, app1, h2, app2, h3, h4, h5⟩

/-- C25: after `window_frame_rate_reset`, let `window_frame_rate_update` be
called at the 32-bit clock values of the instants `t0`, `t0 + d`,
`t0 + 2 d`, ..., where the first value is not 0, `d ≥ 1` and `16 d < 2 ^ 32`.
The first call returns the rate 0 and leaves the accumulator 0; every later
call leaves the accumulator `16 d` and returns the rate `1e+06 / d`, the
averaged interval `(acc + 8) >> 4` being `d`. For any window with a non-zero
accumulator the update is `acc + delta - ((acc + 8) >> 4)` in `u32`
arithmetic, `delta` being the `u32` difference of the clock value and the
stored timestamp. -/
theorem window_frame_rate_constant_interval (window : frame_rate_t) (t0 d n : Nat)
    (h0 : t0 % 2 ^ 32 ≠ 0) (hd1 : 1 ≤ d) (hd : 16 * d < 2 ^ 32) :
    window_frame_rate_update t0 (window_frame_rate_reset window) =
      (.zero, { fps_acc := 0, fps_ts := t0 % 2 ^ 32 }) ∧
    window_frame_rate_updates (frame_times t0 d (n + 2)) (window_frame_rate_reset window) =
      (.zero :: List.replicate (n + 1) (.per d),
        { fps_acc := 16 * d, fps_ts := (t0 + (n + 1) * d) % 2 ^ 32 }) ∧
    ((16 * d + 8) % 2 ^ 32) >>> 4 = d ∧
    (∀ (now : Nat) (w : frame_rate_t), w.fps_acc ≠ 0 → w.fps_acc < 2 ^ 32 → w.fps_ts < 2 ^ 32 →
      (window_frame_rate_update now w).2.fps_acc =
        (w.fps_acc + (now % 2 ^ 32 + 2 ^ 32 - w.fps_ts) % 2 ^ 32 + 2 ^ 32 -
          (((w.fps_acc + 8) % 2 ^ 32) >>> 4)) % 2 ^ 32 ∧
      (w.fps_acc + 8 < 2 ^ 32 →
        ((w.fps_acc + 8) % 2 ^ 32) >>> 4 = (w.fps_acc + 8) >>> 4)) := by
  refine ⟨window_frame_rate_update_first window t0, ?_, ?_, ?_⟩
  · have h1 : window_frame_rate_update (t0 % 2 ^ 32) (window_frame_rate_reset window) =
        (.zero, { fps_acc := 0, fps_ts := t0 % 2 ^ 32 }) := by
      have := window_frame_rate_update_first window (t0 % 2 ^ 32)
      simpa using this
    have h2 : window_frame_rate_update ((t0 + d) % 2 ^ 32)
        { fps_acc := 0, fps_ts := t0 % 2 ^ 32 } =
        (.per d, { fps_acc := 16 * d, fps_ts := (t0 + d) % 2 ^ 32 }) := by
      have := window_frame_rate_update_second t0 d h0 hd1 hd
      simpa [window_frame_rate_update] using this
    have h3 := window_frame_rate_updates_steady d hd1 hd n (t0 + d)
    have e : t0 + d + n * d = t0 + (n + 1) * d := by ring
    simp only [frame_times, window_frame_rate_updates, h1, h2, h3, e, List.replicate_succ]
  · rw [Nat.shiftRight_eq_div_pow]; omega
  · intro now w hacc hlt hts
    constructor
    · have hy : ((w.fps_acc + 8) % 2 ^ 32) >>> 4 ≤ 2 ^ 32 := by
        rw [Nat.shiftRight_eq_div_pow]; omega
      simp only [window_frame_rate_update, hacc, if_false]
      generalize ((w.fps_acc + 8) % 2 ^ 32) >>> 4 = y at hy ⊢
      omega
    · intro h8
      rw [Nat.mod_eq_of_lt h8]

/-- Witness for C25: frames 40000 microseconds apart, the first at clock
value 5; four calls. -/
theorem window_frame_rate_constant_interval_witness :
    ((5 : Nat) % 2 ^ 32 ≠ 0 ∧ 1 ≤ 40000 ∧ 16 * 40000 < 2 ^ 32) ∧
    window_frame_rate_updates (frame_times 5 40000 4)
        (window_frame_rate_reset { fps_ts := 77, fps_acc := 99 }) =
      ([.zero, .per 40000, .per 40000, .per 40000],
        { fps_acc := 640000, fps_ts := 120005 }) :=
  ⟨⟨by decide, by decide, by decide⟩,
    (window_frame_rate_constant_interval { fps_ts := 77, fps_acc := 99 } 5 40000 2
      (by decide) (by decide) (by decide)).2.1⟩

/-- C26: for a widget with a draw hook that does not itself mark the widget
dirty: `widget_schedule_redraw` sets the dirty flag and calls
`window_schedule_redraw` on the owning window, whose redraw flag is set
afterwards; `widget_update` on a dirty widget clears the flag and invokes the
draw hook exactly once; `widget_update` on a clean widget does nothing. Hence
after one `widget_schedule_redraw` any non-empty sequence of `widget_update`
and `widget_render` calls on the widget invokes the draw hook exactly once in
all. -/
theorem widget_redraw_once (widgets : Nat → widget_data_t widget_world) (widget cr : Nat)
    (info : widget_info_t widget_world) (hook : Nat → Nat → Nat → widget_world → widget_world)
    (hinfo : (widgets widget).info = some info) (hdraw : info.draw = some hook)
    (hkeep : ∀ w : widget_world,
      (hook widget (widgets widget).cdata cr w).dirty widget = w.dirty widget)
    (st : widget_state) :
    ((widget_schedule_redraw widgets widget st).world.dirty widget = 1 ∧
      (widget_schedule_redraw widgets widget st).world.windows (widgets widget).window =
        window_schedule_redraw (st.world.windows (widgets widget).window) ∧
      ((widget_schedule_redraw widgets widget st).world.windows
        (widgets widget).window).flags &&& WINDOW_FLAG_REDRAW ≠ 0 ∧
      (widget_schedule_redraw widgets widget st).calls = st.calls) ∧
    (st.world.dirty widget ≠ 0 → ∀ flush, ∃ st',
      widget_update widgets widget flush cr st = .ok st' ∧
      st'.world.dirty widget = 0 ∧
      st'.calls = st.calls ++ [.cairo_create widget cr,
        .draw widget (widgets widget).cdata cr, .cairo_destroy cr] ∧
      draw_count widget st'.calls = draw_count widget st.calls + 1) ∧
    (st.world.dirty widget = 0 → ∀ flush, widget_update widgets widget flush cr st = .ok st) ∧
    (∀ cs, cs ≠ [] → ∃ st',
      widget_calls widgets widget cr cs (widget_schedule_redraw widgets widget st) = .ok st' ∧
      draw_count widget st'.calls = draw_count widget st.calls + 1 ∧
      st'.world.dirty widget = 0) := by
  have hupd : ∀ (s : widget_state), s.world.dirty widget ≠ 0 → ∀ flush, ∃ st',
      widget_update widgets widget flush cr s = .ok st' ∧
      st'.world.dirty widget = 0 ∧
      st'.calls = s.calls ++ [.cairo_create widget cr,
        .draw widget (widgets widget).cdata cr, .cairo_destroy cr] ∧
      draw_count widget st'.calls = draw_count widget s.calls + 1 := by
    intro s hd flush
    refine ⟨_, widget_update_dirty widgets widget info hook hinfo hdraw flush cr s hd, ?_, rfl,
      ?_⟩
    · show (hook widget (widgets widget).cdata cr _).dirty widget = 0
      rw [hkeep]
      simp
    · show draw_count widget (s.calls ++ _) = _
      rw [draw_count_append]
      simp [draw_count]
  refine ⟨⟨?_, ?_, ?_, rfl⟩, hupd st, ?_, ?_⟩
  · simp [widget_schedule_redraw]
  · simp [widget_schedule_redraw]
  · have hb := window_schedule_redraw_bits (st.world.windows (widgets widget).window) 0
    have hset : (window_schedule_redraw (st.world.windows (widgets widget).window)).flags.testBit 0
        = true := by rw [hb]; simp
    have := (and_one_shiftLeft_ne_zero _ 0).mpr hset
    simpa [widget_schedule_redraw, WINDOW_FLAG_REDRAW] using this
  · intro h flush
    exact widget_update_clean widgets widget flush cr st h
  · intro cs hcs
    have hd : (widget_schedule_redraw widgets widget st).world.dirty widget ≠ 0 := by
      simp [widget_schedule_redraw]
    cases cs with
    | nil => exact absurd rfl hcs
    | cons c cs =>
      cases c with
      | update flush =>
        obtain ⟨s1, g1, g2, _, g4⟩ := hupd (widget_schedule_redraw widgets widget st) hd flush
        obtain ⟨s2, k1, k2, k3⟩ := widget_calls_clean widgets widget cr info hinfo cs s1 g2
        refine ⟨s2, ?_, ?_, ?_⟩
        · simp only [widget_calls, g1]
          exact k1
        · rw [k3, g4]
          rfl
        · rw [k2]; exact g2
      | render target =>
        obtain ⟨s1, g1, g2, _, g4⟩ := hupd (widget_schedule_redraw widgets widget st) hd 0
        obtain ⟨s2, k1, k2, k3⟩ := widget_calls_clean widgets widget cr info hinfo cs
          { s1 with calls := s1.calls ++ [.paint widget target] } g2
        refine ⟨s2, ?_, ?_, ?_⟩
        · simp only [widget_calls, widget_render, g1, hinfo]
          exact k1
        · rw [k3, draw_count_append, g4]
          simp [draw_count]
          rfl
        · rw [k2]; exact g2

/-- Witness for C26: widget 6 with the hook `sample_draw`; after one
`widget_schedule_redraw` the calls render, update, render draw once. -/
theorem widget_redraw_once_witness :
    (∀ w : widget_world, (sample_draw 6 (sample_drawn 6).cdata 50 w).dirty 6 = w.dirty 6) ∧
    ∃ st', widget_calls sample_drawn 6 50 [.render 70, .update 0, .render 70]
        (widget_schedule_redraw sample_drawn 6 sample_widget_state) = .ok st' ∧
      draw_count 6 st'.calls = draw_count 6 sample_widget_state.calls + 1 ∧
      st'.world.dirty 6 = 0 :=
  ⟨fun _ => rfl,
    (widget_redraw_once sample_drawn 6 50 { event := none, draw := some sample_draw } sample_draw
      rfl rfl (fun _ => rfl) sample_widget_state).2.2.2 [.render 70, .update 0, .render 70]
      (by decide)⟩

/-- C27: from a state with end-of-stream clear, the four low bitmask bits
clear and, in every camera queue, one or more distinct buffers (so the
bitmask/queue invariant holds), one `sview_redraw` invocation with no push
meanwhile returns after exactly one render pass. The pass is made with the
tail buffer of every queue, its texture handle and first plane. Every queue
is left empty and the four bits set. The older buffers of every camera are
unreferenced inside `sview_pop_buffers`, before the pass, and are not part of
it; the four rendered buffers are unreferenced after it. -/
theorem sview_redraw_drains_backlog (APP_FLAG_EOS : Nat) (mem : Memory) (f : Nat)
    (app : app_data_t) (out : sview_out) (scenes : List scene_call)
    (heos : app.flags &&& APP_FLAG_EOS = 0)
    (hbits : ∀ i, i < CAMERAS_NUMBER → app.frames.testBit i = false)
    (hq : ∀ i, i < CAMERAS_NUMBER → app.render i ≠ [] ∧ (app.render i).Nodup) :
    frames_invariant app ∧
    ∃ appR outP, sview_redraw APP_FLAG_EOS mem (f + 2) (app, out, scenes) =
        some (.ok (appR, outP, scenes ++
          [{ frames := app.frames,
             buf := (List.range CAMERAS_NUMBER).map (fun i => queue_tail (app.render i)),
             t := (List.range CAMERAS_NUMBER).map
               (fun i => mem.tex (mem.priv (queue_tail (app.render i)))),
             planes := (List.range CAMERAS_NUMBER).map
               (fun i => mem.data0 (mem.priv (queue_tail (app.render i)))),
             ts := Int.tdiv (to_s64 (((List.range CAMERAS_NUMBER).map
               (fun i => (mem.dts (queue_tail (app.render i)) : Int))).sum)) CAMERAS_NUMBER }])) ∧
      (∀ i, i < CAMERAS_NUMBER → appR.render i = [] ∧ appR.frames.testBit i = true) ∧
      (∀ i, i < CAMERAS_NUMBER → queue_tail (app.render i) ∉ (app.render i).dropLast) ∧
      appR.refs = app.refs ++
        (List.range CAMERAS_NUMBER).flatMap
          (fun i => (app.render i).dropLast.map gst_call.unref) ++
        (List.range CAMERAS_NUMBER).map (fun i => gst_call.unref (queue_tail (app.render i))) ∧
      appR.flags = app.flags ∧ appR.window = app.window := by
  have hne : ∀ i, i < CAMERAS_NUMBER → app.render i ≠ [] := fun i hi => (hq i hi).1
  have hz : app.frames &&& ((1 <<< CAMERAS_NUMBER) - 1) = 0 :=
    (low_bits_zero_iff app.frames CAMERAS_NUMBER).mpr hbits
  have hnd : ∀ i, i < CAMERAS_NUMBER →
      queue_kept (app.render i) = [queue_tail (app.render i)] ∧
      queue_dropped (app.render i) = (app.render i).dropLast :=
    fun i hi => queue_nodup (app.render i) (hne i hi) (hq i hi).2
  have hkept : ∀ i, i < CAMERAS_NUMBER → (queue_kept (app.render i)).tail = [] := by
    intro i hi
    rw [(hnd i hi).1]; rfl
  refine ⟨fun i hi => ⟨fun _ => hne i hi, fun _ => hbits i hi⟩, ?_⟩
  obtain ⟨appP, outP, appR, h1, h2, h3, h4, h5, h6, h7, h8, _, h10, h11⟩ :=
    sview_pop_release APP_FLAG_EOS mem app out heos hz hne
  obtain ⟨appP', outP', appR', g1, g4, grefs⟩ :=
    sview_pop_release_refs APP_FLAG_EOS mem app out heos hz hne
  rw [h1] at g1
  injection g1 with g1
  injection g1 with _ g1
  injection g1 with gP gO
  subst gP; subst gO
  rw [h4] at g4
  injection g4 with gR
  subst gR
  have hempty : ∀ i, i < CAMERAS_NUMBER → appR.render i = [] := by
    intro i hi; rw [h7 i hi, hkept i hi]
  have hset : ∀ i, i < CAMERAS_NUMBER → appR.frames.testBit i = true := by
    intro i hi; rw [h8 i hi, hkept i hi]; simp
  have hp2 : sview_pop_buffers APP_FLAG_EOS mem appR outP = .ok (0, appR, outP) :=
    sview_pop_buffers_stalled APP_FLAG_EOS mem appR outP 0 (by decide) (by rw [h5]; exact heos)
      (hset 0 (by decide))
  have hmem : ∀ i, i ∈ List.range CAMERAS_NUMBER → i < CAMERAS_NUMBER :=
    fun i hi => List.mem_range.mp hi
  have hscene : scene_of appP outP =
      { frames := app.frames,
        buf := (List.range CAMERAS_NUMBER).map (fun i => queue_tail (app.render i)),
        t := (List.range CAMERAS_NUMBER).map
          (fun i => mem.tex (mem.priv (queue_tail (app.render i)))),
        planes := (List.range CAMERAS_NUMBER).map
          (fun i => mem.data0 (mem.priv (queue_tail (app.render i)))),
        ts := Int.tdiv (to_s64 (((List.range CAMERAS_NUMBER).map
          (fun i => (mem.dts (queue_tail (app.render i)) : Int))).sum)) CAMERAS_NUMBER } := by
    have e1 : (List.range CAMERAS_NUMBER).map outP.buf =
        (List.range CAMERAS_NUMBER).map (fun i => queue_tail (app.render i)) :=
      List.map_congr_left (fun i hi => h3 i (hmem i hi))
    have e2 : (List.range CAMERAS_NUMBER).map outP.t =
        (List.range CAMERAS_NUMBER).map
          (fun i => mem.tex (mem.priv (queue_tail (app.render i)))) :=
      List.map_congr_left (fun i hi => (h10 i (hmem i hi)).1)
    have e3 : (List.range CAMERAS_NUMBER).map outP.planes =
        (List.range CAMERAS_NUMBER).map
          (fun i => mem.data0 (mem.priv (queue_tail (app.render i)))) :=
      List.map_congr_left (fun i hi => (h10 i (hmem i hi)).2)
    simp only [scene_of, e1, e2, e3, h11, h2]
  refine ⟨appR, outP, ?_, fun i hi => ⟨hempty i hi, hset i hi⟩, ?_, ?_, h5, h6⟩
  · rw [← hscene]
    simp [sview_redraw, h1, h4, hp2]
  · intro i hi hm
    have hs := queue_split (app.render i) (hne i hi)
    have hd := (hq i hi).2
    rw [hs] at hd
    exact (List.nodup_append.mp hd).2.2 hm (by simp)
  · rw [grefs, List.range_eq_range']
    congr 2
    exact flatMap_range_congr _ _ 0 CAMERAS_NUMBER
      (fun j _ hj => by rw [(hnd j (by omega)).2])

/-- Witness for C27: two buffers per camera, `10 i + 1` then `10 i + 2`; the
pass renders 2, 12, 22, 32 and the buffers 1, 11, 21, 31 are released first. -/
theorem sview_redraw_drains_backlog_witness :
    (sample_backlog.flags &&& 1 = 0 ∧
      (∀ i, i < CAMERAS_NUMBER → sample_backlog.frames.testBit i = false) ∧
      (∀ i, i < CAMERAS_NUMBER →
        sample_backlog.render i ≠ [] ∧ (sample_backlog.render i).Nodup)) ∧
    ∃ appR outP scene, sview_redraw 1 sample_memory 2 (sample_backlog, sample_out, []) =
        some (.ok (appR, outP, [scene])) ∧
      scene.buf = [2, 12, 22, 32] ∧
      (∀ i, i < CAMERAS_NUMBER → appR.render i = [] ∧ appR.frames.testBit i = true) ∧
      appR.refs = [.unref 1, .unref 11, .unref 21, .unref 31,
        .unref 2, .unref 12, .unref 22, .unref 32] :=
  have hb : ∀ i, i < CAMERAS_NUMBER → sample_backlog.frames.testBit i = false := by
    intro i _; simp [sample_backlog]
  have hq : ∀ i, i < CAMERAS_NUMBER →
      sample_backlog.render i ≠ [] ∧ (sample_backlog.render i).Nodup := by
    intro i _; simp [sample_backlog]
  match (sview_redraw_drains_backlog 1 sample_memory 0 sample_backlog sample_out []
    (by decide) hb hq).2 with
  | ⟨appR, outP, h1, h2, _, h4, _, _⟩ =>
    ⟨⟨by decide, hb, hq⟩, appR, outP, _, h1, rfl, h2, by rw [h4]; rfl⟩

/-- C28 fails for transform 270 on a window that is not square: for a
fullscreen 1280 x 800 window `window_set_transform_matrix` installs the matrix
that sends `(x, y)` to `(y, 800 - x)`, so the point `(0, 0)` is drawn at
`(0, 800)`, and `window_translate_coordinates` sends `(0, 800)` to
`(1280 - 800, 0) = (480, 0)`, not back to `(0, 0)`. For 90 and 180 on the same
window the point comes back. -/
theorem window_translate_coordinates_270_diverges :
    window_set_transform_matrix 1280 800 1 270 =
      .ok { xx := 0, xy := 1, x0 := 0, yx := -1, yy := 0, y0 := 800 } ∧
    cairo_matrix_transform_point { xx := 0, xy := 1, x0 := 0, yx := -1, yy := 0, y0 := 800 } 0 0 =
      (0, 800) ∧
    window_translate_coordinates 270 1280 800 0 800 = (480, 0) ∧
    window_set_transform_matrix 1280 800 1 90 =
      .ok { xx := 0, xy := -1, x0 := 1280, yx := 1, yy := 0, y0 := 0 } ∧
    cairo_matrix_transform_point { xx := 0, xy := -1, x0 := 1280, yx := 1, yy := 0, y0 := 0 } 0 0 =
      (1280, 0) ∧
    window_translate_coordinates 90 1280 800 1280 0 = (0, 0) :=
  ⟨rfl, rfl, rfl, rfl, rfl, rfl⟩

/-- C30: initialise the list head and create one or more tracks with
`track_create` (the allocations succeed, at distinct addresses other than the
head). For every track `t` of the list, `track_next` returns a track `u` of
the list, not the head, with `track_prev` of `u` being `t`; likewise
`track_prev` returns a track of the list, not the head, whose `track_next` is
`t`. Starting from no current track, the `k + 1`-th `track_next` returns the
track created `k mod n`-th (counting from 0), so the tracks are visited in
creation order and the step after the last leads to the first; `track_prev`
from no current track returns the last. No call aborts. -/
theorem track_list_walks (links0 : track_links) (head : Nat) (tracks : List Nat)
    (hh0 : head ≠ 0) (hne : tracks ≠ []) (hnd : tracks.Nodup) (hh : head ∉ tracks)
    (h0 : 0 ∉ tracks) :
    (∀ t, t ∈ tracks → ∃ u,
      track_next (tracks_create head tracks (track_list_init links0 head)) head t = .ok u ∧
      u ∈ tracks ∧ u ≠ head ∧
      track_prev (tracks_create head tracks (track_list_init links0 head)) head u = .ok t) ∧
    (∀ t, t ∈ tracks → ∃ u,
      track_prev (tracks_create head tracks (track_list_init links0 head)) head t = .ok u ∧
      u ∈ tracks ∧ u ≠ head ∧
      track_next (tracks_create head tracks (track_list_init links0 head)) head u = .ok t) ∧
    (∀ k, track_walk (tracks_create head tracks (track_list_init links0 head)) head (k + 1) 0 =
      .ok (tracks.getD (k % tracks.length) 0)) ∧
    track_next (tracks_create head tracks (track_list_init links0 head)) head
      (tracks.getD (tracks.length - 1) 0) = .ok (tracks.getD 0 0) ∧
    track_prev (tracks_create head tracks (track_list_init links0 head)) head 0 =
      .ok (tracks.getD (tracks.length - 1) 0) := by
  have hl := tracks_create_linked links0 head hh0 tracks hnd hh h0
  have hn : 0 < tracks.length := List.length_pos.mpr hne
  obtain ⟨hs0, hp0, hstep⟩ := track_steps _ head tracks hl hne hh h0
  have hidx : ∀ t, t ∈ tracks → ∃ k, k < tracks.length ∧ t = tracks.getD k 0 := by
    intro t ht
    obtain ⟨k, hk, e⟩ := List.mem_iff_getElem.mp ht
    exact ⟨k, hk, by rw [List.getD_eq_getElem tracks 0 hk, e]⟩
  have hnh : ∀ k, k < tracks.length → tracks.getD k 0 ≠ head :=
    fun k hk e => hh (e ▸ getD_mem_of_lt tracks k hk)
  refine ⟨?_, ?_, ?_, ?_, hp0⟩
  · intro t ht
    obtain ⟨k, hk, rfl⟩ := hidx t ht
    by_cases hlt : k + 1 < tracks.length
    · refine ⟨tracks.getD (k + 1) 0, ?_, getD_mem_of_lt tracks _ hlt, hnh _ hlt, ?_⟩
      · rw [(hstep k hk).1, if_pos hlt]
      · rw [(hstep (k + 1) hlt).2, if_neg (Nat.succ_ne_zero k)]
        rfl
    · refine ⟨tracks.getD 0 0, ?_, getD_mem_of_lt tracks _ hn, hnh _ hn, ?_⟩
      · rw [(hstep k hk).1, if_neg hlt]
      · rw [(hstep 0 hn).2, if_pos rfl]
        have : tracks.length - 1 = k := by omega
        rw [this]
  · intro t ht
    obtain ⟨k, hk, rfl⟩ := hidx t ht
    by_cases hk0 : k = 0
    · have hlast : tracks.length - 1 < tracks.length := by omega
      refine ⟨tracks.getD (tracks.length - 1) 0, ?_, getD_mem_of_lt tracks _ hlast,
        hnh _ hlast, ?_⟩
      · rw [(hstep k hk).2, if_pos hk0]
      · rw [(hstep _ hlast).1, if_neg (by omega), hk0]
    · have hpred : k - 1 < tracks.length := by omega
      refine ⟨tracks.getD (k - 1) 0, ?_, getD_mem_of_lt tracks _ hpred, hnh _ hpred, ?_⟩
      · rw [(hstep k hk).2, if_neg hk0]
      · rw [(hstep _ hpred).1, if_pos (by omega)]
        have : k - 1 + 1 = k := by omega
        rw [this]
  · intro k
    have hw := track_walk_index _ head tracks hl hne hh h0 k 0 hn
    rw [Nat.zero_add] at hw
    rw [track_walk, hs0]
    exact hw
  · have hlast : tracks.length - 1 < tracks.length := by omega
    rw [(hstep _ hlast).1, if_neg (by omega)]

/-- Witness for C30: the head at 100 and three tracks created at 7, 8, 9;
the fifth `track_next` from no current track is at 8, the step after 9 leads
to 7, and `track_prev` undoes `track_next` at 9. -/
theorem track_list_walks_witness :
    ((100 : Nat) ≠ 0 ∧ [7, 8, 9] ≠ ([] : List Nat) ∧ [7, 8, 9].Nodup ∧ 100 ∉ [7, 8, 9] ∧
      0 ∉ [7, 8, 9]) ∧
    track_walk (tracks_create 100 [7, 8, 9] (track_list_init sample_links 100)) 100 5 0 =
      .ok 8 ∧
    track_next (tracks_create 100 [7, 8, 9] (track_list_init sample_links 100)) 100 9 = .ok 7 ∧
    ∃ u, track_next (tracks_create 100 [7, 8, 9] (track_list_init sample_links 100)) 100 9 =
        .ok u ∧
      track_prev (tracks_create 100 [7, 8, 9] (track_list_init sample_links 100)) 100 u =
        .ok 9 :=
  have key := track_list_walks sample_links 100 [7, 8, 9] (by decide) (by decide) (by decide)
    (by decide) (by decide)
  match key.1 9 (by decide) with
  | ⟨u, h1, _, _, h2⟩ =>
    ⟨⟨by decide, by decide, by decide, by decide, by decide⟩, key.2.2.1 4, key.2.2.2.1,
      u, h1, h2⟩

end Utest
